import Mathlib

/-!
# Streaming music player (`esp32_music.cc`) and preview scaling (`otto_emoji_display.cc`)

A shallow embedding of the shared audio buffer used by `DownloadAudioStream`,
`PlayAudioStream` and `ClearAudioBuffer`, of `UpdateLyricDisplay`, of `DownloadLyrics`
with its LRC parser, of the playback worker `PlayAudioStream` with `SkipId3Tag`, of the
download worker `DownloadAudioStream`, of `ResetSampleRate` and `StopStreaming`, of
`url_encode`, and of `OttoEmojiDisplay::SetPreviewScaling`, followed by the properties
established about them.

Conventions.
* `size_t` is the 32-bit unsigned type of the target: arithmetic on it is taken
  modulo `SIZE_MOD = 2 ^ 32`.
* `MAX_BUFFER_SIZE` and `MIN_BUFFER_SIZE` are declared in the class header; the functions
  below take them as parameters.
* A `std::string` is the list of its characters; `url_encode` takes it as its bytes.
* What the surroundings (transport, decoder, codec, other threads) answer is an argument of
  the function that asks; the calls a function makes are recorded in order.
-/

namespace Esp32Music

/-! ## The shared audio buffer -/

/-- Number of values of a `size_t` on the 32-bit target. -/
def SIZE_MOD : Nat := 2 ^ 32

/-- The `chunk_size` constant of `DownloadAudioStream` (bytes requested per `Read`). -/
def chunk_size : Nat := 4096

/-- An `AudioChunk`: the bytes of the heap block `data` points to, and the recorded
`size`. -/
structure AudioChunk where
  data : List Nat
  size : Nat
deriving DecidableEq, Repr

/-- The two members guarded by `buffer_mutex_`: the queue `audio_buffer_` (front of the
`std::queue` first) and the byte counter `buffer_size_`. -/
structure Buffer where
  audio_buffer_ : List AudioChunk
  buffer_size_ : Nat
deriving DecidableEq, Repr

/-- The buffer of a freshly constructed player (and the one `ClearAudioBuffer` leaves). -/
def Buffer.empty : Buffer := { audio_buffer_ := [], buffer_size_ := 0 }

/-- Sum of the `size` fields of a list of chunks. -/
def sumSizes : List AudioChunk → Nat
  | [] => 0
  | c :: cs => c.size + sumSizes cs

/-- Predicate of the Downloader's `buffer_cv_.wait`:
`buffer_size_ < MAX_BUFFER_SIZE || !is_downloading_`. -/
def pushWaitPred (MAX_BUFFER_SIZE : Nat) (s : Buffer) (is_downloading : Bool) : Bool :=
  decide (s.buffer_size_ < MAX_BUFFER_SIZE) || !is_downloading

/-- What the locked block at the end of one Downloader iteration did. -/
structure PushOutcome where
  /-- Buffer members when the lock is released. -/
  buf : Buffer
  /-- The block handed to `heap_caps_free`, if any. -/
  freed : Option (List Nat)
  /-- Whether `break` was executed. -/
  leave_loop : Bool
deriving DecidableEq, Repr

/-- The locked block of `DownloadAudioStream` that follows the `memcpy` into
`chunk_data`: wait for the predicate, then either enqueue `AudioChunk(chunk_data,
bytes_read)` and add `bytes_read` to the counter, or free the block and `break`.
`is_downloading` is the value of the flag read by the predicate that ends the wait and by
the `if` after it; `none` means the predicate is false, so the wait has not returned. -/
def pushChunk (MAX_BUFFER_SIZE : Nat) (s : Buffer) (chunk_data : List Nat)
    (bytes_read : Nat) (is_downloading : Bool) : Option PushOutcome :=
  if pushWaitPred MAX_BUFFER_SIZE s is_downloading then
    if is_downloading then
      some { buf := { audio_buffer_ := s.audio_buffer_ ++ [⟨chunk_data, bytes_read⟩]
                      buffer_size_ := (s.buffer_size_ + bytes_read) % SIZE_MOD }
             freed := none
             leave_loop := false }
    else
      some { buf := s, freed := some chunk_data, leave_loop := true }
  else
    none

/-- The locked block of `PlayAudioStream` that takes a chunk: with an empty queue
nothing is taken (the loop `break`s, or waits and `continue`s); otherwise the front
chunk is removed and its `size` subtracted from the counter (in `size_t`). -/
def popChunk (s : Buffer) : Buffer × Option AudioChunk :=
  match s.audio_buffer_ with
  | [] => (s, none)
  | chunk :: rest =>
      ({ audio_buffer_ := rest
         buffer_size_ := (s.buffer_size_ + (SIZE_MOD - chunk.size % SIZE_MOD)) % SIZE_MOD },
       some chunk)

/-- The function `ClearAudioBuffer`: pop (and free) every chunk, then set the counter to 0. Returns
the new buffer and the blocks that were freed. -/
def ClearAudioBuffer (s : Buffer) : Buffer × List (List Nat) :=
  ({ audio_buffer_ := [], buffer_size_ := 0 }, s.audio_buffer_.map AudioChunk.data)

/-- One operation on the buffer, performed under `buffer_mutex_`. -/
inductive Op where
  /-- The Downloader's locked block, for a chunk of `bytes_read` bytes. -/
  | push (chunk_data : List Nat) (bytes_read : Nat) (is_downloading : Bool)
  /-- The PlaybackEngine's locked block. -/
  | pop
  /-- A call of `ClearAudioBuffer`. -/
  | clear
deriving DecidableEq, Repr

/-- The buffer together with a record of the chunks enqueued and dequeued so far. -/
structure Sys where
  buf : Buffer
  pushed : List AudioChunk
  popped : List AudioChunk
deriving DecidableEq, Repr

/-- The initial system: empty buffer, nothing enqueued or dequeued. -/
def Sys.init : Sys := { buf := Buffer.empty, pushed := [], popped := [] }

/-- Effect of one operation; `none` when the operation is a push whose wait has not
returned. -/
def step (MAX_BUFFER_SIZE : Nat) (s : Sys) : Op → Option Sys
  | Op.push chunk_data bytes_read is_downloading =>
      match pushChunk MAX_BUFFER_SIZE s.buf chunk_data bytes_read is_downloading with
      | none => none
      | some out =>
          some { buf := out.buf
                 pushed := if is_downloading then s.pushed ++ [⟨chunk_data, bytes_read⟩]
                           else s.pushed
                 popped := s.popped }
  | Op.pop =>
      match popChunk s.buf with
      | (b, none) => some { s with buf := b }
      | (b, some chunk) => some { s with buf := b, popped := s.popped ++ [chunk] }
  | Op.clear => some { s with buf := (ClearAudioBuffer s.buf).1 }

/-- Run a sequence of operations in order. -/
def run (MAX_BUFFER_SIZE : Nat) : Sys → List Op → Option Sys
  | s, [] => some s
  | s, op :: ops =>
      match step MAX_BUFFER_SIZE s op with
      | none => none
      | some s' => run MAX_BUFFER_SIZE s' ops

/-- A push as the Downloader makes it: `bytes_read` is the positive result of
`http->Read(buffer, chunk_size)` and `chunk_data` holds that many bytes. -/
def Op.wellFormed : Op → Prop
  | Op.push chunk_data bytes_read _ =>
      1 ≤ bytes_read ∧ bytes_read ≤ chunk_size ∧ chunk_data.length = bytes_read
  | _ => True

instance (op : Op) : Decidable op.wellFormed := by
  cases op <;> unfold Op.wellFormed <;> infer_instance

/-- Operations other than `ClearAudioBuffer`. -/
def Op.isPushOrPop : Op → Bool
  | Op.clear => false
  | _ => true

/-- Invariant of the buffer under Downloader pushes: the counter is the sum of the queued
sizes and stays below `MAX_BUFFER_SIZE + chunk_size`. -/
def BufferInv (MAX_BUFFER_SIZE : Nat) (b : Buffer) : Prop :=
  b.buffer_size_ = sumSizes b.audio_buffer_ ∧ b.buffer_size_ < MAX_BUFFER_SIZE + chunk_size

/-- A run of 65 Downloader pushes with the download flag set: one chunk of 1 byte, then
64 chunks of 4096 bytes. -/
def pushes_1_then_64_full : List Op :=
  Op.push (List.replicate 1 0) 1 true
    :: List.replicate 64 (Op.push (List.replicate 4096 0) 4096 true)

/-! ## The lyric tracker -/

/-- A `std::string`, as the list of its characters. -/
abbrev Text := List Char

/-- The members read and written by `UpdateLyricDisplay`: the cue list `lyrics_`
(timestamp in ms, text) and the active index `current_lyric_index_` (-1 for none). -/
structure LyricState where
  lyrics_ : List (Int × Text)
  current_lyric_index_ : Int
deriving DecidableEq, Repr

/-- The `for` loop of `UpdateLyricDisplay`, run on the cues from position `i` on:
while the cue at `i` has a timestamp `<= current_time_ms` it sets `new_lyric_index = i`
and moves on; it stops (`break`) at the first later timestamp or at the end. -/
def scanLyrics (current_time_ms : Int) : List (Int × Text) → Int → Int → Int
  | [], _, new_lyric_index => new_lyric_index
  | cue :: rest, i, new_lyric_index =>
      if cue.1 ≤ current_time_ms then scanLyrics current_time_ms rest (i + 1) i
      else new_lyric_index

/-- The value of `new_lyric_index` computed by `UpdateLyricDisplay`: the scan starts at
`start_index`, the stored index when that is `>= 0` and 0 otherwise, with
`new_lyric_index` initially -1. -/
def newLyricIndex (s : LyricState) (current_time_ms : Int) : Int :=
  let start_index := if s.current_lyric_index_ ≥ 0 then s.current_lyric_index_ else 0
  scanLyrics current_time_ms (s.lyrics_.drop start_index.toNat) start_index (-1)

/-- The text of cue `index`, or the empty string when `index` is not a position of the
list (`lyric_text` in `UpdateLyricDisplay`). -/
def lyricTextAt (lyrics : List (Int × Text)) (index : Int) : Text :=
  if 0 ≤ index ∧ index < (lyrics.length : Int) then
    match lyrics[index.toNat]? with
    | some cue => cue.2
    | none => []
  else []

/-- The call `UpdateLyricDisplay(current_time_ms)`. `display` tells whether `GetDisplay()` returned
a display. The result is the new state and the text passed to
`SetChatMessage("lyric", text)` when that call was made. -/
def UpdateLyricDisplay (display : Bool) (s : LyricState) (current_time_ms : Int) :
    LyricState × Option Text :=
  if s.lyrics_.isEmpty then (s, none)
  else
    let new_lyric_index := newLyricIndex s current_time_ms
    if new_lyric_index ≠ s.current_lyric_index_ then
      ({ s with current_lyric_index_ := new_lyric_index },
       if display then some (lyricTextAt s.lyrics_ new_lyric_index) else none)
    else (s, none)

/-- The active index after each of a sequence of `UpdateLyricDisplay` calls. -/
def activeIndices (display : Bool) : LyricState → List Int → List Int
  | _, [] => []
  | s, t :: ts =>
      (UpdateLyricDisplay display s t).1.current_lyric_index_
        :: activeIndices display (UpdateLyricDisplay display s t).1 ts

/-- The cue list is in ascending order of timestamp. -/
def SortedByTime (lyrics : List (Int × Text)) : Prop :=
  lyrics.Pairwise (fun a b => a.1 ≤ b.1)

/-- Index `k` is the largest position whose cue has a timestamp `<= t`, or -1 when no cue
has one. -/
def IsLastCueAtOrBefore (lyrics : List (Int × Text)) (t : Int) (k : Int) : Prop :=
  (k = -1 ∨ (0 ≤ k ∧ ∃ cue, lyrics[k.toNat]? = some cue ∧ cue.1 ≤ t)) ∧
    ∀ (j : Nat) (cue : Int × Text), lyrics[j]? = some cue → cue.1 ≤ t → (j : Int) ≤ k

/-- Three cues at 1000, 2000 and 2000 ms. -/
def sampleLyrics : List (Int × Text) :=
  [(1000, "one".toList), (2000, "two".toList), (2000, "three".toList)]

/-! ## The LRC parser of `DownloadLyrics` -/

/-- The test `isdigit((unsigned char)c)` in the C locale. -/
def isdigit (c : Char) : Bool := decide ('0' ≤ c) && decide (c ≤ '9')

/-- The call `s.find(c)`: position of the first occurrence of `c`; `none` is `npos`. -/
def find (c : Char) : Text → Option Nat
  | [] => none
  | x :: xs => if x = c then some 0 else (find c xs).map (· + 1)

/-- The call `s.substr(pos, len)` for `pos <= s.size()`. -/
def substr (s : Text) (pos len : Nat) : Text := (s.drop pos).take len

/-- The successive values of `line` in the `while (pos < lyric_content.size())` loop: the
content is cut at each line feed; a last piece without line feed is a line when it is not
empty. -/
def splitLines : Text → List Text
  | [] => []
  | c :: rest =>
      if c = '\n' then [] :: splitLines rest
      else
        match splitLines rest with
        | [] => [[c]]
        | line :: lines => (c :: line) :: lines

/-- Reduce an integer to the range of a 32-bit `int` (two's complement). -/
def wrapInt32 (x : Int) : Int := (x + 2147483648) % 4294967296 - 2147483648

/-- Value of a string of decimal digits. -/
def digitsValue (s : Text) : Nat :=
  s.foldl (fun acc c => 10 * acc + (c.toNat - '0'.toNat)) 0

/-- The call `std::stoi(s)` for a string `s` of decimal digits, the only kind the parser passes:
`none` stands for the exception thrown on the empty string (`invalid_argument`) and on a
value above `INT_MAX` (`out_of_range`). -/
def stoi (s : Text) : Option Int :=
  if s.isEmpty then none
  else if digitsValue s > 2147483647 then none
  else some (digitsValue s)

/-- A value of type `float` (IEEE 754 binary32). A finite value is carried exactly, as
the fraction `num / den` with a sign. -/
inductive F32 where
  | finite (neg : Bool) (num den : Nat)
  | inf (neg : Bool)
  | nan
deriving DecidableEq, Repr

/-- Number of binary digits of `n` (0 for 0), with `fuel` bounding the recursion. -/
def bitLengthAux : Nat → Nat → Nat
  | 0, _ => 0
  | fuel + 1, n => if n = 0 then 0 else bitLengthAux fuel (n / 2) + 1

/-- Number of binary digits of `n`. -/
def bitLength (n : Nat) : Nat := bitLengthAux n n

/-- The integer nearest to `n / d`, ties going to the even one. -/
def roundHalfEven (n d : Nat) : Nat :=
  let q := n / d
  let r := n % d
  if 2 * r < d then q
  else if d < 2 * r then q + 1
  else if q % 2 = 0 then q
  else q + 1

/-- Numerator and denominator of `num / den` divided by `2 ^ e`. -/
def scaleByPow2 (num den : Nat) (e : Int) : Nat × Nat :=
  if e < 0 then (num * 2 ^ e.natAbs, den) else (num, den * 2 ^ e.toNat)

/-- Round the positive fraction `num / den` to the nearest number with a 24-bit
significand (round to nearest, ties to even; the exponent range is not limited). The
result is `m * 2 ^ e` with `2 ^ 23 <= m <= 2 ^ 24`, returned as a fraction. -/
def roundToBinary32 (num den : Nat) : Nat × Nat :=
  if num = 0 ∨ den = 0 then (0, 1)
  else
    let e0 : Int := (bitLength num : Int) - (bitLength den : Int) - 24
    let e : Int :=
      if (scaleByPow2 num den e0).1 ≥ 2 ^ 24 * (scaleByPow2 num den e0).2 then e0 + 1 else e0
    let m := roundHalfEven (scaleByPow2 num den e).1 (scaleByPow2 num den e).2
    if e < 0 then (m, 2 ^ e.natAbs) else (m * 2 ^ e.toNat, 1)

/-- The `float` product `x * k` for a non-negative integer constant `k` that is itself a
`float` (such as 1000): the exact product rounded to nearest. A product beyond the
largest finite `float` is left finite here; `f32_to_int` saturates on it either way. -/
def f32_mul (x : F32) (k : Nat) : F32 :=
  match x with
  | F32.finite neg num den =>
      F32.finite neg (roundToBinary32 (num * k) den).1 (roundToBinary32 (num * k) den).2
  | F32.inf neg => F32.inf neg
  | F32.nan => F32.nan

/-- The conversion `(int)x`: truncation toward zero. For a value outside the range of
`int`, for an infinity and for a NaN the conversion is not defined by C++; the model
saturates (and gives 0 for a NaN). -/
def f32_to_int (x : F32) : Int :=
  match x with
  | F32.finite neg num den =>
      let t : Int := if neg then -((num / den : Nat) : Int) else ((num / den : Nat) : Int)
      if t > 2147483647 then 2147483647 else if t < -2147483648 then -2147483648 else t
  | F32.inf neg => if neg then -2147483648 else 2147483647
  | F32.nan => 0

/-- The call `std::stof(s)` on an argument that begins with a plain decimal numeral
(`digits`, `digits.digits`, `digits.` or `.digits`, not the start of a hexadecimal or
exponent form): the numeral's value rounded to the nearest `float`. `none` stands for the
`invalid_argument` exception thrown when the argument begins with no numeral. Arguments
starting with white space, a sign, `0x`, `inf` or `nan`, and numerals continued by an
exponent part, are outside this model. -/
def stof_decimal (s : Text) : Option F32 :=
  let int_part := s.takeWhile isdigit
  let after_int := s.dropWhile isdigit
  let frac_part :=
    match after_int with
    | '.' :: rest => rest.takeWhile isdigit
    | _ => []
  if int_part.isEmpty && frac_part.isEmpty then none
  else
    some (F32.finite false
      (roundToBinary32 (digitsValue (int_part ++ frac_part)) (10 ^ frac_part.length)).1
      (roundToBinary32 (digitsValue (int_part ++ frac_part)) (10 ^ frac_part.length)).2)

/-- The body of the parsing loop for one `line`: strip one trailing carriage return, skip
an empty line, and for a line longer than 4 characters starting with `[` read the tag up
to the first `]`, require a `:` in it with only digits before, and convert minutes
(`std::stoi`) and seconds (`std::stof`, passed as `stof`); an exception from either skips
the line. The result is the cue pushed to `lyrics_`, or `none` when nothing is pushed.
`int` arithmetic wraps to 32 bits. -/
def parseLine (stof : Text → Option F32) (line0 : Text) : Option (Int × Text) :=
  let line := if !line0.isEmpty && line0.getLast? == some '\r' then line0.dropLast else line0
  if line.isEmpty then none
  else if decide (line.length > 4) && line.head? == some '[' then
    match find ']' line with
    | none => none
    | some rb =>
        let tag := substr line 1 (rb - 1)
        let text := if rb + 1 < line.length then line.drop (rb + 1) else []
        match find ':' tag with
        | none => none
        | some colon =>
            if (tag.take colon).all isdigit then
              match stoi (tag.take colon) with
              | none => none
              | some mm =>
                  match stof (tag.drop (colon + 1)) with
                  | none => none
                  | some ss =>
                      some (wrapInt32 (wrapInt32 (mm * 60000) + f32_to_int (f32_mul ss 1000)),
                            text)
            else none
  else none

/-- The cues pushed to `lyrics_` by the parsing loop, in line order. -/
def parseCues (stof : Text → Option F32) (lyric_content : Text) : List (Int × Text) :=
  (splitLines lyric_content).filterMap (parseLine stof)

/-- The `operator<` of `std::string`: lexicographic comparison of the characters by their
unsigned value, a proper prefix being smaller. -/
def str_lt : Text → Text → Bool
  | [], [] => false
  | [], _ :: _ => true
  | _ :: _, [] => false
  | a :: as, b :: bs =>
      if a.toNat < b.toNat then true
      else if b.toNat < a.toNat then false
      else str_lt as bs

/-- The `operator<` of `std::pair<int, std::string>`:
`a.first < b.first || (!(b.first < a.first) && a.second < b.second)`. -/
def cue_lt (a b : Int × Text) : Bool :=
  decide (a.1 < b.1) || (!decide (b.1 < a.1) && str_lt a.2 b.2)

/-- The order `std::sort` arranges the cues in: `a` may stand before `b` when `b < a`
is false. -/
def cue_le (a b : Int × Text) : Prop := cue_lt b a = false

instance : DecidableRel cue_le := fun a b => by unfold cue_le; infer_instance

/-- The call `std::sort(lyrics_.begin(), lyrics_.end())`: the rearrangement of the cues that is
ascending for `operator<` of the pairs. That order is total, so this rearrangement is
unique (`std_sort_unique`); it is computed here by insertion. -/
def std_sort (lyrics : List (Int × Text)) : List (Int × Text) :=
  lyrics.insertionSort cue_le

/-- The cue list `lyrics_` left by the parser of `DownloadLyrics` for the downloaded
text `lyric_content`. -/
def parseLyrics (stof : Text → Option F32) (lyric_content : Text) : List (Int × Text) :=
  std_sort (parseCues stof lyric_content)

/-- Stability of the sort, as a relation between the cues in line order and the final
list: for every timestamp, the cues carrying it stand in the final list in the order they
have among the parsed cues. -/
def KeepsLineOrderOfTies (parsed final : List (Int × Text)) : Prop :=
  ∀ t : Int, final.filter (fun cue => decide (cue.1 = t))
    = parsed.filter (fun cue => decide (cue.1 = t))

/-- A lyric text with two lines carrying the same time tag. -/
def tiedLyricText : Text := "[00:01.00]b\n[00:01.00]a".toList

/-- Number of leading cues of `l` whose timestamp is `<= t`. -/
def leadCount (t : Int) : List (Int × Text) → Nat
  | [] => 0
  | cue :: rest => if cue.1 ≤ t then leadCount t rest + 1 else 0

/-- Index `k` is -1 or the position of a cue with timestamp `<= t`. -/
def IndexAtOrBefore (lyrics : List (Int × Text)) (t : Int) (k : Int) : Prop :=
  k = -1 ∨ (0 ≤ k ∧ ∃ cue, lyrics[k.toNat]? = some cue ∧ cue.1 ≤ t)

/-! ## Stereo downmix and ID3 skip -/

/-- The conversion `(int16_t)x` of an `int`. -/
def toInt16 (x : Int) : Int := (x + 32768) % 65536 - 32768

/-- The stereo branch of `PlayAudioStream`: `mono_samples = stereo_samples / 2` and
`mono_buffer[i] = (int16_t)((left + right) / 2)` with `left = pcm_buffer[i * 2]`,
`right = pcm_buffer[i * 2 + 1]` read as `int`. The result is `mono_buffer`. -/
def downmixStereo (pcm_buffer : List Int) (stereo_samples : Int) : List Int :=
  let mono_samples := Int.tdiv stereo_samples 2
  (List.range mono_samples.toNat).map (fun i =>
    let left := pcm_buffer.getD (i * 2) 0
    let right := pcm_buffer.getD (i * 2 + 1) 0
    toInt16 (Int.tdiv (wrapInt32 (left + right)) 2))

/-- Every sample is a value of `int16_t`. -/
def IsInt16Buffer (pcm_buffer : List Int) : Prop :=
  ∀ x ∈ pcm_buffer, -32768 ≤ x ∧ x ≤ 32767

/-- The function `SkipId3Tag(data, size)`; `data` is `none` for a null pointer and else
the bytes it points to. -/
def SkipId3Tag (data : Option (List Nat)) (size : Nat) : Nat :=
  match data with
  | none => 0
  | some bytes =>
      if size < 10 then 0
      else if bytes.take 3 ≠ [0x49, 0x44, 0x33] then 0
      else
        let tag_size :=
          (((bytes.getD 6 0 &&& 0x7F) <<< 21) ||| ((bytes.getD 7 0 &&& 0x7F) <<< 14)
            ||| ((bytes.getD 8 0 &&& 0x7F) <<< 7) ||| (bytes.getD 9 0 &&& 0x7F)) % 4294967296
        let total_skip := (10 + tag_size) % SIZE_MOD
        if total_skip > size then size else total_skip

/-- The length an ID3v2 header declares for its tag: 10 header bytes plus the synchsafe
size in bytes 6 to 9. -/
def id3DeclaredLength (bytes : List Nat) : Nat :=
  10 + (((bytes.getD 6 0 &&& 0x7F) <<< 21) ||| ((bytes.getD 7 0 &&& 0x7F) <<< 14)
    ||| ((bytes.getD 8 0 &&& 0x7F) <<< 7) ||| (bytes.getD 9 0 &&& 0x7F))

/-- A 12-byte window holding an ID3v2 header that declares a tag of 10 + 100 bytes. -/
def shortId3Window : List Nat := [0x49, 0x44, 0x33, 3, 0, 0, 0, 0, 0, 100, 0xAA, 0xBB]

/-! ## The playback worker `PlayAudioStream` -/

/-- The classes of `app.GetDeviceState()` the playback loop tells apart:
`kDeviceStateIdle`, `kDeviceStateListening`, `kDeviceStateSpeaking`, any other state. -/
inductive DeviceState where
  | idle
  | listening
  | speaking
  | other
deriving DecidableEq, Repr

/-- The fields of `MP3FrameInfo` the loop reads. -/
structure MP3FrameInfo where
  samprate : Int
  nChans : Int
  outputSamps : Int
deriving DecidableEq, Repr

/-- What a call `MP3Decode(mp3_decoder_, &read_ptr, &bytes_left, pcm_buffer, 0)` leaves:
its return value, the two variables it updates through pointers, the PCM buffer, and the
frame information `MP3GetLastFrameInfo` reports after it. `read_ptr` is the offset from
`mp3_input_buffer`, `none` for a null pointer. -/
structure DecodeOutcome where
  decode_result : Int
  read_ptr : Option Int
  bytes_left : Int
  pcm_buffer : List Int
  frame : MP3FrameInfo
deriving DecidableEq, Repr

/-- An `AudioStreamPacket`; the payload is given as its 16-bit samples. -/
structure AudioStreamPacket where
  sample_rate : Int
  frame_duration : Int
  timestamp : Int
  payload : List Int
deriving DecidableEq, Repr

/-- The calls the playback loop makes on its collaborators, and its queue operations. -/
inductive PlayEvent where
  /-- The call `app.ToggleChatState()`. -/
  | toggleChatState
  /-- The call `vTaskDelay(pdMS_TO_TICKS(ms))`. -/
  | delay (ms : Nat)
  /-- The call `display->SetMusicInfo(text)`. -/
  | setMusicInfo (text : Text)
  /-- The call `display->start()`. -/
  | displayStart
  /-- A chunk taken from the front of `audio_buffer_`. -/
  | pop (chunk : AudioChunk)
  /-- The call `heap_caps_free(chunk.data)`. -/
  | free (data : List Nat)
  /-- The call `UpdateLyricDisplay(time_ms)`. -/
  | lyricUpdate (time_ms : Int)
  /-- The call `display->SetChatMessage("lyric", text)` made inside it. -/
  | setChatMessage (text : Text)
  /-- The call `codec->SetOutputSampleRate(rate)` and what it returned. -/
  | setOutputSampleRate (rate : Int) (ok : Bool)
  /-- The call `display->ResumeAnimations()`. -/
  | resumeAnimations
  /-- The call `app.AddAudioData(packet)`. -/
  | addAudioData (packet : AudioStreamPacket)
  /-- The call `display->stopFft()`. -/
  | stopFft
  /-- The call `display->ClearPreviewImage()`. -/
  | clearPreviewImage
deriving DecidableEq, Repr

/-- Where the playback worker stands: blocked at (or before) the entry wait, at the head
of the `while (is_playing_)` loop, inside the wait for a chunk, past the loop (cleanup
follows), returned early, or in undefined behaviour (division by zero). -/
inductive PlayPc where
  | entryWait
  | loopHead
  | popWait
  | loopExit
  | returned
  | fault
deriving DecidableEq, Repr

/-- What stays fixed during a run of the worker: whether `GetDisplay()` returns a display,
whether `display_mode_` is `DISPLAY_MODE_SPECTRUM`, and `current_song_name_`. -/
structure PlayConfig where
  display : Bool
  spectrum_mode : Bool
  current_song_name_ : Text
deriving DecidableEq, Repr

/-- What the surroundings answer during one loop iteration: the device state, the two
decoder functions (given the window contents, `read_ptr` and `bytes_left`), whether
`GetAudioCodec()` returns a codec, what `SetOutputSampleRate(rate)` returns, and what
`output_sample_rate()` returns after a successful call. -/
structure IterEnv where
  device_state : DeviceState
  MP3FindSyncWord : List Nat → Option Int → Int → Int
  MP3Decode : List Nat → Option Int → Int → DecodeOutcome
  codec_present : Bool
  set_rate_ok : Int → Bool
  rate_after_set : Int → Int

/-- The variables of the playback worker: the shared buffer and flags, its position, the
decode window (`mp3_input_buffer` as the bytes written so far, `read_ptr` as an offset
into it or `none` for `nullptr`, `bytes_left`), the clock, the codec's output sample
rate, the lyric tracker and the calls made so far. The clock is a 64-bit millisecond
counter and is kept as an exact integer. -/
structure PlayState where
  buf : Buffer
  is_downloading_ : Bool
  is_playing_ : Bool
  pc : PlayPc
  mp3_input_buffer : List Nat
  read_ptr : Option Int
  bytes_left : Int
  id3_processed : Bool
  current_play_time_ms_ : Int
  total_frames_decoded_ : Int
  song_name_displayed_ : Bool
  total_played : Nat
  output_sample_rate : Int
  lyric : LyricState
  events : List PlayEvent
deriving DecidableEq, Repr

/-- Predicate of the entry wait of `PlayAudioStream`:
`buffer_size_ >= MIN_BUFFER_SIZE || (!is_downloading_ && !audio_buffer_.empty())`. -/
def entryWaitPred (MIN_BUFFER_SIZE : Nat) (s : PlayState) : Bool :=
  decide (s.buf.buffer_size_ ≥ MIN_BUFFER_SIZE)
    || (!s.is_downloading_ && !s.buf.audio_buffer_.isEmpty)

/-- Predicate of the wait for a chunk inside the loop:
`!audio_buffer_.empty() || !is_downloading_`. -/
def popWaitPred (s : PlayState) : Bool :=
  !s.buf.audio_buffer_.isEmpty || !s.is_downloading_

/-- The start of `PlayAudioStream`: reset the clock and the frame counter, then return
early (clearing `is_playing_`, resuming animations) when the codec is missing or disabled
or the decoder is not initialised; otherwise go to the entry wait. -/
def PlayAudioStream_begin (cfg : PlayConfig) (codec_ok decoder_initialized : Bool)
    (s : PlayState) : PlayState :=
  let s0 := { s with current_play_time_ms_ := 0, total_frames_decoded_ := 0 }
  if !codec_ok || !decoder_initialized then
    { s0 with is_playing_ := false
              events := s0.events ++ (if cfg.display then [PlayEvent.resumeAnimations] else [])
              pc := PlayPc.returned }
  else { s0 with pc := PlayPc.entryWait }

/-- The entry wait and the allocation after it: while the predicate is false the worker
stays blocked; once it is true the decode window is allocated (`malloc_ok`) and the loop
variables are initialised, or the worker returns early when the allocation fails. -/
def passEntryWait (MIN_BUFFER_SIZE : Nat) (cfg : PlayConfig) (malloc_ok : Bool)
    (s : PlayState) : PlayState :=
  if s.pc = PlayPc.entryWait then
    if entryWaitPred MIN_BUFFER_SIZE s then
      if malloc_ok then
        { s with pc := PlayPc.loopHead, mp3_input_buffer := [], read_ptr := none
                 bytes_left := 0, id3_processed := false, total_played := 0 }
      else
        { s with is_playing_ := false
                 events := s.events ++ (if cfg.display then [PlayEvent.resumeAnimations] else [])
                 pc := PlayPc.returned }
    else s
  else s

/-- The call `memmove(mp3_input_buffer, read_ptr, bytes_left)`. -/
def memmoveToFront (buffer : List Nat) (read_ptr : Int) (bytes_left : Int) : List Nat :=
  (buffer.drop read_ptr.toNat).take bytes_left.toNat ++ buffer.drop bytes_left.toNat

/-- The call `memcpy(mp3_input_buffer + pos, data, data.size)`. -/
def memcpyAt (buffer : List Nat) (pos : Nat) (data : List Nat) : List Nat :=
  buffer.take pos ++ data ++ buffer.drop (pos + data.length)

/-- The copy of a chunk into the window: `memmove` the unconsumed tail to the front when
it is not there already, `memcpy` the first `copy_size = min(chunk.size, 8192 - bytes_left)`
bytes of the chunk behind it, add `copy_size` to `bytes_left`, reset `read_ptr`. -/
def appendChunk (s : PlayState) (chunk : AudioChunk) : PlayState :=
  { s with mp3_input_buffer :=
             memcpyAt
               (if s.bytes_left > 0 ∧ s.read_ptr ≠ some 0 then
                  memmoveToFront s.mp3_input_buffer (s.read_ptr.getD 0) s.bytes_left
                else s.mp3_input_buffer)
               s.bytes_left.toNat
               (chunk.data.take (min chunk.size ((8192 - s.bytes_left) % 4294967296).toNat))
           bytes_left :=
             wrapInt32 (s.bytes_left
               + (min chunk.size ((8192 - s.bytes_left) % 4294967296).toNat : Nat))
           read_ptr := some 0 }

/-- The block `if (!id3_processed && bytes_left >= 10)`: ask `SkipId3Tag` once, and move
`read_ptr` and `bytes_left` by what it returns. -/
def skipId3Once (s : PlayState) : PlayState :=
  if !s.id3_processed && decide (s.bytes_left ≥ 10) then
    if SkipId3Tag (some (s.mp3_input_buffer.drop (s.read_ptr.getD 0).toNat)) s.bytes_left.toNat > 0
    then
      { s with read_ptr := s.read_ptr.map
                 (· + (SkipId3Tag (some (s.mp3_input_buffer.drop (s.read_ptr.getD 0).toNat))
                        s.bytes_left.toNat : Nat))
               bytes_left := wrapInt32 (s.bytes_left
                 - (SkipId3Tag (some (s.mp3_input_buffer.drop (s.read_ptr.getD 0).toNat))
                      s.bytes_left.toNat : Nat))
               id3_processed := true }
    else { s with id3_processed := true }
  else s

/-- The block `if (chunk.data && chunk.size > 0)` of the loop (a queued chunk never has a
null `data`): copy the chunk into the window, skip an ID3 tag once, free the chunk. -/
def fillWindow (s : PlayState) (chunk : AudioChunk) : PlayState :=
  if chunk.size > 0 then
    { skipId3Once (appendChunk s chunk) with
        events := (skipId3Once (appendChunk s chunk)).events ++ [PlayEvent.free chunk.data] }
  else s

/-- The frame duration `(outputSamps * 1000) / (samprate * nChans)` in `int` arithmetic;
`none` when the divisor is 0. -/
def frameDurationMs (info : MP3FrameInfo) : Option Int :=
  if wrapInt32 (info.samprate * info.nChans) = 0 then none
  else some (wrapInt32 (Int.tdiv (wrapInt32 (info.outputSamps * 1000))
    (wrapInt32 (info.samprate * info.nChans))))

/-- The value of `final_sample_count`: `outputSamps / 2` for a stereo frame, else
`outputSamps`. -/
def finalSampleCount (info : MP3FrameInfo) : Int :=
  if info.nChans = 2 then Int.tdiv info.outputSamps 2 else info.outputSamps

/-- The value of `pcm_size_bytes = final_sample_count * sizeof(int16_t)` (a `size_t`). -/
def pcmSizeBytes (info : MP3FrameInfo) : Nat :=
  ((finalSampleCount info * 2) % 4294967296).toNat

/-- The packet built for a frame: the frame's sample rate, frame duration 60, timestamp 0,
and the first `final_sample_count` samples of the PCM data (downmixed for a stereo
frame). -/
def framePacket (info : MP3FrameInfo) (pcm_buffer : List Int) : AudioStreamPacket :=
  { sample_rate := info.samprate, frame_duration := 60, timestamp := 0
    payload := (if info.nChans = 2 then downmixStereo pcm_buffer info.outputSamps
                else pcm_buffer).take (finalSampleCount info).toNat }

/-- The block `if (mp3_frame_info_.outputSamps > 0)`: downmix a stereo frame, build the
packet, and hand it to `AddAudioData` unless the payload is empty or the codec rejects the
frame's sample rate (then `is_playing_` is cleared and the loop is left by `break`). The
copy kept for the spectrum display (`final_pcm_data_fft`) is not represented. -/
def emitFrame (cfg : PlayConfig) (env : IterEnv) (s : PlayState) (info : MP3FrameInfo)
    (pcm_buffer : List Int) : PlayState :=
  if info.outputSamps > 0 then
    if pcmSizeBytes info = 0 ∨ pcmSizeBytes info % 2 ≠ 0 then
      { s with total_played := (s.total_played + pcmSizeBytes info) % SIZE_MOD }
    else if env.codec_present && decide (s.output_sample_rate ≠ info.samprate) then
      if env.set_rate_ok info.samprate then
        { s with output_sample_rate := env.rate_after_set info.samprate
                 events := s.events ++ [PlayEvent.setOutputSampleRate info.samprate true,
                                        PlayEvent.addAudioData (framePacket info pcm_buffer)]
                 total_played := (s.total_played + pcmSizeBytes info) % SIZE_MOD }
      else
        { s with is_playing_ := false
                 events := s.events ++ [PlayEvent.setOutputSampleRate info.samprate false]
                   ++ (if cfg.display then [PlayEvent.resumeAnimations] else [])
                 pc := PlayPc.loopExit }
    else
      { s with events := s.events ++ [PlayEvent.addAudioData (framePacket info pcm_buffer)]
               total_played := (s.total_played + pcmSizeBytes info) % SIZE_MOD }
  else s

/-- The branch `decode_result == 0`: count the frame, skip it when the sample rate or the
channel count is 0, else advance the clock by the frame duration, update the lyric display
at clock + 600 ms and emit the frame. -/
def onFrameDecoded (cfg : PlayConfig) (env : IterEnv) (s : PlayState)
    (out : DecodeOutcome) : PlayState :=
  let s0 := { s with total_frames_decoded_ := wrapInt32 (s.total_frames_decoded_ + 1) }
  if out.frame.samprate = 0 ∨ out.frame.nChans = 0 then s0
  else
    match frameDurationMs out.frame with
    | none => { s0 with pc := PlayPc.fault }
    | some frame_duration_ms =>
        let clock := s0.current_play_time_ms_ + frame_duration_ms
        let upd := UpdateLyricDisplay cfg.display s0.lyric (clock + 600)
        let s1 := { s0 with current_play_time_ms_ := clock
                            lyric := upd.1
                            events := s0.events ++ [PlayEvent.lyricUpdate (clock + 600)]
                              ++ (match upd.2 with
                                  | some text => [PlayEvent.setChatMessage text]
                                  | none => []) }
        emitFrame cfg env s1 out.frame out.pcm_buffer

/-- The branch for a failed decode: step one byte forward when more than one byte is
left, else drop what is left. -/
def onDecodeFailed (s : PlayState) : PlayState :=
  if s.bytes_left > 1 then
    { s with read_ptr := s.read_ptr.map (· + 1), bytes_left := wrapInt32 (s.bytes_left - 1) }
  else { s with bytes_left := 0 }

/-- The value `sync_offset = MP3FindSyncWord(read_ptr, bytes_left)`. -/
def syncOffset (env : IterEnv) (s : PlayState) : Int :=
  env.MP3FindSyncWord s.mp3_input_buffer s.read_ptr s.bytes_left

/-- The block `if (sync_offset > 0)`: move `read_ptr` and `bytes_left` to the sync
position. -/
def skipToSync (s : PlayState) (sync_offset : Int) : PlayState :=
  if sync_offset > 0 then
    { s with read_ptr := s.read_ptr.map (· + sync_offset)
             bytes_left := wrapInt32 (s.bytes_left - sync_offset) }
  else s

/-- What the call of `MP3Decode` at the sync position leaves. -/
def decodeAfterSync (env : IterEnv) (s : PlayState) : DecodeOutcome :=
  env.MP3Decode (skipToSync s (syncOffset env s)).mp3_input_buffer
    (skipToSync s (syncOffset env s)).read_ptr (skipToSync s (syncOffset env s)).bytes_left

/-- The rest of an iteration once the window is filled: search the sync word (none:
discard the window), skip to it, decode one frame and handle the result. -/
def syncAndDecode (cfg : PlayConfig) (env : IterEnv) (s : PlayState) : PlayState :=
  if syncOffset env s < 0 then { s with bytes_left := 0 }
  else if (decodeAfterSync env s).decode_result = 0 then
    onFrameDecoded cfg env
      { skipToSync s (syncOffset env s) with
          read_ptr := (decodeAfterSync env s).read_ptr
          bytes_left := (decodeAfterSync env s).bytes_left }
      (decodeAfterSync env s)
  else
    onDecodeFailed
      { skipToSync s (syncOffset env s) with
          read_ptr := (decodeAfterSync env s).read_ptr
          bytes_left := (decodeAfterSync env s).bytes_left }

/-- Take the front chunk of a non-empty queue (as `popChunk` does), fill the window with
it and go on with sync search and decoding. -/
def takeChunk (cfg : PlayConfig) (env : IterEnv) (s : PlayState) : PlayState :=
  match (popChunk s.buf).2 with
  | none => { s with pc := PlayPc.loopHead }
  | some chunk =>
      syncAndDecode cfg env
        (fillWindow { s with buf := (popChunk s.buf).1
                             events := s.events ++ [PlayEvent.pop chunk]
                             pc := PlayPc.loopHead } chunk)

/-- The block that shows the song name once: when it was not shown yet and the name is
not empty, a display gets `SetMusicInfo("《" + name + "》播放中...")` (and `start()` in
spectrum mode) and the flag is set. -/
def showSongName (cfg : PlayConfig) (s : PlayState) : PlayState :=
  if !s.song_name_displayed_ && !cfg.current_song_name_.isEmpty && cfg.display then
    { s with song_name_displayed_ := true
             events := s.events
               ++ [PlayEvent.setMusicInfo
                    ("《".toList ++ cfg.current_song_name_ ++ "》播放中...".toList)]
               ++ (if cfg.spectrum_mode then [PlayEvent.displayStart] else []) }
  else s

/-- The block `if (bytes_left < 4096)` and what follows it: with fewer than 4096 bytes
left take a chunk (leaving the loop when the queue is empty and the download is over,
blocking when it is empty and the download runs), then sync and decode. -/
def refillAndDecode (cfg : PlayConfig) (env : IterEnv) (s : PlayState) : PlayState :=
  if s.bytes_left < 4096 then
    if s.buf.audio_buffer_.isEmpty then
      if !s.is_downloading_ then { s with pc := PlayPc.loopExit }
      else { s with pc := PlayPc.popWait }
    else takeChunk cfg env s
  else syncAndDecode cfg env s

/-- One iteration of `while (is_playing_)` from its head: leave when `is_playing_` is
false; wait and `continue` unless the device is idle; show the song name once; refill and
decode. -/
def loopIteration (cfg : PlayConfig) (env : IterEnv) (s : PlayState) : PlayState :=
  if !s.is_playing_ then { s with pc := PlayPc.loopExit }
  else
    match env.device_state with
    | DeviceState.listening =>
        { s with events := s.events ++ [PlayEvent.toggleChatState, PlayEvent.delay 300] }
    | DeviceState.speaking =>
        { s with events := s.events ++ [PlayEvent.toggleChatState, PlayEvent.delay 300] }
    | DeviceState.other => { s with events := s.events ++ [PlayEvent.delay 50] }
    | DeviceState.idle => refillAndDecode cfg env (showSongName cfg s)

/-- One step of the worker inside the loop. At the loop head it runs an iteration (up to
its end or to the wait for a chunk). Inside the wait it stays blocked while the predicate
is false; once it is true it `continue`s on an empty queue and else takes the chunk and
finishes the iteration. Outside the loop nothing happens. -/
def playStep (cfg : PlayConfig) (env : IterEnv) (s : PlayState) : PlayState :=
  match s.pc with
  | PlayPc.loopHead => loopIteration cfg env s
  | PlayPc.popWait =>
      if popWaitPred s then
        if s.buf.audio_buffer_.isEmpty then { s with pc := PlayPc.loopHead }
        else takeChunk cfg env s
      else s
  | _ => s

/-- Run the loop for a sequence of steps, one environment per step. -/
def playRun (cfg : PlayConfig) : List IterEnv → PlayState → PlayState
  | [], s => s
  | env :: envs, s => playRun cfg envs (playStep cfg env s)

/-- The packets handed to `AddAudioData` among the calls made. -/
def packetsOf : List PlayEvent → List AudioStreamPacket
  | [] => []
  | PlayEvent.addAudioData packet :: rest => packet :: packetsOf rest
  | _ :: rest => packetsOf rest

/-- The chunks taken from the queue among the calls made. -/
def popsOf : List PlayEvent → List AudioChunk
  | [] => []
  | PlayEvent.pop chunk :: rest => chunk :: popsOf rest
  | _ :: rest => popsOf rest

/-- The times passed to `UpdateLyricDisplay` among the calls made. -/
def lyricUpdatesOf : List PlayEvent → List Int
  | [] => []
  | PlayEvent.lyricUpdate t :: rest => t :: lyricUpdatesOf rest
  | _ :: rest => lyricUpdatesOf rest

/-- The frame metadata is non-negative and its two products fit an `int`. -/
def FrameMetadataOK (info : MP3FrameInfo) : Prop :=
  0 ≤ info.outputSamps ∧ info.outputSamps * 1000 ≤ 2147483647 ∧
    0 ≤ info.samprate ∧ 0 ≤ info.nChans ∧ info.samprate * info.nChans ≤ 2147483647

/-- Every frame the decoder reports has metadata as in `FrameMetadataOK`. -/
def DecoderMetadataOK (env : IterEnv) : Prop :=
  ∀ buffer read_ptr bytes_left, FrameMetadataOK (env.MP3Decode buffer read_ptr bytes_left).frame

/-- A configuration with a display, in lyrics mode, for a song named "s". -/
def sampleConfig : PlayConfig :=
  { display := true, spectrum_mode := false, current_song_name_ := "s".toList }

/-- An idle device with a decoder that finds a sync word at offset 0 whenever bytes are
left and decodes a stereo frame of 4 samples at 44100 Hz from up to 4 bytes, and a codec
that accepts every sample rate. -/
def sampleEnv : IterEnv :=
  { device_state := DeviceState.idle
    MP3FindSyncWord := fun _ _ bytes_left => if bytes_left > 0 then 0 else -1
    MP3Decode := fun _ read_ptr bytes_left =>
      { decode_result := 0, read_ptr := read_ptr.map (· + min 4 bytes_left)
        bytes_left := bytes_left - min 4 bytes_left
        pcm_buffer := [1, 3, 5, 8], frame := ⟨44100, 2, 4⟩ }
    codec_present := true
    set_rate_ok := fun _ => true
    rate_after_set := fun rate => rate }

/-- The worker at the head of its loop with one 8-byte chunk queued, the download over,
the codec at 24000 Hz and the clock at 0. -/
def samplePlayState : PlayState :=
  { buf := ⟨[⟨[1, 2, 3, 4, 5, 6, 7, 8], 8⟩], 8⟩, is_downloading_ := false, is_playing_ := true
    pc := PlayPc.loopHead, mp3_input_buffer := [], read_ptr := none, bytes_left := 0
    id3_processed := false, current_play_time_ms_ := 0, total_frames_decoded_ := 0
    song_name_displayed_ := false, total_played := 0, output_sample_rate := 24000
    lyric := ⟨sampleLyrics, -1⟩, events := [] }

/-- The sample worker after its chunk has been copied into the window. -/
def sampleFilledState : PlayState :=
  { samplePlayState with
      buf := ⟨[], 0⟩, mp3_input_buffer := [1, 2, 3, 4, 5, 6, 7, 8], read_ptr := some 0
      bytes_left := 8 }

/-- As `sampleEnv`, but the decoder reports frames with sample rate 0. -/
def zeroRateEnv : IterEnv :=
  { sampleEnv with
      MP3Decode := fun _ read_ptr bytes_left =>
        { decode_result := 0, read_ptr := read_ptr.map (· + min 4 bytes_left)
          bytes_left := bytes_left - min 4 bytes_left
          pcm_buffer := [1, 3, 5, 8], frame := ⟨0, 2, 4⟩ } }

/-- The decode window is in order: `0 <= bytes_left <= 8192`, and `read_ptr` is null
with nothing left, or points into the window with `read_ptr + bytes_left` not beyond its
8192 bytes. -/
def WindowInv (s : PlayState) : Prop :=
  0 ≤ s.bytes_left ∧ s.bytes_left ≤ 8192 ∧
    match s.read_ptr with
    | none => s.bytes_left = 0
    | some p => 0 ≤ p ∧ p + s.bytes_left ≤ 8192

/-- The contract of the decoder library: `MP3FindSyncWord` returns -1 or an offset in
`[0, bytes_left)`; `MP3Decode` never increases `bytes_left` and never makes it negative. -/
def DecoderContract (env : IterEnv) : Prop :=
  (∀ buffer read_ptr bytes_left,
    env.MP3FindSyncWord buffer read_ptr bytes_left = -1 ∨
      (0 ≤ env.MP3FindSyncWord buffer read_ptr bytes_left ∧
        env.MP3FindSyncWord buffer read_ptr bytes_left < bytes_left)) ∧
  (∀ buffer read_ptr bytes_left, 0 ≤ bytes_left →
    0 ≤ (env.MP3Decode buffer read_ptr bytes_left).bytes_left ∧
      (env.MP3Decode buffer read_ptr bytes_left).bytes_left ≤ bytes_left)

/-- The decoder `MP3Decode` advances `read_ptr` by exactly the number of bytes it takes off
`bytes_left`. -/
def DecoderAdvancesReadPtr (env : IterEnv) : Prop :=
  ∀ buffer read_ptr bytes_left, 0 ≤ bytes_left →
    (env.MP3Decode buffer read_ptr bytes_left).read_ptr
      = read_ptr.map (· + (bytes_left - (env.MP3Decode buffer read_ptr bytes_left).bytes_left))

/-- The bound on `bytes_left` alone: `0 <= bytes_left <= 8192`. -/
def BytesLeftInv (s : PlayState) : Prop :=
  0 ≤ s.bytes_left ∧ s.bytes_left ≤ 8192

/-- A decoder within `DecoderContract` whose `MP3Decode` fails on every call, leaves
`bytes_left` as it is and moves `read_ptr` 4 bytes forward. -/
def pointerJumpEnv : IterEnv :=
  { sampleEnv with
      MP3Decode := fun _ read_ptr bytes_left =>
        { decode_result := -1, read_ptr := read_ptr.map (· + 4), bytes_left := bytes_left
          pcm_buffer := [], frame := ⟨0, 0, 0⟩ } }

/-- The worker at the head of its loop with two chunks of 4096 bytes queued and the
download over. -/
def twoChunkState : PlayState :=
  { samplePlayState with
      buf := ⟨[⟨List.replicate 4096 0, 4096⟩, ⟨List.replicate 4096 0, 4096⟩], 8192⟩ }

/-- The device is idle and the sync search finds nothing, whatever it is given. -/
def IdleNoSync (env : IterEnv) : Prop :=
  env.device_state = DeviceState.idle ∧
    ∀ buffer read_ptr bytes_left, env.MP3FindSyncWord buffer read_ptr bytes_left < 0

/-- The worker is at the loop head, playing, with the download over and nothing left in
the window. -/
def Draining (s : PlayState) : Prop :=
  s.pc = PlayPc.loopHead ∧ s.is_playing_ = true ∧ s.is_downloading_ = false ∧
    s.bytes_left = 0

/-- As `sampleEnv`, but the sync search never finds a sync word. -/
def noSyncEnv : IterEnv :=
  { sampleEnv with MP3FindSyncWord := fun _ _ _ => -1 }

/-- The worker blocked at the entry wait, playing, with the download running and the
given shared buffer. -/
def entryState (buf : Buffer) : PlayState :=
  { samplePlayState with buf := buf, is_downloading_ := true, pc := PlayPc.entryWait }

/-- The worker at the entry wait after `StopStreaming` on a stream whose download failed
to connect: the buffer is empty and both flags are false. -/
def stoppedWorker : PlayState :=
  { samplePlayState with
      buf := Buffer.empty, is_downloading_ := false, is_playing_ := false
      pc := PlayPc.entryWait }

/-- The worker inside the wait for a chunk, with `is_playing_` cleared while the download
runs and the queue is empty. -/
def stoppedInPopWait : PlayState :=
  { samplePlayState with
      buf := Buffer.empty, is_downloading_ := true, is_playing_ := false
      pc := PlayPc.popWait }

/-- The packets handed over up to state `s'` are those of `before`, or those and one more
whose sample rate is the codec's output sample rate in `s'`. -/
def PacketStep (before : List AudioStreamPacket) (s' : PlayState) : Prop :=
  packetsOf s'.events = before ∨
    ∃ packet, packetsOf s'.events = before ++ [packet] ∧
      packet.sample_rate = s'.output_sample_rate

/-- As `sampleEnv`, but the codec rejects every sample rate. -/
def rejectingEnv : IterEnv :=
  { sampleEnv with set_rate_ok := fun _ => false }

/-- The line after the parser has removed one trailing carriage return. -/
def stripCR (line0 : Text) : Text :=
  if !line0.isEmpty && line0.getLast? == some '\r' then line0.dropLast else line0

/-- The line starts with `[`, contains `]`, and the tag between them contains a `:`
preceded by a non-empty field of decimal digits. -/
def HasMinutesTag (line : Text) : Prop :=
  line.head? = some '[' ∧
    ∃ rb, find ']' line = some rb ∧
      ∃ colon, find ':' (substr line 1 (rb - 1)) = some colon ∧ 0 < colon ∧
        ((substr line 1 (rb - 1)).take colon).all isdigit = true

/-! ## The preview scaling of `OttoEmojiDisplay` -/

/-- The three `int` members `SetPreviewScaling` assigns. -/
structure PreviewScaling where
  preview_decoded_width_pct_ : Int
  preview_decoded_height_pct_ : Int
  preview_fallback_width_pct_ : Int
deriving DecidableEq, Repr

/-- The two statements `if (x < 1) x = 1; if (x > 100) x = 100;` applied to one argument. -/
def clampPct (x : Int) : Int :=
  let x1 := if x < 1 then 1 else x
  if x1 > 100 then 100 else x1

/-- The function `OttoEmojiDisplay::SetPreviewScaling`: clamp each argument, then assign the
three members. -/
def SetPreviewScaling (decoded_width_pct decoded_height_pct fallback_width_pct : Int) :
    PreviewScaling :=
  { preview_decoded_width_pct_ := clampPct decoded_width_pct
    preview_decoded_height_pct_ := clampPct decoded_height_pct
    preview_fallback_width_pct_ := clampPct fallback_width_pct }

/-! ## The function `url_encode` -/

/-- The test of the first branch of `url_encode` on the byte `c`: a letter, a digit, or one
of `-`, `_`, `.`, `~`. -/
def isUnreserved (c : Nat) : Bool :=
  (decide ('A'.toNat ≤ c) && decide (c ≤ 'Z'.toNat))
    || (decide ('a'.toNat ≤ c) && decide (c ≤ 'z'.toNat))
    || (decide ('0'.toNat ≤ c) && decide (c ≤ '9'.toNat))
    || decide (c = '-'.toNat) || decide (c = '_'.toNat) || decide (c = '.'.toNat)
    || decide (c = '~'.toNat)

/-- The character `%X` prints for a value below 16: `0` to `9`, then `A` to `F`. -/
def hexDigitUpper (n : Nat) : Nat :=
  if n < 10 then '0'.toNat + n else 'A'.toNat + (n - 10)

/-- The characters appended to `encoded` for one byte of the argument: `c` is the byte as
`unsigned char`; `snprintf(hex, sizeof(hex), "%%%02X", c)` gives `%` and two hexadecimal
digits. -/
def encodeByte (b : Nat) : List Nat :=
  let c := b % 256
  if isUnreserved c then [c]
  else if c = ' '.toNat then ['+'.toNat]
  else ['%'.toNat, hexDigitUpper (c / 16), hexDigitUpper (c % 16)]

/-- The function `url_encode(str)`, on the bytes of `str`; the result is given by the codes
of its characters. -/
def url_encode : List Nat → List Nat
  | [] => []
  | b :: rest => encodeByte b ++ url_encode rest

/-- Every element is the value of a byte. -/
def IsByteString (str : List Nat) : Prop := ∀ b ∈ str, b < 256

/-- The characters allowed in the result: letters, digits and `-`, `_`, `.`, `~`, `+`,
`%`. -/
def isUrlSafe (c : Nat) : Bool :=
  isUnreserved c || decide (c = '+'.toNat) || decide (c = '%'.toNat)

/-- The value of a hexadecimal digit `0`-`9`, `A`-`F`. -/
def hexValue (d : Nat) : Nat :=
  if d ≤ '9'.toNat then d - '0'.toNat else d - 'A'.toNat + 10

/-- Read one encoded byte back from the front of an encoded string. -/
def decodeHead : List Nat → Option (Nat × List Nat)
  | [] => none
  | c :: rest =>
      if c = '%'.toNat then
        match rest with
        | hi :: lo :: rest2 => some (hexValue hi * 16 + hexValue lo, rest2)
        | _ => none
      else if c = '+'.toNat then some (' '.toNat, rest)
      else some (c, rest)

/-! ## The contents of the decode window -/

/-- The unconsumed bytes of the decode window: the `bytes_left` bytes from `read_ptr`
on. -/
def liveBytes (s : PlayState) : List Nat :=
  (s.mp3_input_buffer.drop (s.read_ptr.getD 0).toNat).take s.bytes_left.toNat

/-- The unconsumed bytes have all been written: `read_ptr + bytes_left` is not beyond
what was copied into the window so far. -/
def WindowWritten (s : PlayState) : Prop :=
  (s.read_ptr.getD 0).toNat + s.bytes_left.toNat ≤ s.mp3_input_buffer.length

/-- The sample worker with 4000 bytes (all 7) left in the window, from offset 100 on. -/
def tailState : PlayState :=
  { samplePlayState with
      buf := ⟨[], 0⟩, mp3_input_buffer := List.replicate 100 0 ++ List.replicate 4000 7
      read_ptr := some 100, bytes_left := 4000 }

/-! ## The lyric download of `DownloadLyrics` -/

/-- What the transport answers during one connection attempt of `DownloadLyrics`: whether
`CreateHttp` returns a client, what `Open` returns, the status code, whether the read
buffer can be allocated, the data of the successive `Read` calls that return `r > 0`, and
the first result `r <= 0` (0 at the end of the body, negative on an error). -/
structure LyricAttempt where
  http_created : Bool
  open_ok : Bool
  status : Int
  malloc_ok : Bool
  reads : List Text
  read_end : Int
deriving DecidableEq, Repr

/-- The calls `DownloadLyrics` makes while it fetches the text. -/
inductive LyricEvent where
  /-- The call `std::this_thread::sleep_for(milliseconds(ms))`. -/
  | sleep (ms : Nat)
  /-- The call `network->CreateHttp(0)`, and whether it gave a client. -/
  | createHttp (ok : Bool)
  /-- The call `http->Open("GET", lyric_url)` and what it returned. -/
  | httpOpen (ok : Bool)
  /-- The call `heap_caps_malloc(chunk_sz, ...)`, and whether it gave a buffer. -/
  | malloc (ok : Bool)
  /-- The call `heap_caps_free(buf)`. -/
  | free
  /-- The call `http->Close()`. -/
  | httpClose
deriving DecidableEq, Repr

/-- The local variables `lyric_content` and `success` of `DownloadLyrics`, and the calls
made so far. -/
structure FetchState where
  lyric_content : Text
  success : Bool
  events : List LyricEvent
deriving DecidableEq, Repr

/-- The read loop `while (true)`: each positive read is appended to `lyric_content`. -/
def readAll (reads : List Text) : Text :=
  reads.foldl (fun content data => content ++ data) []

/-- The body of the retry loop for attempt number `attempt`. The second component tells
whether the body ended in `break` (allocation failure). -/
def attemptOnce (o : LyricAttempt) (attempt : Nat) (st : FetchState) : FetchState × Bool :=
  if !o.http_created then
    ({ st with events := st.events ++ (if attempt > 0 then [LyricEvent.sleep 300] else [])
                 ++ [LyricEvent.createHttp false] }, false)
  else if !o.open_ok then
    ({ st with events := st.events ++ (if attempt > 0 then [LyricEvent.sleep 300] else [])
                 ++ [LyricEvent.createHttp true, LyricEvent.httpOpen false,
                     LyricEvent.httpClose] }, false)
  else if o.status < 200 ∨ o.status ≥ 300 then
    ({ st with events := st.events ++ (if attempt > 0 then [LyricEvent.sleep 300] else [])
                 ++ [LyricEvent.createHttp true, LyricEvent.httpOpen true,
                     LyricEvent.httpClose] }, false)
  else if !o.malloc_ok then
    ({ st with events := st.events ++ (if attempt > 0 then [LyricEvent.sleep 300] else [])
                 ++ [LyricEvent.createHttp true, LyricEvent.httpOpen true,
                     LyricEvent.malloc false, LyricEvent.httpClose] }, true)
  else
    ({ lyric_content := readAll o.reads
       success := if o.read_end = 0 then true else st.success
       events := st.events ++ (if attempt > 0 then [LyricEvent.sleep 300] else [])
                 ++ [LyricEvent.createHttp true, LyricEvent.httpOpen true,
                     LyricEvent.malloc true, LyricEvent.free, LyricEvent.httpClose] }, false)

/-- The loop `for (attempt = 0; attempt < max_retries && !success; ++attempt)`, from
`attempt` on with `max_retries - attempt = remaining`; `outcomes k` is what the transport
answers during attempt `k`. -/
def fetchLyrics (outcomes : Nat → LyricAttempt) : Nat → Nat → FetchState → FetchState
  | 0, _, st => st
  | remaining + 1, attempt, st =>
      if st.success then st
      else if (attemptOnce (outcomes attempt) attempt st).2 then
        (attemptOnce (outcomes attempt) attempt st).1
      else fetchLyrics outcomes remaining (attempt + 1) (attemptOnce (outcomes attempt) attempt st).1

/-- What a call of `DownloadLyrics` leaves: its return value, the member `lyrics_`, and
the calls made. -/
structure LyricsResult where
  returned : Bool
  lyrics_ : List (Int × Text)
  events : List LyricEvent
deriving DecidableEq, Repr

/-- The function `DownloadLyrics(lyric_url)`, with `max_retries = 3`; `lyrics_` is the
member before the call. -/
def DownloadLyrics (stof : Text → Option F32) (lyric_url : Text)
    (outcomes : Nat → LyricAttempt) (lyrics_ : List (Int × Text)) : LyricsResult :=
  if lyric_url.isEmpty then { returned := false, lyrics_ := lyrics_, events := [] }
  else if !(fetchLyrics outcomes 3 0 ⟨[], false, []⟩).success then
    { returned := false, lyrics_ := lyrics_
      events := (fetchLyrics outcomes 3 0 ⟨[], false, []⟩).events }
  else
    { returned :=
        !(parseLyrics stof (fetchLyrics outcomes 3 0 ⟨[], false, []⟩).lyric_content).isEmpty
      lyrics_ := parseLyrics stof (fetchLyrics outcomes 3 0 ⟨[], false, []⟩).lyric_content
      events := (fetchLyrics outcomes 3 0 ⟨[], false, []⟩).events }

/-- The number of calls of `http->Open` among the calls made. -/
def opensOf : List LyricEvent → Nat
  | [] => 0
  | LyricEvent.httpOpen _ :: rest => opensOf rest + 1
  | _ :: rest => opensOf rest

/-- The attempt gets a client, opens, answers a status in [200, 300), gets its buffer and
reads to the end of the body. -/
def AttemptSucceeds (o : LyricAttempt) : Prop :=
  o.http_created = true ∧ o.open_ok = true ∧ 200 ≤ o.status ∧ o.status < 300 ∧
    o.malloc_ok = true ∧ o.read_end = 0

/-- A transport whose first attempt breaks off with a read error after `[00:01.00]x`,
whose second attempt reads `[00:02.00]a` and a line feed and `[00:03.00]b` to the end, and
which fails to open afterwards. -/
def sampleOutcomes : Nat → LyricAttempt
  | 0 => ⟨true, true, 200, true, ["[00:01.00]x".toList], -1⟩
  | 1 => ⟨true, true, 200, true, ["[00:02.00]a\n".toList, "[00:03.00]b".toList], 0⟩
  | _ => ⟨true, false, 0, true, [], 0⟩

/-! ## The end of `PlayAudioStream`, `ResetSampleRate` and `StopStreaming` -/

/-- The code of `PlayAudioStream` after the loop: free the decode window, clear
`is_playing_`, and with a display stop the FFT display in spectrum mode, resume the
animations and clear the preview image. -/
def finishPlayback (cfg : PlayConfig) (s : PlayState) : PlayState :=
  if s.pc = PlayPc.loopExit then
    { s with is_playing_ := false
             events := s.events ++ [PlayEvent.free s.mp3_input_buffer]
               ++ (if cfg.spectrum_mode && cfg.display then [PlayEvent.stopFft] else [])
               ++ (if cfg.display then [PlayEvent.resumeAnimations] else [])
               ++ (if cfg.display then [PlayEvent.clearPreviewImage] else [])
             pc := PlayPc.returned }
  else s

/-- The calls `SetOutputSampleRate(rate)` with their results among the calls made. -/
def rateCallsOf : List PlayEvent → List (Int × Bool)
  | [] => []
  | PlayEvent.setOutputSampleRate rate ok :: rest => (rate, ok) :: rateCallsOf rest
  | _ :: rest => rateCallsOf rest

/-- The audio codec as `ResetSampleRate` sees it: `original_output_sample_rate()`,
`output_sample_rate()`, what `SetOutputSampleRate(rate)` returns, and what
`output_sample_rate()` returns after a successful call. -/
structure Codec where
  original_output_sample_rate : Int
  output_sample_rate : Int
  set_rate_ok : Int → Bool
  rate_after_set : Int → Int

/-- The calls `StopStreaming` makes. -/
inductive StopEvent where
  /-- The call `codec->SetOutputSampleRate(rate)` and what it returned. -/
  | setOutputSampleRate (rate : Int) (ok : Bool)
  /-- The call `display->ResumeAnimations()`. -/
  | resumeAnimations
  /-- The call `display->SetMusicInfo(text)`. -/
  | setMusicInfo (text : Text)
  /-- The call `buffer_cv_.notify_all()`. -/
  | notifyAll
  /-- The call `download_thread_.join()`. -/
  | joinDownload
  /-- The call `vTaskDelay(pdMS_TO_TICKS(ms))`. -/
  | delay (ms : Nat)
  /-- The call `play_thread_.join()`. -/
  | joinPlay
  /-- The call `play_thread_.detach()`. -/
  | detachPlay
  /-- The call `display->stopFft()`. -/
  | stopFft
deriving DecidableEq, Repr

/-- The function `ResetSampleRate`, on the codec `GetAudioCodec()` returns (`none` for a null
pointer): the codec afterwards and the calls made. -/
def ResetSampleRate (codec : Option Codec) : Option Codec × List StopEvent :=
  match codec with
  | none => (none, [])
  | some c =>
      if c.original_output_sample_rate > 0
          ∧ c.output_sample_rate ≠ c.original_output_sample_rate then
        if c.set_rate_ok (-1) then
          (some { c with output_sample_rate := c.rate_after_set (-1) },
           [StopEvent.setOutputSampleRate (-1) true])
        else (some c, [StopEvent.setOutputSampleRate (-1) false])
      else (some c, [])

/-- The loop `while (!thread_finished && wait_count < max_wait)` of `StopStreaming`, with
`max_wait - wait_count = remaining`: delay, count, and leave with `thread_finished` when
`play_thread_.joinable()` is false. `joinable i` is what the call number `i` of
`play_thread_.joinable()` inside `StopStreaming` returns (call 0 is the one before the
loop). The result is `wait_count` and `thread_finished`. -/
def pollPlayThread (joinable : Nat → Bool) : Nat → Nat → Nat × Bool
  | 0, wait_count => (wait_count, false)
  | remaining + 1, wait_count =>
      if !joinable (wait_count + 1) then (wait_count + 1, true)
      else pollPlayThread joinable remaining (wait_count + 1)

/-- The members `StopStreaming` reads and writes, and the calls it has made. -/
structure PlayerState where
  is_downloading_ : Bool
  is_playing_ : Bool
  codec : Option Codec
  events : List StopEvent

/-- The block `if (play_thread_.joinable())` of `StopStreaming`: the calls it makes. -/
def waitForPlayThread (joinable : Nat → Bool) : List StopEvent :=
  if joinable 0 then
    [StopEvent.notifyAll]
      ++ List.replicate (pollPlayThread joinable 100 0).1 (StopEvent.delay 10)
      ++ (if joinable ((pollPlayThread joinable 100 0).1 + 1) then
            if (pollPlayThread joinable 100 0).1 ≥ 100 then [StopEvent.detachPlay]
            else [StopEvent.joinPlay]
          else [])
  else []

/-- The function `StopStreaming`: its return value and the state it leaves. `display` tells
whether `GetDisplay()` returns a display, `spectrum_mode` whether `display_mode_` is
`DISPLAY_MODE_SPECTRUM`, `download_joinable` what `download_thread_.joinable()` returns,
and `play_joinable` what the successive calls of `play_thread_.joinable()` return. -/
def StopStreaming (display spectrum_mode download_joinable : Bool)
    (play_joinable : Nat → Bool) (p : PlayerState) : Bool × PlayerState :=
  if !p.is_playing_ && !p.is_downloading_ then
    (true, { p with codec := (ResetSampleRate p.codec).1
                    events := p.events ++ (ResetSampleRate p.codec).2
                      ++ (if display then [StopEvent.resumeAnimations] else []) })
  else
    (true, { is_downloading_ := false
             is_playing_ := false
             codec := (ResetSampleRate p.codec).1
             events := p.events ++ (ResetSampleRate p.codec).2
               ++ (if display then [StopEvent.setMusicInfo []] else [])
               ++ [StopEvent.notifyAll]
               ++ (if download_joinable then [StopEvent.joinDownload] else [])
               ++ waitForPlayThread play_joinable
               ++ (if display && spectrum_mode then [StopEvent.stopFft] else [])
               ++ (if display then [StopEvent.resumeAnimations] else []) })

/-- A codec with original rate 24000 Hz, now at 44100 Hz, that accepts every rate and
returns to 24000 Hz on a reset. -/
def sampleCodec : Codec :=
  { original_output_sample_rate := 24000, output_sample_rate := 44100
    set_rate_ok := fun _ => true
    rate_after_set := fun rate => if rate = -1 then 24000 else rate }

/-- A player that is streaming, with `sampleCodec`. -/
def streamingPlayer : PlayerState :=
  { is_downloading_ := true, is_playing_ := true, codec := some sampleCodec, events := [] }

/-! ## The download worker `DownloadAudioStream` -/

/-- The calls the download worker makes, and its write to `is_downloading_`. -/
inductive DlEvent where
  /-- The call `network->CreateHttp(0)` with the headers set on the client. -/
  | createHttp
  /-- The call `http->Open("GET", music_url)` and what it returned. -/
  | httpOpen (ok : Bool)
  /-- The call `http->Close()`. -/
  | httpClose
  /-- The call `http->Read(buffer, chunk_size)` and what it returned. -/
  | read (bytes_read : Int)
  /-- The call `heap_caps_malloc(bytes_read, ...)`, and whether it gave a block. -/
  | malloc (ok : Bool)
  /-- The chunk pushed to `audio_buffer_`. -/
  | push (chunk : AudioChunk)
  /-- The call `heap_caps_free(chunk_data)`. -/
  | free (data : List Nat)
  /-- The call `buffer_cv_.notify_one()`. -/
  | notifyOne
  /-- The call `buffer_cv_.notify_all()`. -/
  | notifyAll
  /-- The assignment `is_downloading_ = false`. -/
  | clearDownloading
deriving DecidableEq, Repr

/-- Where the download worker stands: at the head of its loop, inside the wait for buffer
space (the predicate is false), or returned. -/
inductive DlPc where
  | loopHead
  | pushWait
  | returned
deriving DecidableEq, Repr

/-- The variables of the download worker: the shared buffer as it left it, the flag
`is_downloading_` as it last wrote or read it, `total_downloaded`, the calls made and its
position. -/
structure DlState where
  buf : Buffer
  is_downloading_ : Bool
  total_downloaded : Nat
  events : List DlEvent
  pc : DlPc
deriving DecidableEq, Repr

/-- The download worker when its thread starts: `StartStreaming` has set the flag. -/
def DlState.init : DlState :=
  { buf := Buffer.empty, is_downloading_ := true, total_downloaded := 0, events := []
    pc := DlPc.loopHead }

/-- What the surroundings answer during one iteration of the download loop: the two flags
the loop condition reads, the result of `http->Read` and the bytes it stored, whether the
chunk can be allocated, and the shared buffer and the flag `is_downloading_` as found
under the lock when the wait predicate is evaluated for the last time. -/
structure DlIter where
  is_downloading_ : Bool
  is_playing_ : Bool
  bytes_read : Int
  data : List Nat
  malloc_ok : Bool
  buf_at_wait : Buffer
  is_downloading_at_wait : Bool
deriving DecidableEq, Repr

/-- The start of `DownloadAudioStream`: the three early returns (URL empty or not starting
with `http`; `Open` fails; status code neither 200 nor 206), else the loop is entered. -/
def DownloadAudioStream_begin (music_url : Text) (open_ok : Bool) (status_code : Int)
    (s : DlState) : DlState :=
  if music_url.isEmpty ∨ music_url.take 4 ≠ "http".toList then
    { s with is_downloading_ := false
             events := s.events ++ [DlEvent.clearDownloading]
             pc := DlPc.returned }
  else if !open_ok then
    { s with is_downloading_ := false
             events := s.events ++ [DlEvent.createHttp, DlEvent.httpOpen false,
                                    DlEvent.clearDownloading]
             pc := DlPc.returned }
  else if status_code ≠ 200 ∧ status_code ≠ 206 then
    { s with is_downloading_ := false
             events := s.events ++ [DlEvent.createHttp, DlEvent.httpOpen true,
                                    DlEvent.httpClose, DlEvent.clearDownloading]
             pc := DlPc.returned }
  else
    { s with events := s.events ++ [DlEvent.createHttp, DlEvent.httpOpen true]
             pc := DlPc.loopHead }

/-- The code after the download loop: close the transport, clear the flag, notify all. -/
def DownloadAudioStream_finish (s : DlState) : DlState :=
  { s with is_downloading_ := false
           events := s.events ++ [DlEvent.httpClose, DlEvent.clearDownloading,
                                  DlEvent.notifyAll]
           pc := DlPc.returned }

/-- One iteration of `while (is_downloading_ && is_playing_)` from its head: leave the loop
when a flag is false, when `Read` returns 0 or less, when the allocation fails, or when the
wait ends with the flag cleared (`pushChunk`); else push the chunk and notify one waiter.
While the wait predicate is false the worker stays inside the wait. -/
def downloadIteration (MAX_BUFFER_SIZE : Nat) (it : DlIter) (s : DlState) : DlState :=
  if !(it.is_downloading_ && it.is_playing_) then DownloadAudioStream_finish s
  else if it.bytes_read ≤ 0 then
    DownloadAudioStream_finish { s with events := s.events ++ [DlEvent.read it.bytes_read] }
  else if !it.malloc_ok then
    DownloadAudioStream_finish
      { s with events := s.events ++ [DlEvent.read it.bytes_read, DlEvent.malloc false] }
  else
    match pushChunk MAX_BUFFER_SIZE it.buf_at_wait it.data it.bytes_read.toNat
        it.is_downloading_at_wait with
    | none =>
        { s with events := s.events ++ [DlEvent.read it.bytes_read, DlEvent.malloc true]
                 pc := DlPc.pushWait }
    | some out =>
        if out.leave_loop then
          DownloadAudioStream_finish
            { s with buf := out.buf
                     events := s.events ++ [DlEvent.read it.bytes_read, DlEvent.malloc true,
                                            DlEvent.free it.data] }
        else
          { s with buf := out.buf
                   total_downloaded := (s.total_downloaded + it.bytes_read.toNat) % SIZE_MOD
                   events := s.events ++ [DlEvent.read it.bytes_read, DlEvent.malloc true,
                              DlEvent.push ⟨it.data, it.bytes_read.toNat⟩, DlEvent.notifyOne] }

/-- Run the download loop, one environment per iteration, as long as the worker is at the
loop head. -/
def downloadRun (MAX_BUFFER_SIZE : Nat) : List DlIter → DlState → DlState
  | [], s => s
  | it :: its, s =>
      if s.pc = DlPc.loopHead then
        downloadRun MAX_BUFFER_SIZE its (downloadIteration MAX_BUFFER_SIZE it s)
      else s

/-- The function `DownloadAudioStream(music_url)` against the given answers of the
surroundings. -/
def DownloadAudioStream (MAX_BUFFER_SIZE : Nat) (music_url : Text) (open_ok : Bool)
    (status_code : Int) (its : List DlIter) : DlState :=
  downloadRun MAX_BUFFER_SIZE its
    (DownloadAudioStream_begin music_url open_ok status_code DlState.init)

/-- An iteration that reads the 3 bytes 1, 2, 3 and finds room in an empty buffer. -/
def sampleRead : DlIter :=
  { is_downloading_ := true, is_playing_ := true, bytes_read := 3, data := [1, 2, 3]
    malloc_ok := true, buf_at_wait := Buffer.empty, is_downloading_at_wait := true }

/-- An iteration whose `Read` returns 0: the end of the stream. -/
def sampleEof : DlIter :=
  { sampleRead with bytes_read := 0, data := [] }

/-- As `sampleEnv`, but the decoder reports stereo frames of 1152 samples at 44100 Hz. -/
def longFrameEnv : IterEnv :=
  { sampleEnv with
      MP3Decode := fun _ read_ptr bytes_left =>
        { decode_result := 0, read_ptr := read_ptr.map (· + min 4 bytes_left)
          bytes_left := bytes_left - min 4 bytes_left
          pcm_buffer := List.replicate 1152 0, frame := ⟨44100, 2, 1152⟩ } }

/-! # Theorems -/

/-! ## Properties of the shared audio buffer -/

theorem sumSizes_append (xs ys : List AudioChunk) :
    sumSizes (xs ++ ys) = sumSizes xs + sumSizes ys := by
  induction xs with
  | nil => simp [sumSizes]
  | cons x xs ih => simp [sumSizes, ih, Nat.add_assoc]

theorem bufferInv_empty (MAX_BUFFER_SIZE : Nat) : BufferInv MAX_BUFFER_SIZE Buffer.empty := by
  simp [BufferInv, Buffer.empty, sumSizes, chunk_size]

theorem bufferInv_step (MAX_BUFFER_SIZE : Nat) (hMAX : MAX_BUFFER_SIZE + chunk_size ≤ SIZE_MOD)
    (s s' : Sys) (op : Op) (hwf : op.wellFormed) (hinv : BufferInv MAX_BUFFER_SIZE s.buf)
    (hstep : step MAX_BUFFER_SIZE s op = some s') : BufferInv MAX_BUFFER_SIZE s'.buf := by
  obtain ⟨hsum, hlt⟩ := hinv
  cases op with
  | push chunk_data bytes_read is_downloading =>
    obtain ⟨_, hle, _⟩ := hwf
    simp only [step, pushChunk, pushWaitPred] at hstep
    cases is_downloading with
    | false =>
      simp at hstep
      subst hstep
      exact ⟨hsum, hlt⟩
    | true =>
      by_cases hroom : s.buf.buffer_size_ < MAX_BUFFER_SIZE
      · simp [hroom] at hstep
        subst hstep
        have hsmall : s.buf.buffer_size_ + bytes_read < SIZE_MOD := by omega
        simp only [BufferInv, Nat.mod_eq_of_lt hsmall, sumSizes_append, sumSizes]
        omega
      · simp [hroom] at hstep
  | pop =>
    simp only [step, popChunk] at hstep
    cases hq : s.buf.audio_buffer_ with
    | nil =>
      simp [hq] at hstep
      subst hstep
      exact ⟨hsum, hlt⟩
    | cons chunk rest =>
      simp [hq] at hstep
      subst hstep
      rw [hq] at hsum
      simp only [sumSizes] at hsum
      have h1 : chunk.size < SIZE_MOD := by omega
      have h2 : (s.buf.buffer_size_ + (SIZE_MOD - chunk.size % SIZE_MOD)) % SIZE_MOD
          = sumSizes rest := by
        rw [Nat.mod_eq_of_lt h1]
        have h3 : s.buf.buffer_size_ + (SIZE_MOD - chunk.size) = sumSizes rest + SIZE_MOD := by
          omega
        rw [h3, Nat.add_mod_right]
        apply Nat.mod_eq_of_lt
        omega
      refine ⟨?_, ?_⟩
      · exact h2
      · show (s.buf.buffer_size_ + (SIZE_MOD - chunk.size % SIZE_MOD)) % SIZE_MOD
            < MAX_BUFFER_SIZE + chunk_size
        rw [h2]
        omega
  | clear =>
    simp only [step, ClearAudioBuffer] at hstep
    simp at hstep
    subst hstep
    simp [BufferInv, sumSizes, chunk_size]

theorem bufferInv_run (MAX_BUFFER_SIZE : Nat) (hMAX : MAX_BUFFER_SIZE + chunk_size ≤ SIZE_MOD)
    (ops : List Op) (hwf : ∀ op ∈ ops, op.wellFormed) (s s' : Sys)
    (hinv : BufferInv MAX_BUFFER_SIZE s.buf)
    (hrun : run MAX_BUFFER_SIZE s ops = some s') : BufferInv MAX_BUFFER_SIZE s'.buf := by
  induction ops generalizing s with
  | nil =>
    simp [run] at hrun
    subst hrun
    exact hinv
  | cons op ops ih =>
    simp only [run] at hrun
    cases hs : step MAX_BUFFER_SIZE s op with
    | none => simp [hs] at hrun
    | some s1 =>
      simp only [hs] at hrun
      exact ih (fun o ho => hwf o (List.mem_cons_of_mem _ ho)) s1
        (bufferInv_step MAX_BUFFER_SIZE hMAX s s1 op (hwf op (List.mem_cons_self _ _)) hinv hs)
        hrun

theorem fifo_step (MAX_BUFFER_SIZE : Nat) (s s' : Sys) (op : Op)
    (hop : op.isPushOrPop = true)
    (hinv : s.pushed = s.popped ++ s.buf.audio_buffer_)
    (hstep : step MAX_BUFFER_SIZE s op = some s') :
    s'.pushed = s'.popped ++ s'.buf.audio_buffer_ := by
  cases op with
  | push chunk_data bytes_read is_downloading =>
    simp only [step, pushChunk] at hstep
    by_cases hw : pushWaitPred MAX_BUFFER_SIZE s.buf is_downloading = true
    · cases is_downloading with
      | false =>
        simp [hw] at hstep
        subst hstep
        exact hinv
      | true =>
        simp [hw] at hstep
        subst hstep
        simp [hinv]
    · simp [hw] at hstep
  | pop =>
    simp only [step, popChunk] at hstep
    cases hq : s.buf.audio_buffer_ with
    | nil =>
      simp [hq] at hstep
      subst hstep
      simpa [hq] using hinv
    | cons chunk rest =>
      simp [hq] at hstep
      subst hstep
      simpa [hq] using hinv
  | clear => simp [Op.isPushOrPop] at hop

theorem fifo_run (MAX_BUFFER_SIZE : Nat) (ops : List Op)
    (hops : ∀ op ∈ ops, op.isPushOrPop = true) (s s' : Sys)
    (hinv : s.pushed = s.popped ++ s.buf.audio_buffer_)
    (hrun : run MAX_BUFFER_SIZE s ops = some s') :
    s'.pushed = s'.popped ++ s'.buf.audio_buffer_ := by
  induction ops generalizing s with
  | nil =>
    simp [run] at hrun
    subst hrun
    exact hinv
  | cons op ops ih =>
    simp only [run] at hrun
    cases hs : step MAX_BUFFER_SIZE s op with
    | none => simp [hs] at hrun
    | some s1 =>
      simp only [hs] at hrun
      exact ih (fun o ho => hops o (List.mem_cons_of_mem _ ho)) s1
        (fifo_step MAX_BUFFER_SIZE s s1 op (hops op (List.mem_cons_self _ _)) hinv hs) hrun

theorem run_append (MAX_BUFFER_SIZE : Nat) (s : Sys) (ops ops' : List Op) :
    run MAX_BUFFER_SIZE s (ops ++ ops')
      = (run MAX_BUFFER_SIZE s ops).bind (fun s' => run MAX_BUFFER_SIZE s' ops') := by
  induction ops generalizing s with
  | nil => simp [run]
  | cons op ops ih =>
    simp only [List.cons_append, run]
    cases step MAX_BUFFER_SIZE s op with
    | none => simp
    | some s1 => simpa using ih s1

theorem run_one_byte_pushes (MAX_BUFFER_SIZE : Nat) (hMAX : MAX_BUFFER_SIZE < SIZE_MOD)
    (k : Nat) (s : Sys) (hroom : s.buf.buffer_size_ + k ≤ MAX_BUFFER_SIZE) :
    ∃ s', run MAX_BUFFER_SIZE s (List.replicate k (Op.push [0] 1 true)) = some s' ∧
      s'.buf.buffer_size_ = s.buf.buffer_size_ + k := by
  induction k generalizing s with
  | zero => exact ⟨s, by simp [run], by simp⟩
  | succ k ih =>
    have hlt : s.buf.buffer_size_ < MAX_BUFFER_SIZE := by omega
    have hsmall : s.buf.buffer_size_ + 1 < SIZE_MOD := by omega
    have hstep : step MAX_BUFFER_SIZE s (Op.push [0] 1 true)
        = some { buf := { audio_buffer_ := s.buf.audio_buffer_ ++ [⟨[0], 1⟩]
                          buffer_size_ := s.buf.buffer_size_ + 1 }
                 pushed := s.pushed ++ [⟨[0], 1⟩]
                 popped := s.popped } := by
      simp [step, pushChunk, pushWaitPred, hlt, Nat.mod_eq_of_lt hsmall]
    obtain ⟨s', h1, h2⟩ := ih
      { buf := { audio_buffer_ := s.buf.audio_buffer_ ++ [⟨[0], 1⟩]
                 buffer_size_ := s.buf.buffer_size_ + 1 }
        pushed := s.pushed ++ [⟨[0], 1⟩]
        popped := s.popped } (by simp only; omega)
    refine ⟨s', ?_, ?_⟩
    · simp only [List.replicate_succ, run, hstep]
      exact h1
    · rw [h2]
      simp only
      omega

/-- Whatever positive value `MAX_BUFFER_SIZE` has, some run of Downloader pushes ends
with `buffer_size_ = MAX_BUFFER_SIZE + 4095`: one-byte chunks up to `MAX_BUFFER_SIZE - 1`,
then one full chunk. -/
theorem push_can_exceed_any_max (MAX_BUFFER_SIZE : Nat) (hpos : 1 ≤ MAX_BUFFER_SIZE)
    (hMAX : MAX_BUFFER_SIZE + chunk_size ≤ SIZE_MOD) :
    ∃ ops s, (∀ op ∈ ops, op.wellFormed ∧ op.isPushOrPop = true) ∧
      run MAX_BUFFER_SIZE Sys.init ops = some s ∧
      s.buf.buffer_size_ = MAX_BUFFER_SIZE + 4095 := by
  have hc : chunk_size = 4096 := rfl
  obtain ⟨s1, h1, h2⟩ := run_one_byte_pushes MAX_BUFFER_SIZE (by omega) (MAX_BUFFER_SIZE - 1)
    Sys.init (by simp [Sys.init, Buffer.empty])
  have hsz : s1.buf.buffer_size_ = MAX_BUFFER_SIZE - 1 := by
    rw [h2]; simp [Sys.init, Buffer.empty]
  have hlt : s1.buf.buffer_size_ < MAX_BUFFER_SIZE := by omega
  have hsmall : s1.buf.buffer_size_ + 4096 < SIZE_MOD := by omega
  obtain ⟨data, hdata⟩ : ∃ d : List Nat, d.length = 4096 :=
    ⟨List.replicate 4096 0, List.length_replicate _ _⟩
  refine ⟨List.replicate (MAX_BUFFER_SIZE - 1) (Op.push [0] 1 true)
      ++ [Op.push data 4096 true],
    { buf := { audio_buffer_ := s1.buf.audio_buffer_ ++ [⟨data, 4096⟩]
               buffer_size_ := s1.buf.buffer_size_ + 4096 }
      pushed := s1.pushed ++ [⟨data, 4096⟩]
      popped := s1.popped }, ?_, ?_, ?_⟩
  · intro op hop
    rcases List.mem_append.mp hop with h | h
    · rw [List.eq_of_mem_replicate h]
      exact ⟨⟨by decide, by decide, rfl⟩, rfl⟩
    · rw [List.mem_singleton.mp h]
      exact ⟨⟨by decide, by decide, hdata⟩, rfl⟩
  · rw [run_append, h1]
    simp [run, step, pushChunk, pushWaitPred, hlt, Nat.mod_eq_of_lt hsmall]
  · simp only
    omega

/-- C1. After any finite sequence of Downloader pushes, PlaybackEngine pops and
`ClearAudioBuffer` calls started on the empty buffer, `buffer_size_` is exactly the sum of
the sizes of the chunks held in `audio_buffer_` (no wrap-around of the unsigned counter
has occurred). -/
theorem buffer_size_eq_sum_of_queued (MAX_BUFFER_SIZE : Nat)
    (hMAX : MAX_BUFFER_SIZE + chunk_size ≤ SIZE_MOD)
    (ops : List Op) (hwf : ∀ op ∈ ops, op.wellFormed) (s : Sys)
    (hrun : run MAX_BUFFER_SIZE Sys.init ops = some s) :
    s.buf.buffer_size_ = sumSizes s.buf.audio_buffer_ :=
  (bufferInv_run MAX_BUFFER_SIZE hMAX ops hwf Sys.init s
    (bufferInv_empty MAX_BUFFER_SIZE) hrun).1

/-- Witness for C1: two pushes, a pop, a clear and a further push with
`MAX_BUFFER_SIZE = 8192`. -/
theorem buffer_size_eq_sum_of_queued_witness :
    run 8192 Sys.init
        [Op.push [1, 2, 3] 3 true, Op.push [4, 5] 2 true, Op.pop, Op.clear,
         Op.push [6] 1 true]
      = some { buf := ⟨[⟨[6], 1⟩], 1⟩
               pushed := [⟨[1, 2, 3], 3⟩, ⟨[4, 5], 2⟩, ⟨[6], 1⟩]
               popped := [⟨[1, 2, 3], 3⟩] } ∧
    (1 : Nat) = sumSizes [⟨[6], 1⟩] :=
  ⟨by decide,
    buffer_size_eq_sum_of_queued 8192 (by decide)
      [Op.push [1, 2, 3] 3 true, Op.push [4, 5] 2 true, Op.pop, Op.clear, Op.push [6] 1 true]
      (by decide)
      { buf := ⟨[⟨[6], 1⟩], 1⟩
        pushed := [⟨[1, 2, 3], 3⟩, ⟨[4, 5], 2⟩, ⟨[6], 1⟩]
        popped := [⟨[1, 2, 3], 3⟩] }
      (by decide)⟩

/-- C2 fails as stated: with `MAX_BUFFER_SIZE = 262144`, pushing one 1-byte chunk and then
64 chunks of 4096 bytes is a run in which no push waits, and after the last push
`buffer_size_` is 262145, above `MAX_BUFFER_SIZE`. -/
theorem push_exceeds_max_buffer_size :
    (∀ op ∈ pushes_1_then_64_full, op.wellFormed ∧ op.isPushOrPop = true) ∧
      (run 262144 Sys.init pushes_1_then_64_full).map (fun s => s.buf.buffer_size_)
        = some 262145 ∧
      ¬ (262145 ≤ 262144) := by
  refine ⟨?_, ?_, by decide⟩
  · intro op hop
    simp only [pushes_1_then_64_full, List.mem_cons, List.mem_replicate] at hop
    rcases hop with h | ⟨_, h⟩ <;> subst h
    · exact ⟨⟨by decide, by decide, List.length_replicate _ _⟩, rfl⟩
    · exact ⟨⟨by decide, by decide, List.length_replicate _ _⟩, rfl⟩
  · decide

/-- C2, amended. After any sequence of Downloader pushes (chunks of 1 to 4096 bytes),
pops and clears started on the empty buffer, `buffer_size_` is at most
`MAX_BUFFER_SIZE + 4095`. -/
theorem buffer_size_le_max_plus_chunk (MAX_BUFFER_SIZE : Nat)
    (hMAX : MAX_BUFFER_SIZE + chunk_size ≤ SIZE_MOD)
    (ops : List Op) (hwf : ∀ op ∈ ops, op.wellFormed) (s : Sys)
    (hrun : run MAX_BUFFER_SIZE Sys.init ops = some s) :
    s.buf.buffer_size_ ≤ MAX_BUFFER_SIZE + 4095 := by
  have h := (bufferInv_run MAX_BUFFER_SIZE hMAX ops hwf Sys.init s
    (bufferInv_empty MAX_BUFFER_SIZE) hrun).2
  simp only [chunk_size] at h
  omega

/-- Witness for the amended C2: with `MAX_BUFFER_SIZE = 4096`, a 1-byte push followed by
a 4096-byte push reaches 4097, within the bound 4096 + 4095. -/
theorem buffer_size_le_max_plus_chunk_witness :
    run 4096 Sys.init [Op.push [7] 1 true, Op.push (List.replicate 4096 0) 4096 true]
      = some { buf := ⟨[⟨[7], 1⟩, ⟨List.replicate 4096 0, 4096⟩], 4097⟩
               pushed := [⟨[7], 1⟩, ⟨List.replicate 4096 0, 4096⟩]
               popped := [] } ∧
    (4097 : Nat) ≤ 4096 + 4095 :=
  ⟨rfl,
    buffer_size_le_max_plus_chunk 4096 (by decide)
      [Op.push [7] 1 true, Op.push (List.replicate 4096 0) 4096 true]
      (by
        intro op hop
        simp only [List.mem_cons, List.mem_singleton, List.not_mem_nil, or_false] at hop
        rcases hop with h | h <;> subst h
        · exact ⟨by decide, by decide, rfl⟩
        · exact ⟨by decide, by decide, List.length_replicate _ _⟩)
      { buf := ⟨[⟨[7], 1⟩, ⟨List.replicate 4096 0, 4096⟩], 4097⟩
        pushed := [⟨[7], 1⟩, ⟨List.replicate 4096 0, 4096⟩]
        popped := [] }
      rfl⟩

/-- C3. In every run of push and pop steps started on the empty buffer, the chunks
enqueued so far are the chunks dequeued so far followed by the queue contents, so the
dequeued sequence is a prefix of the enqueued one; and a pop returns the front (oldest)
chunk of the queue and leaves the rest in order. -/
theorem pops_are_prefix_of_pushes (MAX_BUFFER_SIZE : Nat) (ops : List Op)
    (hops : ∀ op ∈ ops, op.isPushOrPop = true) (s : Sys)
    (hrun : run MAX_BUFFER_SIZE Sys.init ops = some s) :
    s.pushed = s.popped ++ s.buf.audio_buffer_ ∧ s.popped <+: s.pushed ∧
      ∀ b : Buffer, (popChunk b).2 = b.audio_buffer_.head? ∧
        (popChunk b).1.audio_buffer_ = b.audio_buffer_.tail := by
  have h := fifo_run MAX_BUFFER_SIZE ops hops Sys.init s (by simp [Sys.init, Buffer.empty]) hrun
  refine ⟨h, ⟨s.buf.audio_buffer_, h.symm⟩, ?_⟩
  intro b
  cases hq : b.audio_buffer_ <;> simp [popChunk, hq]

/-- Witness for C3: push a, push b, pop, push c, pop returns a then b and leaves c. -/
theorem pops_are_prefix_of_pushes_witness :
    run 8192 Sys.init
        [Op.push [1] 1 true, Op.push [2, 2] 2 true, Op.pop, Op.push [3] 1 true, Op.pop]
      = some { buf := ⟨[⟨[3], 1⟩], 1⟩
               pushed := [⟨[1], 1⟩, ⟨[2, 2], 2⟩, ⟨[3], 1⟩]
               popped := [⟨[1], 1⟩, ⟨[2, 2], 2⟩] } ∧
    ([⟨[1], 1⟩, ⟨[2, 2], 2⟩, ⟨[3], 1⟩] : List AudioChunk)
      = [⟨[1], 1⟩, ⟨[2, 2], 2⟩] ++ [⟨[3], 1⟩] :=
  ⟨by decide,
    (pops_are_prefix_of_pushes 8192
      [Op.push [1] 1 true, Op.push [2, 2] 2 true, Op.pop, Op.push [3] 1 true, Op.pop]
      (by decide)
      { buf := ⟨[⟨[3], 1⟩], 1⟩
        pushed := [⟨[1], 1⟩, ⟨[2, 2], 2⟩, ⟨[3], 1⟩]
        popped := [⟨[1], 1⟩, ⟨[2, 2], 2⟩] }
      (by decide)).1⟩

/-- C4. When the push wait returns with the download flag false, the chunk is not
enqueued, queue and counter are unchanged, the block is freed and the loop is left. When
it returns with the flag true, the chunk is appended at the tail and the counter grows by
exactly `bytes_read` (the sum being representable in `size_t`). -/
theorem push_wait_outcome (MAX_BUFFER_SIZE : Nat) (s : Buffer) (chunk_data : List Nat)
    (bytes_read : Nat) :
    (pushWaitPred MAX_BUFFER_SIZE s false = true ∧
      pushChunk MAX_BUFFER_SIZE s chunk_data bytes_read false
        = some { buf := s, freed := some chunk_data, leave_loop := true }) ∧
    (pushWaitPred MAX_BUFFER_SIZE s true = true →
      s.buffer_size_ + bytes_read < SIZE_MOD →
      pushChunk MAX_BUFFER_SIZE s chunk_data bytes_read true
        = some { buf := { audio_buffer_ := s.audio_buffer_ ++ [⟨chunk_data, bytes_read⟩]
                          buffer_size_ := s.buffer_size_ + bytes_read }
                 freed := none
                 leave_loop := false }) := by
  refine ⟨⟨by simp [pushWaitPred], by simp [pushChunk, pushWaitPred]⟩, ?_⟩
  intro hw hsmall
  simp [pushChunk, hw, Nat.mod_eq_of_lt hsmall]

/-- Witness for C4 on a buffer holding one 3-byte chunk, `MAX_BUFFER_SIZE = 8192`. -/
theorem push_wait_outcome_witness :
    pushWaitPred 8192 ⟨[⟨[1, 2, 3], 3⟩], 3⟩ true = true ∧ 3 + 2 < SIZE_MOD ∧
      pushChunk 8192 ⟨[⟨[1, 2, 3], 3⟩], 3⟩ [9, 9] 2 true
        = some { buf := ⟨[⟨[1, 2, 3], 3⟩, ⟨[9, 9], 2⟩], 5⟩, freed := none, leave_loop := false } ∧
      pushChunk 8192 ⟨[⟨[1, 2, 3], 3⟩], 3⟩ [9, 9] 2 false
        = some { buf := ⟨[⟨[1, 2, 3], 3⟩], 3⟩, freed := some [9, 9], leave_loop := true } :=
  ⟨by decide, by decide,
    (push_wait_outcome 8192 ⟨[⟨[1, 2, 3], 3⟩], 3⟩ [9, 9] 2).2 (by decide) (by decide),
    (push_wait_outcome 8192 ⟨[⟨[1, 2, 3], 3⟩], 3⟩ [9, 9] 2).1.2⟩

/-! ## Properties of the lyric tracker -/

theorem scanLyrics_eq (t : Int) (l : List (Int × Text)) (i new : Int) :
    scanLyrics t l i new = if leadCount t l = 0 then new else i + leadCount t l - 1 := by
  induction l generalizing i new with
  | nil => simp [scanLyrics, leadCount]
  | cons c rest ih =>
    by_cases h : c.1 ≤ t
    · simp only [scanLyrics, leadCount, h, if_true, ih]
      split <;> simp_all
      all_goals omega
    · simp [scanLyrics, leadCount, h]

theorem leadCount_get (t : Int) (l : List (Int × Text)) (j : Nat) (hj : j < leadCount t l) :
    ∃ cue, l[j]? = some cue ∧ cue.1 ≤ t := by
  induction l generalizing j with
  | nil => simp [leadCount] at hj
  | cons c rest ih =>
    by_cases h : c.1 ≤ t
    · cases j with
      | zero => exact ⟨c, by simp, h⟩
      | succ j =>
        simp only [leadCount, h, if_true] at hj
        obtain ⟨cue, h1, h2⟩ := ih j (by omega)
        exact ⟨cue, by simpa using h1, h2⟩
    · simp [leadCount, h] at hj

theorem leadCount_drop (t : Int) (l : List (Int × Text)) (n : Nat) (hn : n ≤ l.length)
    (hpre : ∀ (j : Nat) (cue : Int × Text), j < n → l[j]? = some cue → cue.1 ≤ t) :
    leadCount t l = n + leadCount t (l.drop n) := by
  induction l generalizing n with
  | nil => simp at hn; subst hn; simp
  | cons c rest ih =>
    cases n with
    | zero => simp
    | succ n =>
      have hc : c.1 ≤ t := hpre 0 c (by omega) (by simp)
      have := ih n (by simpa using hn) (fun j cue hj hget => hpre (j + 1) cue (by omega)
        (by simpa using hget))
      simp only [leadCount, hc, if_true, List.drop_succ_cons, this]
      omega

theorem sorted_get_le (l : List (Int × Text)) (hs : SortedByTime l) (i j : Nat)
    (a b : Int × Text) (hij : i ≤ j) (ha : l[i]? = some a) (hb : l[j]? = some b) :
    a.1 ≤ b.1 := by
  induction l generalizing i j with
  | nil => simp at ha
  | cons c rest ih =>
    have hs' := List.pairwise_cons.mp hs
    cases i with
    | zero =>
      simp at ha
      subst ha
      cases j with
      | zero => simp at hb; subst hb; exact le_refl _
      | succ j =>
        simp at hb
        exact hs'.1 b (List.getElem?_mem hb)
    | succ i =>
      cases j with
      | zero => omega
      | succ j =>
        simp at ha hb
        exact ih hs'.2 i j (by omega) ha hb

theorem leadCount_complete (t : Int) (l : List (Int × Text)) (hs : SortedByTime l)
    (j : Nat) (cue : Int × Text) (hget : l[j]? = some cue) (hle : cue.1 ≤ t) :
    j < leadCount t l := by
  induction l generalizing j with
  | nil => simp at hget
  | cons c rest ih =>
    have hs' := List.pairwise_cons.mp hs
    have hc : c.1 ≤ t := by
      have := sorted_get_le (c :: rest) hs 0 j c cue (by omega) (by simp) hget
      omega
    simp only [leadCount, hc, if_true]
    cases j with
    | zero => omega
    | succ j =>
      have := ih hs'.2 j (by simpa using hget)
      omega

theorem leadCount_isLast (t : Int) (l : List (Int × Text)) (hs : SortedByTime l) :
    IsLastCueAtOrBefore l t ((leadCount t l : Int) - 1) := by
  constructor
  · by_cases h0 : leadCount t l = 0
    · left; omega
    · right
      obtain ⟨cue, h1, h2⟩ := leadCount_get t l (leadCount t l - 1) (by omega)
      refine ⟨by omega, cue, ?_, h2⟩
      have : ((leadCount t l : Int) - 1).toNat = leadCount t l - 1 := by omega
      rw [this]; exact h1
  · intro j cue hget hle
    have := leadCount_complete t l hs j cue hget hle
    omega

theorem update_index (display : Bool) (s : LyricState) (t : Int) :
    (UpdateLyricDisplay display s t).1
      = if s.lyrics_ = [] then s
        else { s with current_lyric_index_ := newLyricIndex s t } := by
  unfold UpdateLyricDisplay
  cases hl : s.lyrics_ with
  | nil => simp
  | cons c rest =>
    simp only [List.isEmpty_cons, Bool.false_eq_true, if_false]
    by_cases h : newLyricIndex s t = s.current_lyric_index_
    · simp [h, ← hl]
    · simp [h, hl]

theorem newLyricIndex_atOrBefore (s : LyricState) (t : Int) :
    IndexAtOrBefore s.lyrics_ t (newLyricIndex s t) := by
  simp only [newLyricIndex, scanLyrics_eq]
  generalize hstart : (if s.current_lyric_index_ ≥ 0 then s.current_lyric_index_ else 0) = start
  have hstart0 : 0 ≤ start := by
    rw [← hstart]; split <;> omega
  by_cases h0 : leadCount t (s.lyrics_.drop start.toNat) = 0
  · left; simp [h0]
  · right
    simp only [h0, if_false]
    obtain ⟨cue, h1, h2⟩ := leadCount_get t (s.lyrics_.drop start.toNat)
      (leadCount t (s.lyrics_.drop start.toNat) - 1) (by omega)
    refine ⟨by omega, cue, ?_, h2⟩
    rw [List.getElem?_drop] at h1
    have : (start + (leadCount t (s.lyrics_.drop start.toNat) : Int) - 1).toNat
        = start.toNat + (leadCount t (s.lyrics_.drop start.toNat) - 1) := by omega
    rw [this]; exact h1

theorem newLyricIndex_ge (s : LyricState) (t : Int)
    (hinv : IndexAtOrBefore s.lyrics_ t s.current_lyric_index_) :
    s.current_lyric_index_ ≤ newLyricIndex s t := by
  rcases hinv with h | ⟨h0, cue, hget, hle⟩
  · rcases newLyricIndex_atOrBefore s t with h' | ⟨h', _⟩ <;> omega
  · simp only [newLyricIndex, scanLyrics_eq, ge_iff_le, h0, if_true]
    have hlc : 0 < leadCount t (s.lyrics_.drop s.current_lyric_index_.toNat) := by
      have hd : s.lyrics_.drop s.current_lyric_index_.toNat
          = cue :: s.lyrics_.drop (s.current_lyric_index_.toNat + 1) := by
        have hlt : s.current_lyric_index_.toNat < s.lyrics_.length := by
          by_contra hcon
          rw [List.getElem?_eq_none (by omega)] at hget
          exact Option.noConfusion hget
        rw [List.drop_eq_getElem_cons hlt]
        rw [List.getElem?_eq_getElem hlt] at hget
        simp only [Option.some.injEq] at hget
        rw [hget]
      rw [hd]
      simp [leadCount, hle]
    have : leadCount t (s.lyrics_.drop s.current_lyric_index_.toNat) ≠ 0 := by omega
    simp only [this, if_false]
    omega

theorem newLyricIndex_sorted (lyrics : List (Int × Text)) (k : Int) (t : Int)
    (hs : SortedByTime lyrics) (hinv : IndexAtOrBefore lyrics t k) :
    newLyricIndex ⟨lyrics, k⟩ t = (leadCount t lyrics : Int) - 1 := by
  rcases hinv with h | ⟨h0, cue, hget, hle⟩
  · subst h
    simp only [newLyricIndex, scanLyrics_eq]
    simp
    intro h
    omega
  · simp only [newLyricIndex, scanLyrics_eq, ge_iff_le, h0, if_true]
    have hlt : k.toNat < lyrics.length := by
      by_contra hcon
      rw [List.getElem?_eq_none (by omega)] at hget
      exact Option.noConfusion hget
    have hsplit := leadCount_drop t lyrics k.toNat (by omega)
      (fun j c hj hc => by
        have := sorted_get_le lyrics hs j k.toNat c cue (by omega) hc hget
        omega)
    have hlc : 0 < leadCount t (lyrics.drop k.toNat) := by
      rw [List.drop_eq_getElem_cons hlt]
      rw [List.getElem?_eq_getElem hlt] at hget
      simp only [Option.some.injEq] at hget
      rw [hget]
      simp [leadCount, hle]
    have : leadCount t (lyrics.drop k.toNat) ≠ 0 := by omega
    simp only [this, if_false]
    omega

theorem indexAtOrBefore_mono (lyrics : List (Int × Text)) (t t' : Int) (k : Int)
    (h : IndexAtOrBefore lyrics t k) (htt : t ≤ t') : IndexAtOrBefore lyrics t' k := by
  rcases h with h | ⟨h0, cue, hget, hle⟩
  · exact Or.inl h
  · exact Or.inr ⟨h0, cue, hget, le_trans hle htt⟩

theorem update_sorted (display : Bool) (lyrics : List (Int × Text)) (k : Int) (t : Int)
    (hs : SortedByTime lyrics) (hinv : IndexAtOrBefore lyrics t k) :
    (UpdateLyricDisplay display ⟨lyrics, k⟩ t).1 = ⟨lyrics, (leadCount t lyrics : Int) - 1⟩ := by
  rw [update_index]
  by_cases hl : lyrics = []
  · subst hl
    rcases hinv with h | ⟨_, cue, hget, _⟩
    · subst h; simp [leadCount]
    · simp at hget
  · simp only [hl, if_false]
    rw [newLyricIndex_sorted lyrics k t hs hinv]

theorem activeIndices_sorted_aux (display : Bool) (lyrics : List (Int × Text))
    (hs : SortedByTime lyrics) (times : List Int) (htimes : times.Pairwise (· ≤ ·))
    (k : Int) (hinv : ∀ t ∈ times, IndexAtOrBefore lyrics t k) :
    List.Forall₂ (IsLastCueAtOrBefore lyrics) times
      (activeIndices display ⟨lyrics, k⟩ times) := by
  induction times generalizing k with
  | nil => exact List.Forall₂.nil
  | cons t ts ih =>
    have hts := List.pairwise_cons.mp htimes
    simp only [activeIndices]
    rw [update_sorted display lyrics k t hs (hinv t (List.mem_cons_self _ _))]
    refine List.Forall₂.cons (leadCount_isLast t lyrics hs) ?_
    apply ih hts.2
    intro t' ht'
    exact indexAtOrBefore_mono lyrics t t' _ (leadCount_isLast t lyrics hs).1 (hts.1 t' ht')

theorem activeIndices_empty (display : Bool) (k : Int) (times : List Int) :
    ∀ k' ∈ activeIndices display ⟨[], k⟩ times, k' = k := by
  induction times with
  | nil => simp [activeIndices]
  | cons t ts ih =>
    have h1 : (UpdateLyricDisplay display ⟨[], k⟩ t).1 = ⟨[], k⟩ := by
      rw [update_index]; simp
    simp only [activeIndices, h1]
    intro k' hk'
    rcases List.mem_cons.mp hk' with h | h
    · exact h
    · exact ih k' h

theorem activeIndices_mono_aux (display : Bool) (lyrics : List (Int × Text))
    (hne : lyrics ≠ []) (times : List Int) (htimes : times.Pairwise (· ≤ ·))
    (k : Int) (hinv : ∀ t ∈ times, IndexAtOrBefore lyrics t k) :
    (∀ k' ∈ activeIndices display ⟨lyrics, k⟩ times, k ≤ k') ∧
      (activeIndices display ⟨lyrics, k⟩ times).Pairwise (· ≤ ·) := by
  induction times generalizing k with
  | nil => simp [activeIndices]
  | cons t ts ih =>
    have hts := List.pairwise_cons.mp htimes
    have h1 : (UpdateLyricDisplay display ⟨lyrics, k⟩ t).1
        = ⟨lyrics, newLyricIndex ⟨lyrics, k⟩ t⟩ := by
      rw [update_index]; simp [hne]
    have hge : k ≤ newLyricIndex ⟨lyrics, k⟩ t :=
      newLyricIndex_ge ⟨lyrics, k⟩ t (hinv t (List.mem_cons_self _ _))
    have hnew := newLyricIndex_atOrBefore ⟨lyrics, k⟩ t
    obtain ⟨ih1, ih2⟩ := ih hts.2 (newLyricIndex ⟨lyrics, k⟩ t)
      (fun t' ht' => indexAtOrBefore_mono lyrics t t' _ hnew (hts.1 t' ht'))
    simp only [activeIndices, h1]
    constructor
    · intro k' hk'
      rcases List.mem_cons.mp hk' with h | h
      · omega
      · have := ih1 k' h
        omega
    · exact List.pairwise_cons.mpr ⟨ih1, ih2⟩

/-- C5. For a cue list sorted by timestamp, the active index starting at -1 and a
non-decreasing sequence of times, the active index after each `UpdateLyricDisplay(t)` is
the largest position whose timestamp is `<= t`, or -1 when there is none. -/
theorem active_index_is_last_cue_at_or_before (display : Bool)
    (lyrics : List (Int × Text)) (times : List Int)
    (hs : SortedByTime lyrics) (htimes : times.Pairwise (· ≤ ·)) :
    List.Forall₂ (IsLastCueAtOrBefore lyrics) times
      (activeIndices display ⟨lyrics, -1⟩ times) :=
  activeIndices_sorted_aux display lyrics hs times htimes (-1) (fun _ _ => Or.inl rfl)

/-- Witness for C5: cues at 1000, 2000, 2000 ms and times 0, 999, 1000, 1500, 2000,
5000 give the indices -1, -1, 0, 0, 2, 2. -/
theorem active_index_is_last_cue_at_or_before_witness :
    activeIndices true ⟨sampleLyrics, -1⟩ [0, 999, 1000, 1500, 2000, 5000]
        = [-1, -1, 0, 0, 2, 2] ∧
      List.Forall₂ (IsLastCueAtOrBefore sampleLyrics) [0, 999, 1000, 1500, 2000, 5000]
        (activeIndices true ⟨sampleLyrics, -1⟩ [0, 999, 1000, 1500, 2000, 5000]) :=
  ⟨by decide,
    active_index_is_last_cue_at_or_before true sampleLyrics [0, 999, 1000, 1500, 2000, 5000]
      (by simp [SortedByTime, sampleLyrics]) (by decide)⟩

theorem activeIndices_ge_neg_one (display : Bool) (s : LyricState) (times : List Int)
    (hs : -1 ≤ s.current_lyric_index_) :
    ∀ k ∈ activeIndices display s times, -1 ≤ k := by
  induction times generalizing s with
  | nil => simp [activeIndices]
  | cons t ts ih =>
    have h1 : -1 ≤ (UpdateLyricDisplay display s t).1.current_lyric_index_ := by
      rw [update_index]
      split
      · exact hs
      · rcases newLyricIndex_atOrBefore s t with h | ⟨h, _⟩
        · simp only; omega
        · simp only; omega
    intro k hk
    simp only [activeIndices] at hk
    rcases List.mem_cons.mp hk with h | h
    · rw [h]; exact h1
    · exact ih _ h1 k h

theorem activeIndices_pairwise (display : Bool) (s : LyricState) (times : List Int)
    (htimes : times.Pairwise (· ≤ ·)) :
    (activeIndices display s times).Pairwise (· ≤ ·) := by
  obtain ⟨lyrics, k⟩ := s
  by_cases hne : lyrics = []
  · subst hne
    have hall := activeIndices_empty display k times
    apply List.Pairwise.imp_of_mem _ (List.pairwise_of_forall (R := fun _ _ => True)
      (l := activeIndices display ⟨[], k⟩ times) (fun _ _ => trivial))
    intro a b ha hb _
    rw [hall a ha, hall b hb]
  · cases times with
    | nil => simp [activeIndices]
    | cons t ts =>
      have hts := List.pairwise_cons.mp htimes
      have h1 : (UpdateLyricDisplay display ⟨lyrics, k⟩ t).1
          = ⟨lyrics, newLyricIndex ⟨lyrics, k⟩ t⟩ := by
        rw [update_index]; simp [hne]
      have hnew := newLyricIndex_atOrBefore ⟨lyrics, k⟩ t
      obtain ⟨a1, a2⟩ := activeIndices_mono_aux display lyrics hne ts hts.2
        (newLyricIndex ⟨lyrics, k⟩ t)
        (fun t' ht' => indexAtOrBefore_mono lyrics t t' _ hnew (hts.1 t' ht'))
      simp only [activeIndices, h1]
      exact List.pairwise_cons.mpr ⟨a1, a2⟩

/-- C6. For every cue list (sorted or not) and every stored index, a non-decreasing
sequence of times passed to `UpdateLyricDisplay` gives a non-decreasing sequence of active
indices; when the stored index starts at -1 (none), the sequence stays non-decreasing with
that initial value in front. -/
theorem active_index_non_decreasing (display : Bool) (s : LyricState) (times : List Int)
    (htimes : times.Pairwise (· ≤ ·)) :
    (activeIndices display s times).Pairwise (· ≤ ·) ∧
      (s.current_lyric_index_ = -1 →
        (s.current_lyric_index_ :: activeIndices display s times).Pairwise (· ≤ ·)) := by
  refine ⟨activeIndices_pairwise display s times htimes, ?_⟩
  intro h
  refine List.pairwise_cons.mpr ⟨?_, activeIndices_pairwise display s times htimes⟩
  intro k hk
  have := activeIndices_ge_neg_one display s times (by omega) k hk
  omega

/-- Witness for C6 on the cues at 1000, 2000, 2000 ms. -/
theorem active_index_non_decreasing_witness :
    activeIndices true ⟨sampleLyrics, -1⟩ [0, 1000, 1000, 2500] = [-1, 0, 0, 2] ∧
      (activeIndices true ⟨sampleLyrics, -1⟩ [0, 1000, 1000, 2500]).Pairwise (· ≤ ·) :=
  ⟨by decide,
    (active_index_non_decreasing true ⟨sampleLyrics, -1⟩ [0, 1000, 1000, 2500]
      (by decide)).1⟩

/-- C7. On an empty cue list `UpdateLyricDisplay` changes nothing and makes no display
call. On a non-empty list: when the computed index equals the stored one, the state is
unchanged and no call is made; when it differs, the stored index becomes the computed one
and the display (when present) receives the text of that cue, or the empty string when the
computed index is -1. With a display, the call is made exactly when the index differs. -/
theorem update_notifies_iff_index_changes (s : LyricState) (t : Int) :
    (s.lyrics_ = [] → ∀ display, UpdateLyricDisplay display s t = (s, none)) ∧
    (s.lyrics_ ≠ [] →
      (newLyricIndex s t = s.current_lyric_index_ →
        ∀ display, UpdateLyricDisplay display s t = (s, none)) ∧
      (newLyricIndex s t ≠ s.current_lyric_index_ →
        UpdateLyricDisplay true s t
          = ({ s with current_lyric_index_ := newLyricIndex s t },
             some (lyricTextAt s.lyrics_ (newLyricIndex s t))) ∧
        (newLyricIndex s t = -1 → lyricTextAt s.lyrics_ (newLyricIndex s t) = []) ∧
        (newLyricIndex s t ≠ -1 → ∃ cue,
          s.lyrics_[(newLyricIndex s t).toNat]? = some cue ∧
          lyricTextAt s.lyrics_ (newLyricIndex s t) = cue.2)) ∧
      ((UpdateLyricDisplay true s t).2.isSome = true ↔
        newLyricIndex s t ≠ s.current_lyric_index_)) := by
  refine ⟨?_, ?_⟩
  · intro hl display
    simp [UpdateLyricDisplay, hl]
  · intro hl
    have hemp : s.lyrics_.isEmpty = false := by
      cases hq : s.lyrics_ with
      | nil => exact absurd hq hl
      | cons _ _ => rfl
    refine ⟨?_, ?_, ?_⟩
    · intro heq display
      simp [UpdateLyricDisplay, hemp, heq]
    · intro hne
      refine ⟨by simp [UpdateLyricDisplay, hemp, hne], ?_, ?_⟩
      · intro h1
        rw [h1]
        simp [lyricTextAt]
      · intro h1
        rcases newLyricIndex_atOrBefore s t with h | ⟨h0, cue, hget, _⟩
        · exact absurd h h1
        · refine ⟨cue, hget, ?_⟩
          have hlt : (newLyricIndex s t).toNat < s.lyrics_.length := by
            by_contra hcon
            rw [List.getElem?_eq_none (by omega)] at hget
            exact Option.noConfusion hget
          have hlt' : newLyricIndex s t < (s.lyrics_.length : Int) := by omega
          simp [lyricTextAt, h0, hlt', hget]
    · by_cases heq : newLyricIndex s t = s.current_lyric_index_
      · simp [UpdateLyricDisplay, hemp, heq]
      · simp [UpdateLyricDisplay, hemp, heq]

/-- Witness for C7: with cues at 1000, 2000, 2000 ms and stored index 0, a call at 2000 ms
moves to index 2 and sends "three"; a call at 1500 ms changes nothing. -/
theorem update_notifies_iff_index_changes_witness :
    UpdateLyricDisplay true ⟨sampleLyrics, 0⟩ 2000
        = (⟨sampleLyrics, 2⟩, some "three".toList) ∧
      UpdateLyricDisplay true ⟨sampleLyrics, 0⟩ 1500 = (⟨sampleLyrics, 0⟩, none) ∧
      ((UpdateLyricDisplay true ⟨sampleLyrics, 0⟩ 2000).2.isSome = true ↔
        newLyricIndex ⟨sampleLyrics, 0⟩ 2000 ≠ 0) :=
  ⟨by decide, by decide,
    ((update_notifies_iff_index_changes ⟨sampleLyrics, 0⟩ 2000).2 (by decide)).2.2⟩

/-! ## Properties of the LRC parser -/

theorem char_toNat_inj (a b : Char) (h : a.toNat = b.toNat) : a = b := by
  have := congrArg Char.ofNat h
  simpa using this

theorem str_lt_asymm (a b : Text) (h : str_lt a b = true) : str_lt b a = false := by
  induction a generalizing b with
  | nil => cases b <;> simp_all [str_lt]
  | cons x xs ih =>
    cases b with
    | nil => simp [str_lt] at h
    | cons y ys =>
      simp only [str_lt] at h ⊢
      by_cases h1 : x.toNat < y.toNat
      · have h2 : ¬ y.toNat < x.toNat := by omega
        simp [h1, h2]
      · by_cases h2 : y.toNat < x.toNat
        · simp [h1, h2] at h
        · simp only [h1, h2, if_false] at h ⊢
          exact ih ys h

theorem str_le_trans (a b c : Text) (hab : str_lt b a = false) (hbc : str_lt c b = false) :
    str_lt c a = false := by
  induction a generalizing b c with
  | nil => cases c <;> simp [str_lt]
  | cons x xs ih =>
    cases c with
    | nil =>
      cases b with
      | nil => simp [str_lt] at hab
      | cons y ys => simp [str_lt] at hbc
    | cons z zs =>
      cases b with
      | nil => simp [str_lt] at hab
      | cons y ys =>
        simp only [str_lt] at hab hbc ⊢
        by_cases h1 : z.toNat < x.toNat
        · exfalso
          by_cases h2 : y.toNat < x.toNat
          · simp [h2] at hab
          · by_cases h3 : z.toNat < y.toNat
            · simp [h3] at hbc
            · omega
        · by_cases h2 : x.toNat < z.toNat
          · simp [h1, h2]
          · simp only [h1, h2, if_false]
            have hxz : x.toNat = z.toNat := by omega
            by_cases h3 : y.toNat < x.toNat
            · simp [h3] at hab
            · by_cases h4 : z.toNat < y.toNat
              · simp [h4] at hbc
              · have h5 : ¬ x.toNat < y.toNat := by omega
                have h6 : ¬ y.toNat < z.toNat := by omega
                simp only [h3, h5, h4, h6, if_false] at hab hbc
                exact ih ys zs hab hbc

theorem str_le_antisymm (a b : Text) (hab : str_lt b a = false) (hba : str_lt a b = false) :
    a = b := by
  induction a generalizing b with
  | nil =>
    cases b with
    | nil => rfl
    | cons y ys => simp [str_lt] at hba
  | cons x xs ih =>
    cases b with
    | nil => simp [str_lt] at hab
    | cons y ys =>
      simp only [str_lt] at hab hba
      by_cases h1 : x.toNat < y.toNat
      · simp [h1] at hba
      · by_cases h2 : y.toNat < x.toNat
        · simp [h2] at hab
        · simp only [h1, h2, if_false] at hab hba
          have hxy : x = y := char_toNat_inj x y (by omega)
          rw [hxy, ih ys hab hba]

theorem cue_le_iff (a b : Int × Text) :
    cue_le a b ↔ a.1 < b.1 ∨ (a.1 = b.1 ∧ str_lt b.2 a.2 = false) := by
  unfold cue_le cue_lt
  by_cases h1 : b.1 < a.1
  · simp [h1]; omega
  · by_cases h2 : a.1 < b.1
    · simp [h1, h2]
    · have : a.1 = b.1 := by omega
      simp [h1, h2, this]

theorem cue_le_total : IsTotal (Int × Text) cue_le := by
  refine ⟨fun a b => ?_⟩
  rw [cue_le_iff, cue_le_iff]
  rcases lt_trichotomy a.1 b.1 with h | h | h
  · exact Or.inl (Or.inl h)
  · by_cases hs : str_lt b.2 a.2 = true
    · exact Or.inr (Or.inr ⟨h.symm, str_lt_asymm _ _ hs⟩)
    · exact Or.inl (Or.inr ⟨h, by simpa using hs⟩)
  · exact Or.inr (Or.inl h)

theorem cue_le_trans : IsTrans (Int × Text) cue_le := by
  refine ⟨fun a b c => ?_⟩
  rw [cue_le_iff, cue_le_iff, cue_le_iff]
  rintro (h1 | ⟨h1, s1⟩) (h2 | ⟨h2, s2⟩)
  · left; omega
  · left; omega
  · left; omega
  · right; exact ⟨by omega, str_le_trans _ _ _ s1 s2⟩

theorem cue_le_antisymm : IsAntisymm (Int × Text) cue_le := by
  refine ⟨fun a b => ?_⟩
  rw [cue_le_iff, cue_le_iff]
  rintro (h1 | ⟨h1, s1⟩) (h2 | ⟨h2, s2⟩)
  · omega
  · omega
  · omega
  · exact Prod.ext h1 (str_le_antisymm _ _ s1 s2)

theorem std_sort_perm (l : List (Int × Text)) : (std_sort l).Perm l :=
  List.perm_insertionSort cue_le l

theorem std_sort_sorted (l : List (Int × Text)) : (std_sort l).Sorted cue_le :=
  @List.sorted_insertionSort _ cue_le _ cue_le_total cue_le_trans l

/-- Any rearrangement of `l` that is ascending for `operator<` is `std_sort l`. -/
theorem std_sort_unique (l l' : List (Int × Text)) (hp : l'.Perm l)
    (hs : l'.Sorted cue_le) : l' = std_sort l :=
  @List.eq_of_perm_of_sorted _ cue_le cue_le_antisymm _ _
    (hp.trans (std_sort_perm l).symm) hs (std_sort_sorted l)

/-- The characterisation of `splitLines` used by the parsing loop: an empty rest ends the
loop; a rest without line feed is the last line; otherwise the line is what precedes the
first line feed and the loop continues after it. -/
theorem splitLines_loop (line rest : Text) (hline : '\n' ∉ line) :
    splitLines [] = [] ∧ (line ≠ [] → splitLines line = [line]) ∧
      splitLines (line ++ '\n' :: rest) = line :: splitLines rest := by
  refine ⟨rfl, ?_, ?_⟩
  · induction line with
    | nil => intro h; exact absurd rfl h
    | cons c cs ih =>
      intro _
      have hc : c ≠ '\n' := fun h => hline (by simp [h])
      have hcs : '\n' ∉ cs := fun h => hline (List.mem_cons_of_mem _ h)
      cases cs with
      | nil => simp [splitLines, hc]
      | cons d ds =>
        have := ih hcs (by simp)
        simp only [splitLines, hc, if_false] at this ⊢
        simp [this]
  · induction line with
    | nil => simp [splitLines]
    | cons c cs ih =>
      have hc : c ≠ '\n' := fun h => hline (by simp [h])
      have hcs : '\n' ∉ cs := fun h => hline (List.mem_cons_of_mem _ h)
      have := ih hcs
      show splitLines (c :: (cs ++ '\n' :: rest)) = (c :: cs) :: splitLines rest
      simp only [splitLines, hc, if_false]
      rw [this]

/-- C8. The parser yields the cues (10000,"World"), (62500,"Hello") for the text of the
example, but for the line `[00:08.03]x` it yields the timestamp 8029, not
0*60000 + 8*1000 + 3*10 = 8030. The seconds go through `float`: the `float` nearest to
8.03 is 8420065 / 2^20 (its distance to 803/100 is below half a unit in the last place,
2^-21), the `float` nearest to 1000 times that is 16445439 / 2^11 = 8029.9995 (distance
232 / 2^20, below the half unit 256 / 2^20), and the conversion to `int` truncates. -/
theorem lrc_seconds_lose_a_millisecond :
    parseLyrics stof_decimal "[01:02.50]Hello\n[00:10.00]World".toList
        = [(10000, "World".toList), (62500, "Hello".toList)] ∧
      stof_decimal "08.03".toList = some (F32.finite false 8420065 (2 ^ 20)) ∧
      (2 ^ 23 ≤ 8420065 ∧ 8420065 < 2 ^ 24 ∧
        2 * (803 * 2 ^ 20 - 100 * 8420065) < 100 ∧ 100 * 8420065 ≤ 803 * 2 ^ 20) ∧
      f32_mul (F32.finite false 8420065 (2 ^ 20)) 1000 = F32.finite false 16445439 (2 ^ 11) ∧
      (2 ^ 23 ≤ 16445439 ∧ 16445439 < 2 ^ 24 ∧
        2 * (8420065 * 1000 - 16445439 * 2 ^ 9) < 2 ^ 9 ∧
        16445439 * 2 ^ 9 ≤ 8420065 * 1000) ∧
      f32_to_int (F32.finite false 16445439 (2 ^ 11)) = 8029 ∧
      parseLyrics stof_decimal "[00:08.03]x".toList = [(8029, "x".toList)] ∧
      (8029 : Int) ≠ 0 * 60000 + 8 * 1000 + 3 * 10 := by
  refine ⟨by decide, by decide, by decide, by decide, by decide, by decide, by decide,
    by decide⟩

/-- C9. For every lyric text (and whatever `std::stof` returns), the cue list left by the
parser is a rearrangement of the cues produced from the accepted lines and is in ascending
order of timestamp. -/
theorem parsed_cues_sorted_permutation (stof : Text → Option F32) (lyric_content : Text) :
    (parseLyrics stof lyric_content).Perm (parseCues stof lyric_content) ∧
      SortedByTime (parseLyrics stof lyric_content) := by
  refine ⟨std_sort_perm _, ?_⟩
  have h := std_sort_sorted (parseCues stof lyric_content)
  unfold SortedByTime parseLyrics
  refine List.Pairwise.imp ?_ h
  intro a b hab
  rcases (cue_le_iff a b).mp hab with h1 | ⟨h1, _⟩ <;> omega

/-- C10 fails as stated: for the text `[00:01.00]b`, `[00:01.00]a` the parsed cues are
(1000,"b"), (1000,"a") in line order, and the final list is (1000,"a"), (1000,"b"). -/
theorem sort_reorders_equal_timestamps :
    parseCues stof_decimal tiedLyricText = [(1000, "b".toList), (1000, "a".toList)] ∧
      parseLyrics stof_decimal tiedLyricText = [(1000, "a".toList), (1000, "b".toList)] ∧
      ¬ KeepsLineOrderOfTies (parseCues stof_decimal tiedLyricText)
          (parseLyrics stof_decimal tiedLyricText) := by
  refine ⟨by decide, by decide, ?_⟩
  intro h
  have h1000 := h 1000
  revert h1000
  decide

/-- C10, amended. For every lyric text, the final cue list is ordered by timestamp and,
among cues with the same timestamp, by text (ascending `std::string` order); it depends
only on which cues were parsed, not on the order of their lines. -/
theorem equal_timestamps_ordered_by_text (stof : Text → Option F32) (lyric_content : Text) :
    (parseLyrics stof lyric_content).Pairwise
        (fun a b => a.1 < b.1 ∨ (a.1 = b.1 ∧ str_lt b.2 a.2 = false)) ∧
      ∀ other_content : Text,
        (parseCues stof other_content).Perm (parseCues stof lyric_content) →
        parseLyrics stof other_content = parseLyrics stof lyric_content := by
  constructor
  · refine List.Pairwise.imp ?_ (std_sort_sorted (parseCues stof lyric_content))
    intro a b hab
    exact (cue_le_iff a b).mp hab
  · intro other_content hperm
    exact std_sort_unique _ _ ((std_sort_perm _).trans hperm) (std_sort_sorted _)

/-- Witness for the amended C10: the two orders of the tied lines give the same list. -/
theorem equal_timestamps_ordered_by_text_witness :
    parseLyrics stof_decimal "[00:01.00]a\n[00:01.00]b".toList
        = [(1000, "a".toList), (1000, "b".toList)] ∧
      parseLyrics stof_decimal "[00:01.00]a\n[00:01.00]b".toList
        = parseLyrics stof_decimal tiedLyricText :=
  ⟨by decide,
    (equal_timestamps_ordered_by_text stof_decimal tiedLyricText).2
      "[00:01.00]a\n[00:01.00]b".toList (by decide)⟩

theorem parseLine_some (stof : Text → Option F32) (line0 : Text) (cue : Int × Text)
    (h : parseLine stof line0 = some cue) :
    HasMinutesTag (stripCR line0) ∧
      ∃ rb colon ss, find ']' (stripCR line0) = some rb ∧
        find ':' (substr (stripCR line0) 1 (rb - 1)) = some colon ∧
        stof ((substr (stripCR line0) 1 (rb - 1)).drop (colon + 1)) = some ss ∧
        cue.2 = (if rb + 1 < (stripCR line0).length then (stripCR line0).drop (rb + 1)
                 else []) := by
  unfold parseLine at h
  have hstrip : (if (!line0.isEmpty && line0.getLast? == some '\r') = true
      then line0.dropLast else line0) = stripCR line0 := rfl
  simp only [hstrip] at h
  generalize stripCR line0 = line at h ⊢
  split at h
  · exact Option.noConfusion h
  · split at h
    · rename_i hhead
      simp only [Bool.and_eq_true, decide_eq_true_eq, beq_iff_eq] at hhead
      cases hrb : find ']' line with
      | none => simp [hrb] at h
      | some rb =>
        simp only [hrb] at h
        cases hcolon : find ':' (substr line 1 (rb - 1)) with
        | none => simp [hcolon] at h
        | some colon =>
          simp only [hcolon] at h
          split at h
          · rename_i hdig
            cases hmm : stoi (List.take colon (substr line 1 (rb - 1))) with
            | none => simp [hmm] at h
            | some mm =>
              simp only [hmm] at h
              cases hss : stof (List.drop (colon + 1) (substr line 1 (rb - 1))) with
              | none => simp [hss] at h
              | some ss =>
                simp only [hss, Option.some.injEq] at h
                have hpos : 0 < colon := by
                  by_contra hc
                  have h0 : colon = 0 := by omega
                  subst h0
                  simp [stoi] at hmm
                refine ⟨⟨hhead.2, rb, hrb, colon, hcolon, hpos, hdig⟩, rb, colon, ss, rfl,
                  hcolon, hss, ?_⟩
                rw [← h]
          · exact Option.noConfusion h
    · exact Option.noConfusion h

theorem parseCues_line_feed (stof : Text → Option F32) (line rest : Text)
    (hline : '\n' ∉ line) :
    parseCues stof (line ++ '\n' :: rest)
      = (parseLine stof line).toList ++ parseCues stof rest := by
  unfold parseCues
  rw [(splitLines_loop line rest hline).2.2]
  cases h : parseLine stof line with
  | none => simp [List.filterMap_cons, h]
  | some cue => simp [List.filterMap_cons, h]

/-- C11. Every cue comes from a line that (after removal of a trailing carriage return)
starts with `[`, contains `]`, and has in its tag a `:` preceded by a non-empty field of
decimal digits; a line without these gives no cue, and so does a line whose seconds
`std::stof` cannot convert; `[ar:Artist]`, `[:30]x`, a line without bracket and a tag
without colon give no cue; and whatever a line gives, the lines after it are parsed. -/
theorem malformed_lines_are_skipped (stof : Text → Option F32) :
    (∀ line0 cue, parseLine stof line0 = some cue → HasMinutesTag (stripCR line0)) ∧
    (∀ line0, ¬ HasMinutesTag (stripCR line0) → parseLine stof line0 = none) ∧
    (∀ line0 rb colon, find ']' (stripCR line0) = some rb →
      find ':' (substr (stripCR line0) 1 (rb - 1)) = some colon →
      stof ((substr (stripCR line0) 1 (rb - 1)).drop (colon + 1)) = none →
      parseLine stof line0 = none) ∧
    parseLine stof "[ar:Artist]".toList = none ∧
    parseLine stof "[:30]x".toList = none ∧
    parseLine stof "no bracket".toList = none ∧
    parseLine stof "[0130]no colon".toList = none ∧
    (∀ line rest, '\n' ∉ line →
      parseCues stof (line ++ '\n' :: rest)
        = (parseLine stof line).toList ++ parseCues stof rest) := by
  refine ⟨?_, ?_, ?_, rfl, rfl, rfl, rfl, ?_⟩
  · intro line0 cue h
    exact (parseLine_some stof line0 cue h).1
  · intro line0 hnot
    cases h : parseLine stof line0 with
    | none => rfl
    | some cue => exact absurd (parseLine_some stof line0 cue h).1 hnot
  · intro line0 rb colon hrb hcolon hss
    cases h : parseLine stof line0 with
    | none => rfl
    | some cue =>
      obtain ⟨_, rb', colon', ss, hrb', hcolon', hss', _⟩ := parseLine_some stof line0 cue h
      rw [hrb] at hrb'
      cases hrb'
      rw [hcolon] at hcolon'
      cases hcolon'
      rw [hss] at hss'
      exact Option.noConfusion hss'
  · intro line rest hline
    exact parseCues_line_feed stof line rest hline

/-- Witness for C11: four rejected lines (one with seconds `xx`) followed by a good one. -/
theorem malformed_lines_are_skipped_witness :
    parseCues stof_decimal "[ar:Artist]\n[:30]x\n[00:xx]y\nplain\n[00:01.00]a".toList
        = [(1000, "a".toList)] ∧
      parseLine stof_decimal "[00:xx]y".toList = none ∧
      parseCues stof_decimal ("[00:xx]y".toList ++ '\n' :: "[00:01.00]a".toList)
        = (parseLine stof_decimal "[00:xx]y".toList).toList
            ++ parseCues stof_decimal "[00:01.00]a".toList :=
  ⟨by decide,
    (malformed_lines_are_skipped stof_decimal).2.2.1 "[00:xx]y".toList 6 2
      (by decide) (by decide) (by decide),
    (malformed_lines_are_skipped stof_decimal).2.2.2.2.2.2.2 "[00:xx]y".toList
      "[00:01.00]a".toList (by decide)⟩

/-! ## Properties of the stereo downmix and of `SkipId3Tag` -/

theorem tdiv_two_eq (x : Int) :
    (0 ≤ x → Int.tdiv x 2 = x / 2) ∧ (x < 0 → Int.tdiv x 2 = -((-x) / 2)) := by
  constructor
  · intro h
    exact Int.tdiv_eq_ediv h (by decide)
  · intro h
    have h1 : Int.tdiv x 2 = -(Int.tdiv (-x) 2) := by
      rw [Int.neg_tdiv, neg_neg]
    rw [h1, Int.tdiv_eq_ediv (by omega) (by decide)]

theorem tdiv_two_bounds (x : Int) (h1 : -65536 ≤ x) (h2 : x ≤ 65534) :
    -32768 ≤ Int.tdiv x 2 ∧ Int.tdiv x 2 ≤ 32767 := by
  rcases le_or_lt 0 x with h | h
  · rw [(tdiv_two_eq x).1 h]
    omega
  · rw [(tdiv_two_eq x).2 h]
    omega

theorem downmixStereo_length (pcm_buffer : List Int) (n : Nat) :
    (downmixStereo pcm_buffer n).length = n / 2 := by
  simp only [downmixStereo, List.length_map, List.length_range]
  rw [(tdiv_two_eq (n : Int)).1 (by omega)]
  omega

theorem downmixStereo_get (pcm_buffer : List Int) (n i : Nat) (hi : i < n / 2) :
    (downmixStereo pcm_buffer n)[i]?
      = some (toInt16 (Int.tdiv
          (wrapInt32 (pcm_buffer.getD (i * 2) 0 + pcm_buffer.getD (i * 2 + 1) 0)) 2)) := by
  have hlen : i < (Int.tdiv (n : Int) 2).toNat := by
    rw [(tdiv_two_eq (n : Int)).1 (by omega)]
    omega
  simp only [downmixStereo, List.getElem?_map, List.getElem?_range hlen, Option.map_some']

theorem synchsafe_lt (b6 b7 b8 b9 : Nat) :
    (((b6 &&& 0x7F) <<< 21) ||| ((b7 &&& 0x7F) <<< 14) ||| ((b8 &&& 0x7F) <<< 7)
      ||| (b9 &&& 0x7F)) < 2 ^ 28 := by
  have h7 : ∀ b : Nat, b &&& 0x7F < 2 ^ 7 := fun b => Nat.and_lt_two_pow b (by decide)
  have hs : ∀ (b k : Nat), k ≤ 21 → (b &&& 0x7F) <<< k < 2 ^ 28 := by
    intro b k hk
    rw [Nat.shiftLeft_eq]
    calc (b &&& 0x7F) * 2 ^ k < 2 ^ 7 * 2 ^ k :=
          Nat.mul_lt_mul_of_pos_right (h7 b) (Nat.two_pow_pos k)
      _ = 2 ^ (7 + k) := (Nat.pow_add 2 7 k).symm
      _ ≤ 2 ^ 28 := Nat.pow_le_pow_right (by decide) (by omega)
  have h9 : b9 &&& 0x7F < 2 ^ 28 := lt_of_lt_of_le (h7 b9) (by decide)
  exact Nat.or_lt_two_pow (Nat.or_lt_two_pow (Nat.or_lt_two_pow (hs b6 21 (by omega))
    (hs b7 14 (by omega))) (hs b8 7 (by omega))) h9

theorem skipId3Tag_eq (bytes : List Nat) (size : Nat) (hsize : 10 ≤ size)
    (hid3 : bytes.take 3 = [0x49, 0x44, 0x33]) :
    SkipId3Tag (some bytes) size = min (id3DeclaredLength bytes) size := by
  have hlt := synchsafe_lt (bytes.getD 6 0) (bytes.getD 7 0) (bytes.getD 8 0) (bytes.getD 9 0)
  have h1 : ¬ size < 10 := by omega
  simp only [SkipId3Tag, h1, if_false, hid3, ne_eq, not_true_eq_false, id3DeclaredLength]
  generalize (((bytes.getD 6 0 &&& 0x7F) <<< 21) ||| ((bytes.getD 7 0 &&& 0x7F) <<< 14)
      ||| ((bytes.getD 8 0 &&& 0x7F) <<< 7) ||| (bytes.getD 9 0 &&& 0x7F)) = tag at hlt ⊢
  have h28 : (2 : Nat) ^ 28 = 268435456 := by decide
  have hm1 : tag % 4294967296 = tag := Nat.mod_eq_of_lt (by omega)
  have hm2 : (10 + tag) % SIZE_MOD = 10 + tag := by
    apply Nat.mod_eq_of_lt
    unfold SIZE_MOD
    omega
  rw [hm1, hm2]
  split <;> omega

theorem skipId3Tag_le_size (data : Option (List Nat)) (size : Nat) :
    SkipId3Tag data size ≤ size := by
  cases data with
  | none => simp [SkipId3Tag]
  | some bytes =>
    by_cases hsize : size < 10
    · simp [SkipId3Tag, hsize]
    · by_cases hid3 : bytes.take 3 = [0x49, 0x44, 0x33]
      · rw [skipId3Tag_eq bytes size (by omega) hid3]
        omega
      · simp [SkipId3Tag, hsize, hid3]

/-- C15 fails as stated: on a 12-byte window that begins with `ID3` and declares a tag of
110 bytes, `SkipId3Tag` returns 12 (the window size), not the declared length. -/
theorem skipId3Tag_clamps_to_window :
    shortId3Window.take 3 = [0x49, 0x44, 0x33] ∧ shortId3Window.length = 12 ∧
      id3DeclaredLength shortId3Window = 110 ∧
      SkipId3Tag (some shortId3Window) 12 = 12 ∧
      SkipId3Tag (some shortId3Window) 12 ≠ id3DeclaredLength shortId3Window := by
  decide

/-- C15, amended. For a window of at least 10 bytes that begins with `ID3`, `SkipId3Tag`
returns the smaller of the declared tag length and the window size, hence the full
declared length when the tag lies within the window; for a window shorter than 10 bytes,
one not beginning with `ID3`, or a null pointer it returns 0; it never returns more than
the window size. -/
theorem skipId3Tag_min_of_declared_and_window (bytes : List Nat) (size : Nat) :
    (10 ≤ size → bytes.take 3 = [0x49, 0x44, 0x33] →
      SkipId3Tag (some bytes) size = min (id3DeclaredLength bytes) size ∧
      (id3DeclaredLength bytes ≤ size →
        SkipId3Tag (some bytes) size = id3DeclaredLength bytes)) ∧
    (size < 10 → SkipId3Tag (some bytes) size = 0) ∧
    (bytes.take 3 ≠ [0x49, 0x44, 0x33] → SkipId3Tag (some bytes) size = 0) ∧
    SkipId3Tag none size = 0 ∧
    SkipId3Tag (some bytes) size ≤ size := by
  refine ⟨?_, ?_, ?_, rfl, ?_⟩
  · intro hsize hid3
    have h := skipId3Tag_eq bytes size hsize hid3
    refine ⟨h, ?_⟩
    intro hle
    rw [h]
    omega
  · intro hsize
    simp [SkipId3Tag, hsize]
  · intro hid3
    simp only [SkipId3Tag]
    split
    · rfl
    · simp [hid3]
  · exact skipId3Tag_le_size (some bytes) size

/-- Witness for the amended C15: a 14-byte window declaring 10 + 2 bytes gives 12, and
the 12-byte window declaring 110 bytes gives 12. -/
theorem skipId3Tag_min_of_declared_and_window_witness :
    SkipId3Tag (some [0x49, 0x44, 0x33, 3, 0, 0, 0, 0, 0, 2, 1, 2, 3, 4]) 14 = 12 ∧
      SkipId3Tag (some shortId3Window) 12 = min (id3DeclaredLength shortId3Window) 12 :=
  ⟨((skipId3Tag_min_of_declared_and_window [0x49, 0x44, 0x33, 3, 0, 0, 0, 0, 0, 2, 1, 2, 3, 4]
      14).1 (by decide) (by decide)).2 (by decide),
    ((skipId3Tag_min_of_declared_and_window shortId3Window 12).1 (by decide) (by decide)).1⟩

/-! ## Properties of the playback worker -/

theorem skipId3Once_frame (s : PlayState) :
    (skipId3Once s).current_play_time_ms_ = s.current_play_time_ms_ ∧
      (skipId3Once s).pc = s.pc ∧
      (skipId3Once s).is_playing_ = s.is_playing_ ∧
      (skipId3Once s).is_downloading_ = s.is_downloading_ ∧
      (skipId3Once s).buf = s.buf ∧
      (skipId3Once s).total_frames_decoded_ = s.total_frames_decoded_ ∧
      (skipId3Once s).output_sample_rate = s.output_sample_rate ∧
      (skipId3Once s).lyric = s.lyric ∧
      (skipId3Once s).events = s.events := by
  unfold skipId3Once
  split_ifs <;> simp

theorem fillWindow_frame (s : PlayState) (chunk : AudioChunk) :
    (fillWindow s chunk).current_play_time_ms_ = s.current_play_time_ms_ ∧
      (fillWindow s chunk).pc = s.pc ∧
      (fillWindow s chunk).is_playing_ = s.is_playing_ ∧
      (fillWindow s chunk).is_downloading_ = s.is_downloading_ ∧
      (fillWindow s chunk).buf = s.buf ∧
      (fillWindow s chunk).total_frames_decoded_ = s.total_frames_decoded_ ∧
      (fillWindow s chunk).output_sample_rate = s.output_sample_rate ∧
      (fillWindow s chunk).lyric = s.lyric ∧
      (fillWindow s chunk).events
        = s.events ++ (if chunk.size > 0 then [PlayEvent.free chunk.data] else []) := by
  unfold fillWindow
  obtain ⟨h1, h2, h3, h4, h5, h6, h7, h8, h9⟩ := skipId3Once_frame (appendChunk s chunk)
  split_ifs
  · simp only [h1, h2, h3, h4, h5, h6, h7, h8, h9]
    simp [appendChunk]
  · simp

theorem emitFrame_frame (cfg : PlayConfig) (env : IterEnv) (s : PlayState)
    (info : MP3FrameInfo) (pcm_buffer : List Int) :
    (emitFrame cfg env s info pcm_buffer).current_play_time_ms_ = s.current_play_time_ms_ ∧
      (emitFrame cfg env s info pcm_buffer).buf = s.buf ∧
      (emitFrame cfg env s info pcm_buffer).is_downloading_ = s.is_downloading_ ∧
      (emitFrame cfg env s info pcm_buffer).total_frames_decoded_ = s.total_frames_decoded_ ∧
      (emitFrame cfg env s info pcm_buffer).lyric = s.lyric ∧
      (emitFrame cfg env s info pcm_buffer).read_ptr = s.read_ptr ∧
      (emitFrame cfg env s info pcm_buffer).bytes_left = s.bytes_left ∧
      ((emitFrame cfg env s info pcm_buffer).pc = s.pc ∨
        (emitFrame cfg env s info pcm_buffer).pc = PlayPc.loopExit) := by
  unfold emitFrame
  split_ifs <;> simp

theorem onDecodeFailed_frame (s : PlayState) :
    (onDecodeFailed s).current_play_time_ms_ = s.current_play_time_ms_ ∧
      (onDecodeFailed s).pc = s.pc ∧
      (onDecodeFailed s).is_playing_ = s.is_playing_ ∧
      (onDecodeFailed s).buf = s.buf ∧
      (onDecodeFailed s).is_downloading_ = s.is_downloading_ ∧
      (onDecodeFailed s).total_frames_decoded_ = s.total_frames_decoded_ ∧
      (onDecodeFailed s).output_sample_rate = s.output_sample_rate ∧
      (onDecodeFailed s).lyric = s.lyric ∧
      (onDecodeFailed s).events = s.events := by
  unfold onDecodeFailed
  split_ifs <;> simp

theorem onFrameDecoded_invalid (cfg : PlayConfig) (env : IterEnv) (s : PlayState)
    (out : DecodeOutcome) (hzero : out.frame.samprate = 0 ∨ out.frame.nChans = 0) :
    onFrameDecoded cfg env s out
      = { s with total_frames_decoded_ := wrapInt32 (s.total_frames_decoded_ + 1) } := by
  unfold onFrameDecoded
  simp [hzero]

theorem wrapInt32_of_range (x : Int) (h1 : -2147483648 ≤ x) (h2 : x ≤ 2147483647) :
    wrapInt32 x = x := by
  unfold wrapInt32
  omega

theorem frameDurationMs_exact (info : MP3FrameInfo) (hok : FrameMetadataOK info)
    (hr : info.samprate ≠ 0) (hn : info.nChans ≠ 0) :
    frameDurationMs info
        = some (Int.tdiv (info.outputSamps * 1000) (info.samprate * info.nChans)) ∧
      0 ≤ Int.tdiv (info.outputSamps * 1000) (info.samprate * info.nChans) := by
  obtain ⟨h1, h2, h3, h4, h5⟩ := hok
  have hpos : 0 < info.samprate * info.nChans :=
    Int.mul_pos (lt_of_le_of_ne h3 (Ne.symm hr)) (lt_of_le_of_ne h4 (Ne.symm hn))
  have hnum : 0 ≤ info.outputSamps * 1000 := by omega
  have hw1 : wrapInt32 (info.samprate * info.nChans) = info.samprate * info.nChans :=
    wrapInt32_of_range _ (by omega) h5
  have hw2 : wrapInt32 (info.outputSamps * 1000) = info.outputSamps * 1000 :=
    wrapInt32_of_range _ (by omega) h2
  have hq0 : 0 ≤ Int.tdiv (info.outputSamps * 1000) (info.samprate * info.nChans) :=
    Int.tdiv_nonneg hnum (le_of_lt hpos)
  have hq1 : Int.tdiv (info.outputSamps * 1000) (info.samprate * info.nChans)
      ≤ info.outputSamps * 1000 := by
    rw [Int.tdiv_eq_ediv hnum (le_of_lt hpos)]
    exact Int.ediv_le_self _ hnum
  refine ⟨?_, hq0⟩
  unfold frameDurationMs
  rw [hw1, hw2]
  have hne : info.samprate * info.nChans ≠ 0 := ne_of_gt hpos
  simp only [hne, if_false]
  rw [wrapInt32_of_range _ (by omega) (by omega)]

theorem onFrameDecoded_clock (cfg : PlayConfig) (env : IterEnv) (s : PlayState)
    (out : DecodeOutcome) :
    (onFrameDecoded cfg env s out).current_play_time_ms_ = s.current_play_time_ms_ ∨
      (out.frame.samprate ≠ 0 ∧ out.frame.nChans ≠ 0 ∧
        ∃ d, frameDurationMs out.frame = some d ∧
          (onFrameDecoded cfg env s out).current_play_time_ms_
            = s.current_play_time_ms_ + d) := by
  by_cases hzero : out.frame.samprate = 0 ∨ out.frame.nChans = 0
  · left
    rw [onFrameDecoded_invalid cfg env s out hzero]
  · cases hd : frameDurationMs out.frame with
    | none =>
      left
      unfold onFrameDecoded
      simp [hzero, hd]
    | some d =>
      right
      refine ⟨fun h => hzero (Or.inl h), fun h => hzero (Or.inr h), d, rfl, ?_⟩
      unfold onFrameDecoded
      simp only [hzero, if_false, hd]
      rw [(emitFrame_frame cfg env _ out.frame out.pcm_buffer).1]

theorem skipToSync_frame (s : PlayState) (sync_offset : Int) :
    (skipToSync s sync_offset).current_play_time_ms_ = s.current_play_time_ms_ ∧
      (skipToSync s sync_offset).pc = s.pc ∧
      (skipToSync s sync_offset).is_playing_ = s.is_playing_ ∧
      (skipToSync s sync_offset).is_downloading_ = s.is_downloading_ ∧
      (skipToSync s sync_offset).buf = s.buf ∧
      (skipToSync s sync_offset).total_frames_decoded_ = s.total_frames_decoded_ ∧
      (skipToSync s sync_offset).output_sample_rate = s.output_sample_rate ∧
      (skipToSync s sync_offset).lyric = s.lyric ∧
      (skipToSync s sync_offset).events = s.events ∧
      (skipToSync s sync_offset).mp3_input_buffer = s.mp3_input_buffer := by
  unfold skipToSync
  split_ifs <;> simp

theorem showSongName_frame (cfg : PlayConfig) (s : PlayState) :
    (showSongName cfg s).current_play_time_ms_ = s.current_play_time_ms_ ∧
      (showSongName cfg s).pc = s.pc ∧
      (showSongName cfg s).is_playing_ = s.is_playing_ ∧
      (showSongName cfg s).is_downloading_ = s.is_downloading_ ∧
      (showSongName cfg s).buf = s.buf ∧
      (showSongName cfg s).total_frames_decoded_ = s.total_frames_decoded_ ∧
      (showSongName cfg s).output_sample_rate = s.output_sample_rate ∧
      (showSongName cfg s).lyric = s.lyric ∧
      (showSongName cfg s).read_ptr = s.read_ptr ∧
      (showSongName cfg s).bytes_left = s.bytes_left ∧
      (showSongName cfg s).mp3_input_buffer = s.mp3_input_buffer := by
  unfold showSongName
  split_ifs <;> simp

theorem onFrameDecoded_clock_advance (cfg : PlayConfig) (env : IterEnv) (s : PlayState)
    (out : DecodeOutcome) (hr : out.frame.samprate ≠ 0) (hn : out.frame.nChans ≠ 0)
    (d : Int) (hd : frameDurationMs out.frame = some d) :
    (onFrameDecoded cfg env s out).current_play_time_ms_ = s.current_play_time_ms_ + d := by
  have hzero : ¬ (out.frame.samprate = 0 ∨ out.frame.nChans = 0) := by
    intro hz
    rcases hz with hz | hz
    · exact hr hz
    · exact hn hz
  unfold onFrameDecoded
  simp only [hzero, if_false, hd]
  rw [(emitFrame_frame cfg env _ out.frame out.pcm_buffer).1]

theorem syncAndDecode_clock_advance (cfg : PlayConfig) (env : IterEnv) (s : PlayState)
    (hsync : 0 ≤ syncOffset env s) (hdecoded : (decodeAfterSync env s).decode_result = 0)
    (hr : (decodeAfterSync env s).frame.samprate ≠ 0)
    (hn : (decodeAfterSync env s).frame.nChans ≠ 0) (d : Int)
    (hd : frameDurationMs (decodeAfterSync env s).frame = some d) :
    (syncAndDecode cfg env s).current_play_time_ms_ = s.current_play_time_ms_ + d := by
  have hns : ¬ syncOffset env s < 0 := by omega
  unfold syncAndDecode
  simp only [hns, if_false, hdecoded, if_true]
  rw [onFrameDecoded_clock_advance cfg env _ _ hr hn d hd]
  show (skipToSync s (syncOffset env s)).current_play_time_ms_ + d = _
  rw [(skipToSync_frame s _).1]

theorem syncAndDecode_clock_same (cfg : PlayConfig) (env : IterEnv) (s : PlayState)
    (h : syncOffset env s < 0 ∨ (decodeAfterSync env s).decode_result ≠ 0 ∨
      (decodeAfterSync env s).frame.samprate = 0 ∨ (decodeAfterSync env s).frame.nChans = 0 ∨
      frameDurationMs (decodeAfterSync env s).frame = none) :
    (syncAndDecode cfg env s).current_play_time_ms_ = s.current_play_time_ms_ := by
  unfold syncAndDecode
  split_ifs with h1 h2
  · rfl
  · rcases onFrameDecoded_clock cfg env
      { skipToSync s (syncOffset env s) with
          read_ptr := (decodeAfterSync env s).read_ptr
          bytes_left := (decodeAfterSync env s).bytes_left }
      (decodeAfterSync env s) with hc | ⟨hr, hn, d, hd, _⟩
    · rw [hc]
      exact (skipToSync_frame s _).1
    · rcases h with h | h | h | h | h
      · exact absurd h h1
      · exact absurd h2 h
      · exact absurd h hr
      · exact absurd h hn
      · rw [h] at hd
        exact Option.noConfusion hd
  · rw [(onDecodeFailed_frame _).1]
    exact (skipToSync_frame s _).1

theorem syncAndDecode_clock_le (cfg : PlayConfig) (env : IterEnv) (hok : DecoderMetadataOK env)
    (s : PlayState) :
    s.current_play_time_ms_ ≤ (syncAndDecode cfg env s).current_play_time_ms_ := by
  by_cases hsame : syncOffset env s < 0 ∨ (decodeAfterSync env s).decode_result ≠ 0 ∨
      (decodeAfterSync env s).frame.samprate = 0 ∨ (decodeAfterSync env s).frame.nChans = 0 ∨
      frameDurationMs (decodeAfterSync env s).frame = none
  · rw [syncAndDecode_clock_same cfg env s hsame]
  · simp only [not_or, not_lt, ne_eq, not_not] at hsame
    obtain ⟨h1, h2, h3, h4, h5⟩ := hsame
    have hex := frameDurationMs_exact (decodeAfterSync env s).frame (hok _ _ _) h3 h4
    rw [syncAndDecode_clock_advance cfg env s h1 h2 h3 h4 _ hex.1]
    have := hex.2
    omega

theorem takeChunk_eq (cfg : PlayConfig) (env : IterEnv) (s : PlayState) (chunk : AudioChunk)
    (rest : List AudioChunk) (hq : s.buf.audio_buffer_ = chunk :: rest) :
    takeChunk cfg env s
      = syncAndDecode cfg env
          (fillWindow { s with buf := (popChunk s.buf).1
                               events := s.events ++ [PlayEvent.pop chunk]
                               pc := PlayPc.loopHead } chunk) := by
  have hp : (popChunk s.buf).2 = some chunk := by
    simp [popChunk, hq]
  simp only [takeChunk, hp]

theorem takeChunk_clock_le (cfg : PlayConfig) (env : IterEnv) (hok : DecoderMetadataOK env)
    (s : PlayState) :
    s.current_play_time_ms_ ≤ (takeChunk cfg env s).current_play_time_ms_ := by
  cases hp : (popChunk s.buf).2 with
  | none =>
    simp only [takeChunk, hp]
    exact le_refl _
  | some chunk =>
    simp only [takeChunk, hp]
    have h := syncAndDecode_clock_le cfg env hok
      (fillWindow { s with buf := (popChunk s.buf).1
                           events := s.events ++ [PlayEvent.pop chunk]
                           pc := PlayPc.loopHead } chunk)
    rw [(fillWindow_frame _ _).1] at h
    exact h

theorem playStep_decodes (cfg : PlayConfig) (env : IterEnv) (s : PlayState) :
    (s.pc = PlayPc.loopHead → s.is_playing_ = true → env.device_state = DeviceState.idle →
      ¬ s.bytes_left < 4096 →
      playStep cfg env s = syncAndDecode cfg env (showSongName cfg s)) ∧
    (s.pc = PlayPc.loopHead → s.is_playing_ = true → env.device_state = DeviceState.idle →
      s.bytes_left < 4096 → s.buf.audio_buffer_ ≠ [] →
      playStep cfg env s = takeChunk cfg env (showSongName cfg s)) ∧
    (s.pc = PlayPc.popWait → s.buf.audio_buffer_ ≠ [] →
      playStep cfg env s = takeChunk cfg env s) := by
  obtain ⟨_, _, _, n4, n5, _, _, _, _, n10, _⟩ := showSongName_frame cfg s
  refine ⟨?_, ?_, ?_⟩
  · intro hpc hplay hidle hfull
    unfold playStep
    simp only [hpc]
    unfold loopIteration
    simp only [hplay, Bool.not_true, Bool.false_eq_true, if_false, hidle]
    unfold refillAndDecode
    simp [n10, hfull]
  · intro hpc hplay hidle hshort hq
    have hne : s.buf.audio_buffer_.isEmpty = false := by
      cases hl : s.buf.audio_buffer_ with
      | nil => exact absurd hl hq
      | cons c r => rfl
    unfold playStep
    simp only [hpc]
    unfold loopIteration
    simp only [hplay, Bool.not_true, Bool.false_eq_true, if_false, hidle]
    unfold refillAndDecode
    simp [n10, n5, hshort, hne]
  · intro hpc hq
    have hne : s.buf.audio_buffer_.isEmpty = false := by
      cases hl : s.buf.audio_buffer_ with
      | nil => exact absurd hl hq
      | cons c r => rfl
    unfold playStep
    simp [hpc, popWaitPred, hne]

theorem playStep_clock_same (cfg : PlayConfig) (env : IterEnv) (s : PlayState)
    (h : (s.pc ≠ PlayPc.loopHead ∧ s.pc ≠ PlayPc.popWait) ∨
      (s.pc = PlayPc.loopHead ∧ (s.is_playing_ = false ∨ env.device_state ≠ DeviceState.idle ∨
        (s.bytes_left < 4096 ∧ s.buf.audio_buffer_ = []))) ∨
      (s.pc = PlayPc.popWait ∧ s.buf.audio_buffer_ = [])) :
    (playStep cfg env s).current_play_time_ms_ = s.current_play_time_ms_ := by
  obtain ⟨n1, _, _, n4, n5, _, _, _, _, n10, _⟩ := showSongName_frame cfg s
  rcases h with ⟨h1, h2⟩ | ⟨hpc, h⟩ | ⟨hpc, hq⟩
  · unfold playStep
    split
    · rename_i heq
      exact absurd heq h1
    · rename_i heq
      exact absurd heq h2
    · rfl
  · unfold playStep
    simp only [hpc]
    unfold loopIteration
    cases hplay : s.is_playing_ with
    | false => simp
    | true =>
      simp only [Bool.not_true, Bool.false_eq_true, if_false]
      cases hdev : env.device_state with
      | listening => rfl
      | speaking => rfl
      | other => rfl
      | idle =>
        rcases h with h | h | ⟨hshort, hq⟩
        · rw [hplay] at h
          exact Bool.noConfusion h
        · exact absurd hdev h
        · simp only
          unfold refillAndDecode
          simp only [n10, hshort, if_true, n5, hq, List.isEmpty_nil, n4]
          split_ifs <;> exact n1
  · unfold playStep
    simp only [hpc, hq, List.isEmpty_nil, if_true]
    split_ifs <;> rfl

theorem playStep_clock_le (cfg : PlayConfig) (env : IterEnv) (hok : DecoderMetadataOK env)
    (s : PlayState) :
    s.current_play_time_ms_ ≤ (playStep cfg env s).current_play_time_ms_ := by
  obtain ⟨n1, _, _, _, _, _, _, _, _, _, _⟩ := showSongName_frame cfg s
  obtain ⟨d1, d2, d3⟩ := playStep_decodes cfg env s
  by_cases hsame : (s.pc ≠ PlayPc.loopHead ∧ s.pc ≠ PlayPc.popWait) ∨
      (s.pc = PlayPc.loopHead ∧ (s.is_playing_ = false ∨ env.device_state ≠ DeviceState.idle ∨
        (s.bytes_left < 4096 ∧ s.buf.audio_buffer_ = []))) ∨
      (s.pc = PlayPc.popWait ∧ s.buf.audio_buffer_ = [])
  · rw [playStep_clock_same cfg env s hsame]
  · simp only [not_or, not_and, ne_eq, not_not] at hsame
    obtain ⟨h1, h2, h3⟩ := hsame
    by_cases hpc : s.pc = PlayPc.loopHead
    · obtain ⟨hplay, hidle, hq⟩ := h2 hpc
      have hplay' : s.is_playing_ = true := by
        cases hp : s.is_playing_ with
        | true => rfl
        | false => exact absurd hp hplay
      by_cases hshort : s.bytes_left < 4096
      · rw [d2 hpc hplay' hidle hshort (hq hshort)]
        have := takeChunk_clock_le cfg env hok (showSongName cfg s)
        omega
      · rw [d1 hpc hplay' hidle hshort]
        have := syncAndDecode_clock_le cfg env hok (showSongName cfg s)
        omega
    · have hpw : s.pc = PlayPc.popWait := h1 hpc
      rw [d3 hpw (h3 hpw)]
      exact takeChunk_clock_le cfg env hok s

theorem playRun_clock_mono (cfg : PlayConfig) (envs : List IterEnv)
    (hok : ∀ env ∈ envs, DecoderMetadataOK env) (s : PlayState) :
    s.current_play_time_ms_ ≤ (playRun cfg envs s).current_play_time_ms_ := by
  induction envs generalizing s with
  | nil => exact le_refl _
  | cons env envs ih =>
    simp only [playRun]
    have h1 := playStep_clock_le cfg env (hok env (List.mem_cons_self _ _)) s
    have h2 := ih (fun e he => hok e (List.mem_cons_of_mem _ he)) (playStep cfg env s)
    omega

theorem sampleEnv_metadataOK : DecoderMetadataOK sampleEnv := by
  intro buffer read_ptr bytes_left
  show FrameMetadataOK ⟨44100, 2, 4⟩
  unfold FrameMetadataOK
  decide

/-- C13. In the playback loop the clock is changed by a successfully decoded frame with
non-zero sample rate and channel count, and by nothing else. Sync search and decoding on a
state add the frame duration to the clock when the sync word is found, `MP3Decode` returns
success and the frame has non-zero rate and channels, and leave the clock unchanged when
no sync word is found, the decode fails, or the rate or the channel count is 0. A step
reaches sync search and decoding with at least 4096 bytes left, or after taking a chunk from
a non-empty queue; showing the song name and filling the window leave the clock alone;
every other step (worker not in the loop, `is_playing_` false, device not idle, queue
empty) leaves the clock unchanged. For non-negative metadata whose products fit an `int`
the duration is exactly `(outputSamps * 1000) / (samprate * nChans)` (truncating division)
and is not negative; the worker resets the clock to 0 when it starts, the entry wait does
not touch it, and along every run of the loop with such metadata it never decreases. -/
theorem clock_advances_only_by_frame_durations (cfg : PlayConfig) (env : IterEnv)
    (s : PlayState) :
    (∀ t : PlayState, 0 ≤ syncOffset env t → (decodeAfterSync env t).decode_result = 0 →
      (decodeAfterSync env t).frame.samprate ≠ 0 → (decodeAfterSync env t).frame.nChans ≠ 0 →
      ∀ d, frameDurationMs (decodeAfterSync env t).frame = some d →
        (syncAndDecode cfg env t).current_play_time_ms_ = t.current_play_time_ms_ + d) ∧
    (∀ t : PlayState, (syncOffset env t < 0 ∨ (decodeAfterSync env t).decode_result ≠ 0 ∨
        (decodeAfterSync env t).frame.samprate = 0 ∨
        (decodeAfterSync env t).frame.nChans = 0 ∨
        frameDurationMs (decodeAfterSync env t).frame = none) →
      (syncAndDecode cfg env t).current_play_time_ms_ = t.current_play_time_ms_) ∧
    (s.pc = PlayPc.loopHead → s.is_playing_ = true → env.device_state = DeviceState.idle →
      ¬ s.bytes_left < 4096 →
      playStep cfg env s = syncAndDecode cfg env (showSongName cfg s)) ∧
    (s.pc = PlayPc.loopHead → s.is_playing_ = true → env.device_state = DeviceState.idle →
      s.bytes_left < 4096 → s.buf.audio_buffer_ ≠ [] →
      playStep cfg env s = takeChunk cfg env (showSongName cfg s)) ∧
    (s.pc = PlayPc.popWait → s.buf.audio_buffer_ ≠ [] →
      playStep cfg env s = takeChunk cfg env s) ∧
    (∀ (t : PlayState) (chunk : AudioChunk) (rest : List AudioChunk),
      t.buf.audio_buffer_ = chunk :: rest →
      takeChunk cfg env t
        = syncAndDecode cfg env
            (fillWindow { t with buf := (popChunk t.buf).1
                                 events := t.events ++ [PlayEvent.pop chunk]
                                 pc := PlayPc.loopHead } chunk) ∧
      (fillWindow { t with buf := (popChunk t.buf).1
                           events := t.events ++ [PlayEvent.pop chunk]
                           pc := PlayPc.loopHead } chunk).current_play_time_ms_
        = t.current_play_time_ms_) ∧
    (showSongName cfg s).current_play_time_ms_ = s.current_play_time_ms_ ∧
    (((s.pc ≠ PlayPc.loopHead ∧ s.pc ≠ PlayPc.popWait) ∨
        (s.pc = PlayPc.loopHead ∧
          (s.is_playing_ = false ∨ env.device_state ≠ DeviceState.idle ∨
            (s.bytes_left < 4096 ∧ s.buf.audio_buffer_ = []))) ∨
        (s.pc = PlayPc.popWait ∧ s.buf.audio_buffer_ = [])) →
      (playStep cfg env s).current_play_time_ms_ = s.current_play_time_ms_) ∧
    (∀ info, FrameMetadataOK info → info.samprate ≠ 0 → info.nChans ≠ 0 →
      frameDurationMs info
          = some (Int.tdiv (info.outputSamps * 1000) (info.samprate * info.nChans)) ∧
        0 ≤ Int.tdiv (info.outputSamps * 1000) (info.samprate * info.nChans)) ∧
    (∀ codec_ok decoder_initialized,
      (PlayAudioStream_begin cfg codec_ok decoder_initialized s).current_play_time_ms_ = 0) ∧
    (∀ MIN_BUFFER_SIZE malloc_ok,
      (passEntryWait MIN_BUFFER_SIZE cfg malloc_ok s).current_play_time_ms_
        = s.current_play_time_ms_) ∧
    (∀ envs, (∀ e ∈ envs, DecoderMetadataOK e) →
      s.current_play_time_ms_ ≤ (playRun cfg envs s).current_play_time_ms_) := by
  obtain ⟨d1, d2, d3⟩ := playStep_decodes cfg env s
  refine ⟨fun t h1 h2 h3 h4 d hd => syncAndDecode_clock_advance cfg env t h1 h2 h3 h4 d hd,
    fun t h => syncAndDecode_clock_same cfg env t h, d1, d2, d3, ?_,
    (showSongName_frame cfg s).1, fun h => playStep_clock_same cfg env s h, ?_, ?_, ?_, ?_⟩
  · intro t chunk rest hq
    exact ⟨takeChunk_eq cfg env t chunk rest hq, (fillWindow_frame _ _).1⟩
  · intro info hok hr hn
    exact frameDurationMs_exact info hok hr hn
  · intro codec_ok decoder_initialized
    unfold PlayAudioStream_begin
    split_ifs <;> rfl
  · intro MIN_BUFFER_SIZE malloc_ok
    unfold passEntryWait
    split_ifs <;> rfl
  · intro envs hok
    exact playRun_clock_mono cfg envs hok s

/-- Witness for C13: a stereo frame of 1152 samples at 44100 Hz, decoded from the filled
window with the clock at 0, moves the clock to 1152000 / 88200 = 13 ms; the step of the
sample worker that takes its chunk and decodes such a frame does the same, and a paused
step leaves the clock at 0. -/
theorem clock_advances_only_by_frame_durations_witness :
    (syncAndDecode sampleConfig longFrameEnv sampleFilledState).current_play_time_ms_
        = sampleFilledState.current_play_time_ms_ + 13 ∧
      (playStep sampleConfig longFrameEnv samplePlayState).current_play_time_ms_ = 13 ∧
      (playStep sampleConfig { longFrameEnv with device_state := DeviceState.other }
        samplePlayState).current_play_time_ms_ = samplePlayState.current_play_time_ms_ :=
  ⟨(clock_advances_only_by_frame_durations sampleConfig longFrameEnv samplePlayState).1
      sampleFilledState (by decide) (by decide) (by decide) (by decide) 13 (by decide),
    by decide,
    (clock_advances_only_by_frame_durations sampleConfig
      { longFrameEnv with device_state := DeviceState.other } samplePlayState).2.2.2.2.2.2.2.1
      (Or.inr (Or.inl ⟨rfl, Or.inr (Or.inl (by decide))⟩))⟩

/-- C14. When the sync search succeeds and `MP3Decode` returns success with a frame whose
sample rate or channel count is 0, the branch for a decoded frame only counts the frame:
the iteration ends (`continue`) with the clock, the lyric tracker and the calls made
unchanged, so no lyric update and no packet, and without reaching the division (the
worker is not in the undefined state). -/
theorem zero_rate_frame_is_skipped (cfg : PlayConfig) (env : IterEnv) (s : PlayState)
    (hsync : 0 ≤ syncOffset env s)
    (hdecoded : (decodeAfterSync env s).decode_result = 0)
    (hzero : (decodeAfterSync env s).frame.samprate = 0 ∨
      (decodeAfterSync env s).frame.nChans = 0) :
    (∀ s0, onFrameDecoded cfg env s0 (decodeAfterSync env s)
      = { s0 with total_frames_decoded_ := wrapInt32 (s0.total_frames_decoded_ + 1) }) ∧
    (syncAndDecode cfg env s).pc = s.pc ∧
    (syncAndDecode cfg env s).current_play_time_ms_ = s.current_play_time_ms_ ∧
    (syncAndDecode cfg env s).lyric = s.lyric ∧
    (syncAndDecode cfg env s).events = s.events ∧
    lyricUpdatesOf (syncAndDecode cfg env s).events = lyricUpdatesOf s.events ∧
    packetsOf (syncAndDecode cfg env s).events = packetsOf s.events ∧
    (syncAndDecode cfg env s).total_frames_decoded_
      = wrapInt32 (s.total_frames_decoded_ + 1) := by
  have hinv := fun s0 => onFrameDecoded_invalid cfg env s0 (decodeAfterSync env s) hzero
  have hns : ¬ syncOffset env s < 0 := by omega
  have heq : syncAndDecode cfg env s
      = { ({ skipToSync s (syncOffset env s) with
              read_ptr := (decodeAfterSync env s).read_ptr
              bytes_left := (decodeAfterSync env s).bytes_left } : PlayState) with
          total_frames_decoded_ := wrapInt32
            ((skipToSync s (syncOffset env s)).total_frames_decoded_ + 1) } := by
    unfold syncAndDecode
    simp only [hns, if_false, hdecoded, if_true]
    rw [hinv]
  obtain ⟨h1, h2, _, _, _, h6, _, h8, h9, _⟩ := skipToSync_frame s (syncOffset env s)
  refine ⟨hinv, ?_, ?_, ?_, ?_, ?_, ?_, ?_⟩
  · rw [heq]; exact h2
  · rw [heq]; exact h1
  · rw [heq]; exact h8
  · rw [heq]; exact h9
  · rw [heq]; simp only [h9]
  · rw [heq]; simp only [h9]
  · rw [heq]; simp only [h6]

/-- Witness for C14: an iteration of the sample state against a decoder that reports
sample rate 0 ends at the loop head with the clock at 0 and no packet. -/
theorem zero_rate_frame_is_skipped_witness :
    (playStep sampleConfig zeroRateEnv samplePlayState).pc = PlayPc.loopHead ∧
      (playStep sampleConfig zeroRateEnv samplePlayState).total_frames_decoded_ = 1 ∧
      packetsOf (playStep sampleConfig zeroRateEnv samplePlayState).events = [] ∧
      (syncAndDecode sampleConfig zeroRateEnv sampleFilledState).current_play_time_ms_
        = sampleFilledState.current_play_time_ms_ :=
  ⟨by decide, by decide, by decide,
    (zero_rate_frame_is_skipped sampleConfig zeroRateEnv sampleFilledState
      (by decide) (by decide) (by decide)).2.2.1⟩

theorem windowInv_of_fields (s s' : PlayState) (h1 : s'.bytes_left = s.bytes_left)
    (h2 : s'.read_ptr = s.read_ptr) (h : WindowInv s) : WindowInv s' := by
  unfold WindowInv at h ⊢
  rw [h1, h2]
  exact h

theorem appendChunk_windowInv (s : PlayState) (chunk : AudioChunk) (h : WindowInv s) :
    WindowInv (appendChunk s chunk) := by
  obtain ⟨h0, hmax, _⟩ := h
  have hspace : ((8192 - s.bytes_left) % 4294967296).toNat = (8192 - s.bytes_left).toNat := by
    congr 1
    omega
  have hmin : ((min chunk.size ((8192 - s.bytes_left) % 4294967296).toNat : Nat) : Int)
      ≤ 8192 - s.bytes_left := by
    rw [hspace]
    have : min chunk.size (8192 - s.bytes_left).toNat ≤ (8192 - s.bytes_left).toNat :=
      Nat.min_le_right _ _
    omega
  have hnn : (0 : Int)
      ≤ ((min chunk.size ((8192 - s.bytes_left) % 4294967296).toNat : Nat) : Int) :=
    Int.ofNat_nonneg _
  unfold WindowInv appendChunk
  simp only
  rw [wrapInt32_of_range _ (by omega) (by omega)]
  refine ⟨by omega, by omega, by omega, by omega⟩

theorem skipId3Once_windowInv (s : PlayState) (h : WindowInv s) :
    WindowInv (skipId3Once s) := by
  unfold skipId3Once
  split_ifs with h1 h2
  · obtain ⟨h0, hmax, hptr⟩ := h
    have hle := skipId3Tag_le_size
      (some (s.mp3_input_buffer.drop (s.read_ptr.getD 0).toNat)) s.bytes_left.toNat
    generalize SkipId3Tag (some (s.mp3_input_buffer.drop (s.read_ptr.getD 0).toNat))
      s.bytes_left.toNat = skip at hle h2 ⊢
    have hle' : (skip : Int) ≤ s.bytes_left := by omega
    unfold WindowInv
    simp only
    rw [wrapInt32_of_range _ (by omega) (by omega)]
    cases hp : s.read_ptr with
    | none =>
      rw [hp] at hptr
      simp only at hptr
      simp only [Option.map_none']
      omega
    | some p =>
      rw [hp] at hptr
      simp only at hptr
      simp only [Option.map_some']
      omega
  · exact windowInv_of_fields s _ rfl rfl h
  · exact h

theorem fillWindow_windowInv (s : PlayState) (chunk : AudioChunk) (h : WindowInv s) :
    WindowInv (fillWindow s chunk) := by
  unfold fillWindow
  split_ifs
  · exact windowInv_of_fields (skipId3Once (appendChunk s chunk)) _ rfl rfl
      (skipId3Once_windowInv _ (appendChunk_windowInv s chunk h))
  · exact h

theorem skipToSync_windowInv (s : PlayState) (sync_offset : Int) (h : WindowInv s)
    (hoff : sync_offset < s.bytes_left) : WindowInv (skipToSync s sync_offset) := by
  unfold skipToSync
  split_ifs with h1
  · obtain ⟨h0, hmax, hptr⟩ := h
    unfold WindowInv
    simp only
    rw [wrapInt32_of_range _ (by omega) (by omega)]
    cases hp : s.read_ptr with
    | none =>
      rw [hp] at hptr
      simp only at hptr
      omega
    | some p =>
      rw [hp] at hptr
      simp only at hptr
      simp only [Option.map_some']
      omega
  · exact h

theorem onDecodeFailed_windowInv (s : PlayState) (h : WindowInv s) :
    WindowInv (onDecodeFailed s) := by
  unfold onDecodeFailed
  obtain ⟨h0, hmax, hptr⟩ := h
  split_ifs with h1
  · unfold WindowInv
    simp only
    rw [wrapInt32_of_range _ (by omega) (by omega)]
    cases hp : s.read_ptr with
    | none =>
      rw [hp] at hptr
      simp only at hptr
      omega
    | some p =>
      rw [hp] at hptr
      simp only at hptr
      simp only [Option.map_some']
      omega
  · unfold WindowInv
    simp only
    cases hp : s.read_ptr with
    | none => simp
    | some p =>
      rw [hp] at hptr
      simp only at hptr
      simp only
      omega

theorem onFrameDecoded_window (cfg : PlayConfig) (env : IterEnv) (s : PlayState)
    (out : DecodeOutcome) :
    (onFrameDecoded cfg env s out).read_ptr = s.read_ptr ∧
      (onFrameDecoded cfg env s out).bytes_left = s.bytes_left := by
  unfold onFrameDecoded
  simp only
  split_ifs
  · exact ⟨rfl, rfl⟩
  · split
    · exact ⟨rfl, rfl⟩
    · obtain ⟨_, _, _, _, _, h6, h7, _⟩ := emitFrame_frame cfg env
        { s with total_frames_decoded_ := wrapInt32 (s.total_frames_decoded_ + 1)
                 current_play_time_ms_ := s.current_play_time_ms_ + _
                 lyric := _
                 events := _ } out.frame out.pcm_buffer
      exact ⟨h6, h7⟩

theorem discard_windowInv (s : PlayState) (h : WindowInv s) :
    WindowInv { s with bytes_left := 0 } := by
  obtain ⟨h0, hmax, hptr⟩ := h
  unfold WindowInv
  simp only
  cases hp : s.read_ptr with
  | none => simp
  | some p =>
    rw [hp] at hptr
    simp only at hptr
    simp only
    omega

theorem decoded_windowInv (env : IterEnv) (hc : DecoderContract env)
    (hadv : DecoderAdvancesReadPtr env) (s : PlayState) (h : WindowInv s) :
    WindowInv { s with
      read_ptr := (env.MP3Decode s.mp3_input_buffer s.read_ptr s.bytes_left).read_ptr
      bytes_left := (env.MP3Decode s.mp3_input_buffer s.read_ptr s.bytes_left).bytes_left } := by
  obtain ⟨h0, hmax, hptr⟩ := h
  obtain ⟨d0, d1⟩ := hc.2 s.mp3_input_buffer s.read_ptr s.bytes_left h0
  have d2 := hadv s.mp3_input_buffer s.read_ptr s.bytes_left h0
  unfold WindowInv
  simp only
  rw [d2]
  generalize env.MP3Decode s.mp3_input_buffer s.read_ptr s.bytes_left = out at d0 d1 ⊢
  cases hp : s.read_ptr with
  | none =>
    rw [hp] at hptr
    simp only at hptr
    simp only [Option.map_none']
    omega
  | some p =>
    rw [hp] at hptr
    simp only at hptr
    simp only [Option.map_some']
    omega

theorem syncOffset_lt (env : IterEnv) (hc : DecoderContract env) (s : PlayState)
    (h1 : ¬ syncOffset env s < 0) : syncOffset env s < s.bytes_left := by
  rcases hc.1 s.mp3_input_buffer s.read_ptr s.bytes_left with hm | ⟨_, hlt⟩
  · unfold syncOffset at h1 ⊢
    omega
  · exact hlt

theorem syncAndDecode_windowInv (cfg : PlayConfig) (env : IterEnv) (hc : DecoderContract env)
    (hadv : DecoderAdvancesReadPtr env) (s : PlayState) (h : WindowInv s) :
    WindowInv (syncAndDecode cfg env s) := by
  unfold syncAndDecode
  split_ifs with h1 h2
  · exact discard_windowInv s h
  · have hoff := syncOffset_lt env hc s h1
    have hdec := decoded_windowInv env hc hadv _ (skipToSync_windowInv s _ h hoff)
    exact windowInv_of_fields _ _ (onFrameDecoded_window cfg env _ _).2
      (onFrameDecoded_window cfg env _ _).1 hdec
  · have hoff := syncOffset_lt env hc s h1
    exact onDecodeFailed_windowInv _
      (decoded_windowInv env hc hadv _ (skipToSync_windowInv s _ h hoff))

theorem takeChunk_windowInv (cfg : PlayConfig) (env : IterEnv) (hc : DecoderContract env)
    (hadv : DecoderAdvancesReadPtr env) (s : PlayState) (h : WindowInv s) :
    WindowInv (takeChunk cfg env s) := by
  cases hp : (popChunk s.buf).2 with
  | none =>
    simp only [takeChunk, hp]
    exact windowInv_of_fields s _ rfl rfl h
  | some chunk =>
    simp only [takeChunk, hp]
    apply syncAndDecode_windowInv cfg env hc hadv
    apply fillWindow_windowInv
    exact windowInv_of_fields s _ rfl rfl h

theorem refillAndDecode_windowInv (cfg : PlayConfig) (env : IterEnv)
    (hc : DecoderContract env) (hadv : DecoderAdvancesReadPtr env) (s : PlayState)
    (h : WindowInv s) : WindowInv (refillAndDecode cfg env s) := by
  unfold refillAndDecode
  split_ifs with h1
  · exact windowInv_of_fields s _ rfl rfl h
  · exact windowInv_of_fields s _ rfl rfl h
  · exact takeChunk_windowInv cfg env hc hadv s h
  · exact syncAndDecode_windowInv cfg env hc hadv s h

theorem playStep_windowInv (cfg : PlayConfig) (env : IterEnv) (hc : DecoderContract env)
    (hadv : DecoderAdvancesReadPtr env) (s : PlayState) (h : WindowInv s) :
    WindowInv (playStep cfg env s) := by
  unfold playStep
  split
  · unfold loopIteration
    split_ifs
    · exact windowInv_of_fields s _ rfl rfl h
    · cases env.device_state with
      | idle =>
        apply refillAndDecode_windowInv cfg env hc hadv
        exact windowInv_of_fields s _ (showSongName_frame cfg s).2.2.2.2.2.2.2.2.2.1
          (showSongName_frame cfg s).2.2.2.2.2.2.2.2.1 h
      | listening => exact windowInv_of_fields s _ rfl rfl h
      | speaking => exact windowInv_of_fields s _ rfl rfl h
      | other => exact windowInv_of_fields s _ rfl rfl h
  · split_ifs
    · exact windowInv_of_fields s _ rfl rfl h
    · exact takeChunk_windowInv cfg env hc hadv s h
    · exact h
  · exact h

theorem playRun_windowInv (cfg : PlayConfig) (envs : List IterEnv)
    (hc : ∀ env ∈ envs, DecoderContract env ∧ DecoderAdvancesReadPtr env) (s : PlayState)
    (h : WindowInv s) : WindowInv (playRun cfg envs s) := by
  induction envs generalizing s with
  | nil => exact h
  | cons env envs ih =>
    simp only [playRun]
    exact ih (fun e he => hc e (List.mem_cons_of_mem _ he)) _
      (playStep_windowInv cfg env (hc env (List.mem_cons_self _ _)).1
        (hc env (List.mem_cons_self _ _)).2 s h)

theorem bytesLeftInv_of_field (s s' : PlayState) (h1 : s'.bytes_left = s.bytes_left)
    (h : BytesLeftInv s) : BytesLeftInv s' := by
  unfold BytesLeftInv at h ⊢
  rw [h1]
  exact h

theorem appendChunk_bytesLeft (s : PlayState) (chunk : AudioChunk) (h : BytesLeftInv s) :
    BytesLeftInv (appendChunk s chunk) := by
  obtain ⟨h0, hmax⟩ := h
  have hspace : ((8192 - s.bytes_left) % 4294967296).toNat = (8192 - s.bytes_left).toNat := by
    congr 1
    omega
  have hmin : ((min chunk.size ((8192 - s.bytes_left) % 4294967296).toNat : Nat) : Int)
      ≤ 8192 - s.bytes_left := by
    rw [hspace]
    have : min chunk.size (8192 - s.bytes_left).toNat ≤ (8192 - s.bytes_left).toNat :=
      Nat.min_le_right _ _
    omega
  have hnn : (0 : Int)
      ≤ ((min chunk.size ((8192 - s.bytes_left) % 4294967296).toNat : Nat) : Int) :=
    Int.ofNat_nonneg _
  unfold BytesLeftInv appendChunk
  simp only
  rw [wrapInt32_of_range _ (by omega) (by omega)]
  exact ⟨by omega, by omega⟩

theorem skipId3Once_bytesLeft (s : PlayState) (h : BytesLeftInv s) :
    BytesLeftInv (skipId3Once s) := by
  obtain ⟨h0, hmax⟩ := h
  unfold skipId3Once
  split_ifs
  · have hsk := skipId3Tag_le_size
      (some (s.mp3_input_buffer.drop (s.read_ptr.getD 0).toNat)) s.bytes_left.toNat
    unfold BytesLeftInv
    simp only
    rw [wrapInt32_of_range _ (by omega) (by omega)]
    exact ⟨by omega, by omega⟩
  · exact ⟨h0, hmax⟩
  · exact ⟨h0, hmax⟩

theorem fillWindow_bytesLeft (s : PlayState) (chunk : AudioChunk) (h : BytesLeftInv s) :
    BytesLeftInv (fillWindow s chunk) := by
  unfold fillWindow
  split_ifs
  · exact bytesLeftInv_of_field (skipId3Once (appendChunk s chunk)) _ rfl
      (skipId3Once_bytesLeft _ (appendChunk_bytesLeft s chunk h))
  · exact h

theorem skipToSync_bytesLeft (s : PlayState) (sync_offset : Int) (h : BytesLeftInv s)
    (hoff : sync_offset < s.bytes_left) : BytesLeftInv (skipToSync s sync_offset) := by
  obtain ⟨h0, hmax⟩ := h
  unfold skipToSync
  split_ifs with h1
  · unfold BytesLeftInv
    simp only
    rw [wrapInt32_of_range _ (by omega) (by omega)]
    exact ⟨by omega, by omega⟩
  · exact ⟨h0, hmax⟩

theorem onDecodeFailed_bytesLeft (s : PlayState) (h : BytesLeftInv s) :
    BytesLeftInv (onDecodeFailed s) := by
  obtain ⟨h0, hmax⟩ := h
  unfold onDecodeFailed
  split_ifs with h1
  · unfold BytesLeftInv
    simp only
    rw [wrapInt32_of_range _ (by omega) (by omega)]
    exact ⟨by omega, by omega⟩
  · exact ⟨le_refl _, by show (0 : Int) ≤ 8192; decide⟩

theorem decoded_bytesLeft (env : IterEnv) (hc : DecoderContract env) (s : PlayState)
    (h : BytesLeftInv s) :
    BytesLeftInv { s with
      read_ptr := (env.MP3Decode s.mp3_input_buffer s.read_ptr s.bytes_left).read_ptr
      bytes_left := (env.MP3Decode s.mp3_input_buffer s.read_ptr s.bytes_left).bytes_left } := by
  obtain ⟨h0, hmax⟩ := h
  obtain ⟨d0, d1⟩ := hc.2 s.mp3_input_buffer s.read_ptr s.bytes_left h0
  exact ⟨d0, by
    show (env.MP3Decode s.mp3_input_buffer s.read_ptr s.bytes_left).bytes_left ≤ 8192
    omega⟩

theorem syncAndDecode_bytesLeft (cfg : PlayConfig) (env : IterEnv) (hc : DecoderContract env)
    (s : PlayState) (h : BytesLeftInv s) : BytesLeftInv (syncAndDecode cfg env s) := by
  unfold syncAndDecode
  split_ifs with h1 h2
  · exact ⟨le_refl _, by show (0 : Int) ≤ 8192; decide⟩
  · have hoff := syncOffset_lt env hc s h1
    have hdec := decoded_bytesLeft env hc _ (skipToSync_bytesLeft s _ h hoff)
    exact bytesLeftInv_of_field _ _ (onFrameDecoded_window cfg env _ _).2 hdec
  · have hoff := syncOffset_lt env hc s h1
    exact onDecodeFailed_bytesLeft _
      (decoded_bytesLeft env hc _ (skipToSync_bytesLeft s _ h hoff))

theorem takeChunk_bytesLeft (cfg : PlayConfig) (env : IterEnv) (hc : DecoderContract env)
    (s : PlayState) (h : BytesLeftInv s) : BytesLeftInv (takeChunk cfg env s) := by
  cases hp : (popChunk s.buf).2 with
  | none =>
    simp only [takeChunk, hp]
    exact bytesLeftInv_of_field s _ rfl h
  | some chunk =>
    simp only [takeChunk, hp]
    apply syncAndDecode_bytesLeft cfg env hc
    apply fillWindow_bytesLeft
    exact bytesLeftInv_of_field s _ rfl h

theorem playStep_bytesLeft (cfg : PlayConfig) (env : IterEnv) (hc : DecoderContract env)
    (s : PlayState) (h : BytesLeftInv s) : BytesLeftInv (playStep cfg env s) := by
  unfold playStep
  split
  · unfold loopIteration
    split_ifs
    · exact bytesLeftInv_of_field s _ rfl h
    · cases env.device_state with
      | idle =>
        have hs : BytesLeftInv (showSongName cfg s) :=
          bytesLeftInv_of_field s _ (showSongName_frame cfg s).2.2.2.2.2.2.2.2.2.1 h
        unfold refillAndDecode
        split_ifs
        · exact bytesLeftInv_of_field _ _ rfl hs
        · exact bytesLeftInv_of_field _ _ rfl hs
        · exact takeChunk_bytesLeft cfg env hc _ hs
        · exact syncAndDecode_bytesLeft cfg env hc _ hs
      | listening => exact bytesLeftInv_of_field s _ rfl h
      | speaking => exact bytesLeftInv_of_field s _ rfl h
      | other => exact bytesLeftInv_of_field s _ rfl h
  · split_ifs
    · exact bytesLeftInv_of_field s _ rfl h
    · exact takeChunk_bytesLeft cfg env hc s h
    · exact h
  · exact h

theorem playRun_bytesLeft (cfg : PlayConfig) (envs : List IterEnv)
    (hc : ∀ env ∈ envs, DecoderContract env) (s : PlayState) (h : BytesLeftInv s) :
    BytesLeftInv (playRun cfg envs s) := by
  induction envs generalizing s with
  | nil => exact h
  | cons env envs ih =>
    simp only [playRun]
    exact ih (fun e he => hc e (List.mem_cons_of_mem _ he)) _
      (playStep_bytesLeft cfg env (hc env (List.mem_cons_self _ _)) s h)

theorem sampleEnv_contract : DecoderContract sampleEnv := by
  constructor
  · intro buffer read_ptr bytes_left
    show (if bytes_left > 0 then (0 : Int) else -1) = -1 ∨
      (0 ≤ (if bytes_left > 0 then (0 : Int) else -1) ∧
        (if bytes_left > 0 then (0 : Int) else -1) < bytes_left)
    split_ifs <;> omega
  · intro buffer read_ptr bytes_left h0
    show 0 ≤ bytes_left - min 4 bytes_left ∧ bytes_left - min 4 bytes_left ≤ bytes_left
    exact ⟨by omega, by omega⟩

theorem sampleEnv_advances : DecoderAdvancesReadPtr sampleEnv := by
  intro buffer read_ptr bytes_left h0
  show read_ptr.map (· + min 4 bytes_left)
    = read_ptr.map (· + (bytes_left - (bytes_left - min 4 bytes_left)))
  congr 1
  funext x
  omega

theorem pointerJumpEnv_contract : DecoderContract pointerJumpEnv := by
  constructor
  · intro buffer read_ptr bytes_left
    show (if bytes_left > 0 then (0 : Int) else -1) = -1 ∨
      (0 ≤ (if bytes_left > 0 then (0 : Int) else -1) ∧
        (if bytes_left > 0 then (0 : Int) else -1) < bytes_left)
    split_ifs <;> omega
  · intro buffer read_ptr bytes_left h0
    show 0 ≤ bytes_left ∧ bytes_left ≤ bytes_left
    exact ⟨h0, le_refl _⟩

/-- C16 fails as stated: the decoder `pointerJumpEnv` keeps the stated contract (sync offset
-1 or in `[0, bytes_left)`, `bytes_left` neither increased nor negative), yet after two
iterations on two chunks of 4096 bytes `read_ptr` is at offset 5 with 8190 bytes left, so
`read_ptr + bytes_left` is 8195, beyond the window of 8192 bytes. -/
theorem stated_contract_allows_pointer_overrun :
    DecoderContract pointerJumpEnv ∧
    (twoChunkState.bytes_left = 0 ∧ twoChunkState.read_ptr = none) ∧
    (playRun sampleConfig [pointerJumpEnv, pointerJumpEnv] twoChunkState).read_ptr = some 5 ∧
    (playRun sampleConfig [pointerJumpEnv, pointerJumpEnv] twoChunkState).bytes_left = 8190 ∧
    ¬ WindowInv (playRun sampleConfig [pointerJumpEnv, pointerJumpEnv] twoChunkState) := by
  have h1 : (playRun sampleConfig [pointerJumpEnv, pointerJumpEnv] twoChunkState).read_ptr
      = some 5 := by decide
  have h2 : (playRun sampleConfig [pointerJumpEnv, pointerJumpEnv] twoChunkState).bytes_left
      = 8190 := by decide
  refine ⟨pointerJumpEnv_contract, ⟨rfl, rfl⟩, h1, h2, ?_⟩
  intro h
  obtain ⟨_, _, hptr⟩ := h
  rw [h1, h2] at hptr
  simp only at hptr
  omega

/-- C16, amended. Under the stated decoder contract `0 <= bytes_left <= 8192` holds after
every step of the loop and along every run. When `MP3Decode` in addition advances
`read_ptr` by exactly the bytes it takes off `bytes_left`, a worker whose window is in
order (`0 <= bytes_left <= 8192`, `read_ptr + bytes_left` within the 8192 bytes) keeps it
in order through every step and at the points in between: after a chunk is copied in,
after the ID3 skip, after the skip to the sync offset and after the one-byte resync step;
the window is in order when the loop is entered, hence along every run. -/
theorem window_stays_in_bounds (cfg : PlayConfig) (env : IterEnv) (hc : DecoderContract env)
    (s : PlayState) :
    (BytesLeftInv s →
      BytesLeftInv (playStep cfg env s) ∧
      ∀ envs, (∀ e ∈ envs, DecoderContract e) → BytesLeftInv (playRun cfg envs s)) ∧
    (DecoderAdvancesReadPtr env → WindowInv s →
      WindowInv (playStep cfg env s) ∧
      (∀ chunk, WindowInv (appendChunk s chunk)) ∧
      WindowInv (skipId3Once s) ∧
      (0 ≤ syncOffset env s → WindowInv (skipToSync s (syncOffset env s))) ∧
      WindowInv (onDecodeFailed s) ∧
      (∀ envs, (∀ e ∈ envs, DecoderContract e ∧ DecoderAdvancesReadPtr e) →
        WindowInv (playRun cfg envs s))) ∧
    (∀ MIN_BUFFER_SIZE malloc_ok (s0 : PlayState),
      (passEntryWait MIN_BUFFER_SIZE cfg malloc_ok s0).pc = PlayPc.loopHead →
      s0.pc = PlayPc.entryWait →
      WindowInv (passEntryWait MIN_BUFFER_SIZE cfg malloc_ok s0) ∧
      BytesLeftInv (passEntryWait MIN_BUFFER_SIZE cfg malloc_ok s0)) := by
  refine ⟨?_, ?_, ?_⟩
  · intro hb
    exact ⟨playStep_bytesLeft cfg env hc s hb,
      fun envs hcs => playRun_bytesLeft cfg envs hcs s hb⟩
  · intro hadv h
    refine ⟨playStep_windowInv cfg env hc hadv s h, fun chunk => appendChunk_windowInv s chunk h,
      skipId3Once_windowInv s h, ?_, onDecodeFailed_windowInv s h,
      fun envs hcs => playRun_windowInv cfg envs hcs s h⟩
    intro hsync
    exact skipToSync_windowInv s _ h (syncOffset_lt env hc s (by omega))
  · intro MIN_BUFFER_SIZE malloc_ok s0 hpc hentry
    unfold passEntryWait at hpc ⊢
    simp only [hentry, if_true] at hpc ⊢
    split_ifs at hpc ⊢ with h1 h2
    · exact ⟨⟨le_refl _, by show (0 : Int) ≤ 8192; decide, rfl⟩,
        ⟨le_refl _, by show (0 : Int) ≤ 8192; decide⟩⟩
    · rw [hentry] at hpc
      exact absurd hpc (by decide)

/-- Witness for the amended C16: the sample decoder keeps the contract and advances
`read_ptr` by what it consumes; after one step of the sample worker 4 bytes are left at
offset 4 of the window. -/
theorem window_stays_in_bounds_witness :
    (playRun sampleConfig [sampleEnv] samplePlayState).bytes_left = 4 ∧
      (playRun sampleConfig [sampleEnv] samplePlayState).read_ptr = some 4 ∧
      WindowInv (playRun sampleConfig [sampleEnv] samplePlayState) ∧
      BytesLeftInv (playStep sampleConfig pointerJumpEnv twoChunkState) :=
  ⟨by decide, by decide,
    ((window_stays_in_bounds sampleConfig sampleEnv sampleEnv_contract samplePlayState).2.1
      sampleEnv_advances ⟨by decide, by decide, rfl⟩).2.2.2.2.2 [sampleEnv]
      (by
        intro e he
        simp only [List.mem_singleton] at he
        subst he
        exact ⟨sampleEnv_contract, sampleEnv_advances⟩),
    ((window_stays_in_bounds sampleConfig pointerJumpEnv pointerJumpEnv_contract
      twoChunkState).1 ⟨by decide, by decide⟩).1⟩

theorem packetsOf_append (xs ys : List PlayEvent) :
    packetsOf (xs ++ ys) = packetsOf xs ++ packetsOf ys := by
  induction xs with
  | nil => rfl
  | cons e xs ih => cases e <;> simp [packetsOf, ih]

theorem popsOf_append (xs ys : List PlayEvent) :
    popsOf (xs ++ ys) = popsOf xs ++ popsOf ys := by
  induction xs with
  | nil => rfl
  | cons e xs ih => cases e <;> simp [popsOf, ih]

theorem lyricUpdatesOf_append (xs ys : List PlayEvent) :
    lyricUpdatesOf (xs ++ ys) = lyricUpdatesOf xs ++ lyricUpdatesOf ys := by
  induction xs with
  | nil => rfl
  | cons e xs ih => cases e <;> simp [lyricUpdatesOf, ih]

theorem showSongName_events (cfg : PlayConfig) (s : PlayState) :
    packetsOf (showSongName cfg s).events = packetsOf s.events ∧
      popsOf (showSongName cfg s).events = popsOf s.events ∧
      lyricUpdatesOf (showSongName cfg s).events = lyricUpdatesOf s.events := by
  unfold showSongName
  split_ifs <;>
    simp [packetsOf_append, popsOf_append, lyricUpdatesOf_append, packetsOf, popsOf,
      lyricUpdatesOf]

theorem fillWindow_events (s : PlayState) (chunk : AudioChunk) :
    packetsOf (fillWindow s chunk).events = packetsOf s.events ∧
      popsOf (fillWindow s chunk).events = popsOf s.events ∧
      lyricUpdatesOf (fillWindow s chunk).events = lyricUpdatesOf s.events := by
  rw [(fillWindow_frame s chunk).2.2.2.2.2.2.2.2]
  split_ifs <;>
    simp [packetsOf_append, popsOf_append, lyricUpdatesOf_append, packetsOf, popsOf,
      lyricUpdatesOf]

theorem drain_step (cfg : PlayConfig) (env : IterEnv) (henv : IdleNoSync env)
    (s : PlayState) (hs : Draining s) (chunk : AudioChunk) (rest : List AudioChunk)
    (hq : s.buf.audio_buffer_ = chunk :: rest) :
    Draining (playStep cfg env s) ∧
      (playStep cfg env s).buf.audio_buffer_ = rest ∧
      popsOf (playStep cfg env s).events = popsOf s.events ++ [chunk] ∧
      packetsOf (playStep cfg env s).events = packetsOf s.events ∧
      (playStep cfg env s).total_frames_decoded_ = s.total_frames_decoded_ ∧
      (playStep cfg env s).current_play_time_ms_ = s.current_play_time_ms_ := by
  obtain ⟨hpc, hplay, hdl, hbl⟩ := hs
  obtain ⟨hidle, hnosync⟩ := henv
  obtain ⟨n1, n2, n3, n4, n5, n6, n7, n8, n9, n10, n11⟩ := showSongName_frame cfg s
  obtain ⟨e1, e2, e3⟩ := showSongName_events cfg s
  have hpop : (popChunk (showSongName cfg s).buf).2 = some chunk := by
    rw [n5]
    simp [popChunk, hq]
  have hrest : (popChunk (showSongName cfg s).buf).1.audio_buffer_ = rest := by
    rw [n5]
    simp [popChunk, hq]
  have hne : (showSongName cfg s).buf.audio_buffer_.isEmpty = false := by
    rw [n5, hq]
    rfl
  have hstep : playStep cfg env s
      = { fillWindow { showSongName cfg s with
                         buf := (popChunk (showSongName cfg s).buf).1
                         events := (showSongName cfg s).events ++ [PlayEvent.pop chunk]
                         pc := PlayPc.loopHead } chunk with bytes_left := 0 } := by
    unfold playStep
    simp only [hpc]
    unfold loopIteration
    simp only [hplay, Bool.not_true, Bool.false_eq_true, if_false, hidle]
    unfold refillAndDecode
    have hlt : (showSongName cfg s).bytes_left < 4096 := by
      rw [n10, hbl]
      decide
    simp only [hlt, if_true, hne, Bool.false_eq_true, if_false]
    unfold takeChunk
    simp only [hpop]
    unfold syncAndDecode
    have hneg := hnosync
      (fillWindow { showSongName cfg s with
                      buf := (popChunk (showSongName cfg s).buf).1
                      events := (showSongName cfg s).events ++ [PlayEvent.pop chunk]
                      pc := PlayPc.loopHead } chunk).mp3_input_buffer
      (fillWindow { showSongName cfg s with
                      buf := (popChunk (showSongName cfg s).buf).1
                      events := (showSongName cfg s).events ++ [PlayEvent.pop chunk]
                      pc := PlayPc.loopHead } chunk).read_ptr
      (fillWindow { showSongName cfg s with
                      buf := (popChunk (showSongName cfg s).buf).1
                      events := (showSongName cfg s).events ++ [PlayEvent.pop chunk]
                      pc := PlayPc.loopHead } chunk).bytes_left
    simp only [syncOffset, hneg, if_true]
  rw [hstep]
  generalize ht : ({ showSongName cfg s with
      buf := (popChunk (showSongName cfg s).buf).1
      events := (showSongName cfg s).events ++ [PlayEvent.pop chunk]
      pc := PlayPc.loopHead } : PlayState) = t
  have t1 : t.current_play_time_ms_ = s.current_play_time_ms_ := by rw [← ht]; exact n1
  have t2 : t.pc = PlayPc.loopHead := by rw [← ht]
  have t3 : t.is_playing_ = true := by rw [← ht]; exact n3.trans hplay
  have t4 : t.is_downloading_ = false := by rw [← ht]; exact n4.trans hdl
  have t5 : t.buf.audio_buffer_ = rest := by rw [← ht]; exact hrest
  have t6 : t.total_frames_decoded_ = s.total_frames_decoded_ := by rw [← ht]; exact n6
  have t7 : popsOf t.events = popsOf s.events ++ [chunk] := by
    rw [← ht]
    simp only [popsOf_append, e2, popsOf]
  have t8 : packetsOf t.events = packetsOf s.events := by
    rw [← ht]
    simp only [packetsOf_append, e1, packetsOf, List.append_nil]
  obtain ⟨f1, f2, f3, f4, f5, f6, f7, f8, f9⟩ := fillWindow_frame t chunk
  obtain ⟨g1, g2, g3⟩ := fillWindow_events t chunk
  refine ⟨⟨?_, ?_, ?_, rfl⟩, ?_, ?_, ?_, ?_, ?_⟩
  · show (fillWindow t chunk).pc = PlayPc.loopHead
    rw [f2, t2]
  · show (fillWindow t chunk).is_playing_ = true
    rw [f3, t3]
  · show (fillWindow t chunk).is_downloading_ = false
    rw [f4, t4]
  · show (fillWindow t chunk).buf.audio_buffer_ = rest
    rw [f5, t5]
  · show popsOf (fillWindow t chunk).events = popsOf s.events ++ [chunk]
    rw [g2, t7]
  · show packetsOf (fillWindow t chunk).events = packetsOf s.events
    rw [g1, t8]
  · show (fillWindow t chunk).total_frames_decoded_ = s.total_frames_decoded_
    rw [f6, t6]
  · show (fillWindow t chunk).current_play_time_ms_ = s.current_play_time_ms_
    rw [f1, t1]

theorem drain_exit (cfg : PlayConfig) (env : IterEnv) (henv : IdleNoSync env)
    (s : PlayState) (hs : Draining s) (hq : s.buf.audio_buffer_ = []) :
    playStep cfg env s = { showSongName cfg s with pc := PlayPc.loopExit } := by
  obtain ⟨hpc, hplay, hdl, hbl⟩ := hs
  obtain ⟨n1, n2, n3, n4, n5, n6, n7, n8, n9, n10, n11⟩ := showSongName_frame cfg s
  unfold playStep
  simp only [hpc]
  unfold loopIteration
  simp only [hplay, Bool.not_true, Bool.false_eq_true, if_false, henv.1]
  unfold refillAndDecode
  have hlt : (showSongName cfg s).bytes_left < 4096 := by
    rw [n10, hbl]
    decide
  have he : (showSongName cfg s).buf.audio_buffer_.isEmpty = true := by
    rw [n5, hq]
    rfl
  simp only [hlt, if_true, he, n4, hdl, Bool.not_false]

theorem playRun_of_loopExit (cfg : PlayConfig) (envs : List IterEnv) (s : PlayState)
    (hpc : s.pc = PlayPc.loopExit) : playRun cfg envs s = s := by
  induction envs with
  | nil => rfl
  | cons env envs ih =>
    have hstep : playStep cfg env s = s := by
      unfold playStep
      simp [hpc]
    simp only [playRun, hstep]
    exact ih

theorem drain_on_the_way (cfg : PlayConfig) (envs : List IterEnv)
    (henv : ∀ env ∈ envs, IdleNoSync env) (s : PlayState)
    (hs : (Draining s ∨ s.pc = PlayPc.loopExit) ∧ s.bytes_left = 0) :
    (playRun cfg envs s).bytes_left = 0 ∧
      (playRun cfg envs s).current_play_time_ms_ = s.current_play_time_ms_ ∧
      (playRun cfg envs s).total_frames_decoded_ = s.total_frames_decoded_ ∧
      packetsOf (playRun cfg envs s).events = packetsOf s.events := by
  induction envs generalizing s with
  | nil => exact ⟨hs.2, rfl, rfl, rfl⟩
  | cons env envs ih =>
    have he := henv env (List.mem_cons_self _ _)
    have hrest := fun e h => henv e (List.mem_cons_of_mem _ h)
    rcases hs.1 with hd | hexit
    · cases hq : s.buf.audio_buffer_ with
      | nil =>
        have hstep := drain_exit cfg env he s hd hq
        obtain ⟨n1, _, _, _, _, n6, _, _, _, n10, _⟩ := showSongName_frame cfg s
        obtain ⟨e1, _, _⟩ := showSongName_events cfg s
        have hb : (playStep cfg env s).bytes_left = 0 := by
          rw [hstep]
          exact n10.trans hs.2
        obtain ⟨i1, i2, i3, i4⟩ := ih hrest (playStep cfg env s)
          ⟨Or.inr (by rw [hstep]), hb⟩
        simp only [playRun]
        refine ⟨i1, ?_, ?_, ?_⟩
        · rw [i2, hstep]; exact n1
        · rw [i3, hstep]; exact n6
        · rw [i4, hstep]; exact e1
      | cons chunk rest =>
        obtain ⟨d1, _, _, d4, d5, d6⟩ := drain_step cfg env he s hd chunk rest hq
        obtain ⟨i1, i2, i3, i4⟩ := ih hrest (playStep cfg env s) ⟨Or.inl d1, d1.2.2.2⟩
        simp only [playRun]
        exact ⟨i1, i2.trans d6, i3.trans d5, i4.trans d4⟩
    · rw [playRun_of_loopExit cfg (env :: envs) s hexit]
      exact ⟨hs.2, rfl, rfl, rfl⟩

theorem drain_run (cfg : PlayConfig) (chunks : List AudioChunk) (envs : List IterEnv)
    (s : PlayState) (hs : Draining s) (hq : s.buf.audio_buffer_ = chunks)
    (hlen : envs.length = chunks.length + 1) (henv : ∀ env ∈ envs, IdleNoSync env) :
    (playRun cfg envs s).pc = PlayPc.loopExit ∧
      (playRun cfg envs s).buf.audio_buffer_ = [] ∧
      popsOf (playRun cfg envs s).events = popsOf s.events ++ chunks := by
  induction chunks generalizing s envs with
  | nil =>
    match envs, hlen, henv with
    | [env], _, henv =>
      have hstep := drain_exit cfg env (henv env (List.mem_singleton_self _)) s hs hq
      obtain ⟨_, _, _, _, n5, _⟩ := showSongName_frame cfg s
      obtain ⟨_, e2, _⟩ := showSongName_events cfg s
      simp only [playRun, hstep, List.append_nil]
      exact ⟨trivial, by rw [n5, hq], e2⟩
  | cons chunk rest ih =>
    match envs, hlen, henv with
    | env :: envs', hlen, henv =>
      obtain ⟨d1, d2, d3, _⟩ := drain_step cfg env (henv env (List.mem_cons_self _ _)) s hs
        chunk rest hq
      obtain ⟨i1, i2, i3⟩ := ih envs' (playStep cfg env s) d1 d2
        (by simp only [List.length_cons] at hlen ⊢; omega)
        (fun e h => henv e (List.mem_cons_of_mem _ h))
      simp only [playRun]
      refine ⟨i1, i2, ?_⟩
      rw [i3, d3]
      simp

/-- C17. With the download over, the device idle at every iteration and a sync search
that never finds a sync word, the loop started on a queue of `n` chunks with an empty
window has left the loop after `n + 1` iterations: the queue is empty, the chunks were
taken once each in queue order, and on the way (after any number of iterations) the
window is discarded (`bytes_left = 0`), no frame is decoded, no packet is emitted and the
clock stays where it was (0 at worker start). -/
theorem no_sync_stream_drains (cfg : PlayConfig) (chunks : List AudioChunk)
    (envs : List IterEnv) (s : PlayState) (hs : Draining s)
    (hq : s.buf.audio_buffer_ = chunks) (hlen : envs.length = chunks.length + 1)
    (henv : ∀ env ∈ envs, IdleNoSync env) :
    (playRun cfg envs s).pc = PlayPc.loopExit ∧
      (playRun cfg envs s).buf.audio_buffer_ = [] ∧
      popsOf (playRun cfg envs s).events = popsOf s.events ++ chunks ∧
      ∀ k, (playRun cfg (envs.take k) s).bytes_left = 0 ∧
        (playRun cfg (envs.take k) s).current_play_time_ms_ = s.current_play_time_ms_ ∧
        (playRun cfg (envs.take k) s).total_frames_decoded_ = s.total_frames_decoded_ ∧
        packetsOf (playRun cfg (envs.take k) s).events = packetsOf s.events := by
  obtain ⟨r1, r2, r3⟩ := drain_run cfg chunks envs s hs hq hlen henv
  refine ⟨r1, r2, r3, ?_⟩
  intro k
  exact drain_on_the_way cfg (envs.take k)
    (fun e he => henv e (List.mem_of_mem_take he)) s ⟨Or.inl hs, hs.2.2.2⟩

theorem noSyncEnv_idleNoSync : IdleNoSync noSyncEnv := by
  refine ⟨rfl, ?_⟩
  intro buffer read_ptr bytes_left
  show (-1 : Int) < 0
  decide

/-- Witness for C17: the sample worker with one queued chunk leaves the loop after two
iterations against a decoder that never finds a sync word. -/
theorem no_sync_stream_drains_witness :
    (playRun sampleConfig [noSyncEnv, noSyncEnv] samplePlayState).pc = PlayPc.loopExit ∧
      popsOf (playRun sampleConfig [noSyncEnv, noSyncEnv] samplePlayState).events
        = [⟨[1, 2, 3, 4, 5, 6, 7, 8], 8⟩] ∧
      (playRun sampleConfig [noSyncEnv, noSyncEnv] samplePlayState).current_play_time_ms_ = 0 :=
  ⟨(no_sync_stream_drains sampleConfig [⟨[1, 2, 3, 4, 5, 6, 7, 8], 8⟩] [noSyncEnv, noSyncEnv]
      samplePlayState ⟨rfl, rfl, rfl, rfl⟩ rfl rfl
      (by
        intro env henv
        simp only [List.mem_cons, List.mem_singleton, List.not_mem_nil, or_false,
          or_self] at henv
        subst henv
        exact noSyncEnv_idleNoSync)).1,
    by decide, by decide⟩

/-- C18. The worker leaves the entry wait only from a state with
`buffer_size_ >= MIN_BUFFER_SIZE`, or with the download over and a non-empty queue, and
stays blocked otherwise. With `MIN_BUFFER_SIZE = 4096` and the download running the gate
is closed on the empty queue and open after the first of the pushes of 5000, 5000 and
2000 bytes (and after the second and third). -/
theorem entry_wait_gate (MIN_BUFFER_SIZE : Nat) (cfg : PlayConfig) (malloc_ok : Bool)
    (s : PlayState) (hentry : s.pc = PlayPc.entryWait) :
    ((passEntryWait MIN_BUFFER_SIZE cfg malloc_ok s).pc ≠ PlayPc.entryWait →
      s.buf.buffer_size_ ≥ MIN_BUFFER_SIZE ∨
        (s.is_downloading_ = false ∧ s.buf.audio_buffer_ ≠ [])) ∧
    (entryWaitPred MIN_BUFFER_SIZE s = false →
      passEntryWait MIN_BUFFER_SIZE cfg malloc_ok s = s) ∧
    entryWaitPred 4096 (entryState Buffer.empty) = false ∧
    (run 262144 Sys.init [Op.push (List.replicate 5000 0) 5000 true]).map
      (fun sys => entryWaitPred 4096 (entryState sys.buf)) = some true ∧
    (run 262144 Sys.init [Op.push (List.replicate 5000 0) 5000 true,
        Op.push (List.replicate 5000 0) 5000 true]).map
      (fun sys => entryWaitPred 4096 (entryState sys.buf)) = some true ∧
    (run 262144 Sys.init [Op.push (List.replicate 5000 0) 5000 true,
        Op.push (List.replicate 5000 0) 5000 true,
        Op.push (List.replicate 2000 0) 2000 true]).map
      (fun sys => entryWaitPred 4096 (entryState sys.buf)) = some true := by
  refine ⟨?_, ?_, by decide, by decide, by decide, by decide⟩
  · intro hleft
    by_cases hp : entryWaitPred MIN_BUFFER_SIZE s = true
    · unfold entryWaitPred at hp
      simp only [Bool.or_eq_true, decide_eq_true_eq, Bool.and_eq_true, Bool.not_eq_true',
        List.isEmpty_eq_false] at hp
      rcases hp with h | ⟨h1, h2⟩
      · exact Or.inl h
      · exact Or.inr ⟨h1, h2⟩
    · exfalso
      apply hleft
      unfold passEntryWait
      simp [hentry, hp]
  · intro hp
    unfold passEntryWait
    simp [hp]

/-- Witness for C18: on the empty buffer with the download running the worker stays at
the entry wait. -/
theorem entry_wait_gate_witness :
    entryWaitPred 4096 (entryState Buffer.empty) = false ∧
      passEntryWait 4096 sampleConfig true (entryState Buffer.empty)
        = entryState Buffer.empty :=
  ⟨by decide,
    (entry_wait_gate 4096 sampleConfig true (entryState Buffer.empty) rfl).2.1 (by decide)⟩

/-- C19. The Downloader's wait predicate is true whenever `is_downloading_` is false. The
two waits of the playback worker do not read `is_playing_`: at the entry wait with an
empty buffer, the download over and `is_playing_` false the predicate is false for every
positive `MIN_BUFFER_SIZE`, so the worker stays blocked; inside the wait for a chunk with
an empty queue, the download running and `is_playing_` false the predicate is false and
the worker stays blocked too. -/
theorem playback_waits_ignore_is_playing :
    (∀ MAX_BUFFER_SIZE buf, pushWaitPred MAX_BUFFER_SIZE buf false = true) ∧
    (stoppedWorker.is_playing_ = false ∧ stoppedWorker.is_downloading_ = false ∧
      stoppedWorker.buf = Buffer.empty ∧ stoppedWorker.pc = PlayPc.entryWait) ∧
    (∀ MIN_BUFFER_SIZE, entryWaitPred (MIN_BUFFER_SIZE + 1) stoppedWorker = false) ∧
    (∀ MIN_BUFFER_SIZE cfg malloc_ok,
      passEntryWait (MIN_BUFFER_SIZE + 1) cfg malloc_ok stoppedWorker = stoppedWorker) ∧
    (stoppedInPopWait.is_playing_ = false ∧ stoppedInPopWait.pc = PlayPc.popWait) ∧
    popWaitPred stoppedInPopWait = false ∧
    (∀ cfg env, playStep cfg env stoppedInPopWait = stoppedInPopWait) := by
  refine ⟨?_, ⟨rfl, rfl, rfl, rfl⟩, ?_, ?_, ⟨rfl, rfl⟩, rfl, ?_⟩
  · intro MAX_BUFFER_SIZE buf
    simp [pushWaitPred]
  · intro MIN_BUFFER_SIZE
    simp [entryWaitPred, stoppedWorker, samplePlayState, Buffer.empty]
  · intro MIN_BUFFER_SIZE cfg malloc_ok
    have hp : entryWaitPred (MIN_BUFFER_SIZE + 1) stoppedWorker = false := by
      simp [entryWaitPred, stoppedWorker, samplePlayState, Buffer.empty]
    unfold passEntryWait
    simp [hp]
  · intro cfg env
    rfl

theorem pcmSizeBytes_even (info : MP3FrameInfo) : pcmSizeBytes info % 2 = 0 := by
  unfold pcmSizeBytes
  omega

theorem emitFrame_packetStep (cfg : PlayConfig) (env : IterEnv) (s : PlayState)
    (info : MP3FrameInfo) (pcm_buffer : List Int) (hcodec : env.codec_present = true)
    (hrate : ∀ r, env.set_rate_ok r = true → env.rate_after_set r = r) :
    PacketStep (packetsOf s.events) (emitFrame cfg env s info pcm_buffer) := by
  unfold emitFrame PacketStep
  split_ifs with h1 h2 h3 h4
  · exact Or.inl rfl
  · right
    refine ⟨framePacket info pcm_buffer, ?_, ?_⟩
    · simp [packetsOf_append, packetsOf]
    · show info.samprate = env.rate_after_set info.samprate
      rw [hrate _ h4]
  · left
    simp [packetsOf_append, packetsOf]
  · left
    simp [packetsOf_append, packetsOf]
  · right
    refine ⟨framePacket info pcm_buffer, ?_, ?_⟩
    · simp [packetsOf_append, packetsOf]
    · show info.samprate = s.output_sample_rate
      simp only [hcodec, Bool.true_and, decide_eq_true_eq, ne_eq, not_not] at h3
      exact h3.symm
  · exact Or.inl rfl

theorem emitFrame_rejected (cfg : PlayConfig) (env : IterEnv) (s : PlayState)
    (info : MP3FrameInfo) (pcm_buffer : List Int) (hcodec : env.codec_present = true)
    (hsamps : info.outputSamps > 0) (hsize : pcmSizeBytes info ≠ 0)
    (hdiff : s.output_sample_rate ≠ info.samprate)
    (hrej : env.set_rate_ok info.samprate = false) :
    packetsOf (emitFrame cfg env s info pcm_buffer).events = packetsOf s.events ∧
      (emitFrame cfg env s info pcm_buffer).is_playing_ = false ∧
      (emitFrame cfg env s info pcm_buffer).pc = PlayPc.loopExit := by
  have heven := pcmSizeBytes_even info
  unfold emitFrame
  simp only [hsamps, if_true, hsize, heven, ne_eq, not_true_eq_false, or_self, if_false,
    hcodec, Bool.true_and, hdiff, not_false_eq_true, decide_True, hrej, Bool.false_eq_true]
  cases cfg.display <;> simp [packetsOf_append, packetsOf]

theorem onFrameDecoded_packetStep (cfg : PlayConfig) (env : IterEnv) (s : PlayState)
    (out : DecodeOutcome) (hcodec : env.codec_present = true)
    (hrate : ∀ r, env.set_rate_ok r = true → env.rate_after_set r = r) :
    PacketStep (packetsOf s.events) (onFrameDecoded cfg env s out) := by
  by_cases hzero : out.frame.samprate = 0 ∨ out.frame.nChans = 0
  · rw [onFrameDecoded_invalid cfg env s out hzero]
    exact Or.inl rfl
  · cases hd : frameDurationMs out.frame with
    | none =>
      unfold onFrameDecoded
      simp only [hzero, if_false, hd]
      exact Or.inl rfl
    | some d =>
      unfold onFrameDecoded
      simp only [hzero, if_false, hd]
      generalize ht : ({ { s with total_frames_decoded_ := wrapInt32 (s.total_frames_decoded_ + 1) } with
          current_play_time_ms_ := s.current_play_time_ms_ + d
          lyric := (UpdateLyricDisplay cfg.display s.lyric (s.current_play_time_ms_ + d + 600)).1
          events := s.events ++ [PlayEvent.lyricUpdate (s.current_play_time_ms_ + d + 600)]
            ++ (match (UpdateLyricDisplay cfg.display s.lyric
                  (s.current_play_time_ms_ + d + 600)).2 with
                | some text => [PlayEvent.setChatMessage text]
                | none => []) } : PlayState) = t
      have hev : packetsOf t.events = packetsOf s.events := by
        rw [← ht]
        cases (UpdateLyricDisplay cfg.display s.lyric (s.current_play_time_ms_ + d + 600)).2 <;>
          simp [packetsOf_append, packetsOf]
      have h := emitFrame_packetStep cfg env t out.frame out.pcm_buffer hcodec hrate
      rw [hev] at h
      exact h

theorem syncAndDecode_packetStep (cfg : PlayConfig) (env : IterEnv) (s : PlayState)
    (hcodec : env.codec_present = true)
    (hrate : ∀ r, env.set_rate_ok r = true → env.rate_after_set r = r) :
    PacketStep (packetsOf s.events) (syncAndDecode cfg env s) := by
  unfold syncAndDecode
  split_ifs with h1 h2
  · exact Or.inl rfl
  · have h := onFrameDecoded_packetStep cfg env
      { skipToSync s (syncOffset env s) with
          read_ptr := (decodeAfterSync env s).read_ptr
          bytes_left := (decodeAfterSync env s).bytes_left }
      (decodeAfterSync env s) hcodec hrate
    have hev : ({ skipToSync s (syncOffset env s) with
          read_ptr := (decodeAfterSync env s).read_ptr
          bytes_left := (decodeAfterSync env s).bytes_left } : PlayState).events = s.events :=
      (skipToSync_frame s _).2.2.2.2.2.2.2.2.1
    rw [hev] at h
    exact h
  · left
    rw [(onDecodeFailed_frame _).2.2.2.2.2.2.2.2]
    show packetsOf (skipToSync s (syncOffset env s)).events = packetsOf s.events
    rw [(skipToSync_frame s _).2.2.2.2.2.2.2.2.1]

theorem takeChunk_packetStep (cfg : PlayConfig) (env : IterEnv) (s : PlayState)
    (hcodec : env.codec_present = true)
    (hrate : ∀ r, env.set_rate_ok r = true → env.rate_after_set r = r) :
    PacketStep (packetsOf s.events) (takeChunk cfg env s) := by
  cases hp : (popChunk s.buf).2 with
  | none =>
    simp only [takeChunk, hp]
    exact Or.inl rfl
  | some chunk =>
    simp only [takeChunk, hp]
    have h := syncAndDecode_packetStep cfg env
      (fillWindow { s with buf := (popChunk s.buf).1
                           events := s.events ++ [PlayEvent.pop chunk]
                           pc := PlayPc.loopHead } chunk) hcodec hrate
    rw [(fillWindow_events _ _).1] at h
    have hev : packetsOf (s.events ++ [PlayEvent.pop chunk]) = packetsOf s.events := by
      simp [packetsOf_append, packetsOf]
    rw [show packetsOf ({ s with buf := (popChunk s.buf).1
                                 events := s.events ++ [PlayEvent.pop chunk]
                                 pc := PlayPc.loopHead } : PlayState).events
          = packetsOf s.events from hev] at h
    exact h

theorem refillAndDecode_packetStep (cfg : PlayConfig) (env : IterEnv) (s : PlayState)
    (hcodec : env.codec_present = true)
    (hrate : ∀ r, env.set_rate_ok r = true → env.rate_after_set r = r) :
    PacketStep (packetsOf s.events) (refillAndDecode cfg env s) := by
  unfold refillAndDecode
  split_ifs
  · exact Or.inl rfl
  · exact Or.inl rfl
  · exact takeChunk_packetStep cfg env s hcodec hrate
  · exact syncAndDecode_packetStep cfg env s hcodec hrate

theorem loopIteration_packetStep (cfg : PlayConfig) (env : IterEnv) (s : PlayState)
    (hcodec : env.codec_present = true)
    (hrate : ∀ r, env.set_rate_ok r = true → env.rate_after_set r = r) :
    PacketStep (packetsOf s.events) (loopIteration cfg env s) := by
  unfold loopIteration
  split_ifs
  · exact Or.inl rfl
  · cases env.device_state with
    | idle =>
      have h := refillAndDecode_packetStep cfg env (showSongName cfg s) hcodec hrate
      rw [(showSongName_events cfg s).1] at h
      exact h
    | listening =>
      left
      simp [packetsOf_append, packetsOf]
    | speaking =>
      left
      simp [packetsOf_append, packetsOf]
    | other =>
      left
      simp [packetsOf_append, packetsOf]

theorem playStep_packetStep (cfg : PlayConfig) (env : IterEnv) (s : PlayState)
    (hcodec : env.codec_present = true)
    (hrate : ∀ r, env.set_rate_ok r = true → env.rate_after_set r = r) :
    PacketStep (packetsOf s.events) (playStep cfg env s) := by
  unfold playStep
  split
  · exact loopIteration_packetStep cfg env s hcodec hrate
  · split_ifs
    · exact Or.inl rfl
    · exact takeChunk_packetStep cfg env s hcodec hrate
    · exact Or.inl rfl
  · exact Or.inl rfl

theorem syncAndDecode_rejected (cfg : PlayConfig) (env : IterEnv) (s : PlayState)
    (hcodec : env.codec_present = true)
    (hsync : 0 ≤ syncOffset env s)
    (hdecoded : (decodeAfterSync env s).decode_result = 0)
    (hr : (decodeAfterSync env s).frame.samprate ≠ 0)
    (hn : (decodeAfterSync env s).frame.nChans ≠ 0)
    (hdur : frameDurationMs (decodeAfterSync env s).frame ≠ none)
    (hsamps : (decodeAfterSync env s).frame.outputSamps > 0)
    (hsize : pcmSizeBytes (decodeAfterSync env s).frame ≠ 0)
    (hdiff : s.output_sample_rate ≠ (decodeAfterSync env s).frame.samprate)
    (hrej : env.set_rate_ok (decodeAfterSync env s).frame.samprate = false) :
    packetsOf (syncAndDecode cfg env s).events = packetsOf s.events ∧
      (syncAndDecode cfg env s).is_playing_ = false ∧
      (syncAndDecode cfg env s).pc = PlayPc.loopExit := by
  have hns : ¬ syncOffset env s < 0 := by omega
  have hzero : ¬ ((decodeAfterSync env s).frame.samprate = 0 ∨
      (decodeAfterSync env s).frame.nChans = 0) := by
    intro h
    rcases h with h | h
    · exact hr h
    · exact hn h
  unfold syncAndDecode
  simp only [hns, if_false, hdecoded, if_true]
  generalize hout : decodeAfterSync env s = out at hzero hdur hsamps hsize hdiff hrej ⊢
  generalize ht0 : ({ skipToSync s (syncOffset env s) with
      read_ptr := out.read_ptr, bytes_left := out.bytes_left } : PlayState) = t0
  have hev0 : t0.events = s.events := by
    rw [← ht0]
    exact (skipToSync_frame s _).2.2.2.2.2.2.2.2.1
  have hrate0 : t0.output_sample_rate = s.output_sample_rate := by
    rw [← ht0]
    exact (skipToSync_frame s _).2.2.2.2.2.2.1
  cases hd : frameDurationMs out.frame with
  | none => exact absurd hd hdur
  | some d =>
    unfold onFrameDecoded
    simp only [hzero, if_false, hd]
    generalize ht : ({ { t0 with total_frames_decoded_ := wrapInt32 (t0.total_frames_decoded_ + 1) } with
        current_play_time_ms_ := t0.current_play_time_ms_ + d
        lyric := (UpdateLyricDisplay cfg.display t0.lyric (t0.current_play_time_ms_ + d + 600)).1
        events := t0.events ++ [PlayEvent.lyricUpdate (t0.current_play_time_ms_ + d + 600)]
          ++ (match (UpdateLyricDisplay cfg.display t0.lyric
                (t0.current_play_time_ms_ + d + 600)).2 with
              | some text => [PlayEvent.setChatMessage text]
              | none => []) } : PlayState) = t
    have hev : packetsOf t.events = packetsOf s.events := by
      rw [← ht, ← hev0]
      cases (UpdateLyricDisplay cfg.display t0.lyric (t0.current_play_time_ms_ + d + 600)).2 <;>
        simp [packetsOf_append, packetsOf]
    have hrt : t.output_sample_rate = s.output_sample_rate := by
      rw [← ht, ← hrate0]
    have h := emitFrame_rejected cfg env t out.frame out.pcm_buffer hcodec hsamps hsize
      (by rw [hrt]; exact hdiff) hrej
    rw [hev] at h
    exact h

theorem rejectingEnv_rejects (r : Int) : rejectingEnv.set_rate_ok r = false := rfl

/-- C20. With a codec present: when a frame is decoded with valid metadata and a non-empty
payload, the codec's output sample rate differs from the frame's and
`SetOutputSampleRate` returns false, the iteration hands no packet to `AddAudioData`,
clears `is_playing_` and leaves the loop, and nothing that follows changes the state, so
no later packet is handed over. If a successful `SetOutputSampleRate(r)` makes the output
sample rate `r`, every step of the loop either hands over no packet or hands over exactly
one packet whose sample rate is the codec's output sample rate after the step. -/
theorem rejected_sample_rate_stops_playback (cfg : PlayConfig) (env : IterEnv)
    (s : PlayState) (hcodec : env.codec_present = true) :
    (0 ≤ syncOffset env s → (decodeAfterSync env s).decode_result = 0 →
      (decodeAfterSync env s).frame.samprate ≠ 0 →
      (decodeAfterSync env s).frame.nChans ≠ 0 →
      frameDurationMs (decodeAfterSync env s).frame ≠ none →
      (decodeAfterSync env s).frame.outputSamps > 0 →
      pcmSizeBytes (decodeAfterSync env s).frame ≠ 0 →
      s.output_sample_rate ≠ (decodeAfterSync env s).frame.samprate →
      env.set_rate_ok (decodeAfterSync env s).frame.samprate = false →
      packetsOf (syncAndDecode cfg env s).events = packetsOf s.events ∧
        (syncAndDecode cfg env s).is_playing_ = false ∧
        (syncAndDecode cfg env s).pc = PlayPc.loopExit ∧
        ∀ envs, playRun cfg envs (syncAndDecode cfg env s) = syncAndDecode cfg env s) ∧
    ((∀ r, env.set_rate_ok r = true → env.rate_after_set r = r) →
      PacketStep (packetsOf s.events) (playStep cfg env s)) := by
  refine ⟨?_, fun hrate => playStep_packetStep cfg env s hcodec hrate⟩
  intro hsync hdecoded hr hn hdur hsamps hsize hdiff hrej
  obtain ⟨h1, h2, h3⟩ := syncAndDecode_rejected cfg env s hcodec hsync hdecoded hr hn hdur
    hsamps hsize hdiff hrej
  exact ⟨h1, h2, h3, fun envs => playRun_of_loopExit cfg envs _ h3⟩

/-- Witness for C20: the sample worker with a filled window, a codec at 24000 Hz that
rejects 44100 Hz and a frame at 44100 Hz hands over no packet and leaves the loop; with
the accepting codec the step from the loop head hands over one packet at the rate the
codec then has. -/
theorem rejected_sample_rate_stops_playback_witness :
    (packetsOf (syncAndDecode sampleConfig rejectingEnv sampleFilledState).events = [] ∧
      (syncAndDecode sampleConfig rejectingEnv sampleFilledState).is_playing_ = false ∧
      (syncAndDecode sampleConfig rejectingEnv sampleFilledState).pc = PlayPc.loopExit) ∧
    PacketStep [] (playStep sampleConfig sampleEnv samplePlayState) :=
  ⟨⟨((rejected_sample_rate_stops_playback sampleConfig rejectingEnv sampleFilledState rfl).1
        (by decide) (by decide) (by decide) (by decide) (by decide) (by decide) (by decide)
        (by decide) rfl).1,
      ((rejected_sample_rate_stops_playback sampleConfig rejectingEnv sampleFilledState rfl).1
        (by decide) (by decide) (by decide) (by decide) (by decide) (by decide) (by decide)
        (by decide) rfl).2.1,
      ((rejected_sample_rate_stops_playback sampleConfig rejectingEnv sampleFilledState rfl).1
        (by decide) (by decide) (by decide) (by decide) (by decide) (by decide) (by decide)
        (by decide) rfl).2.2.1⟩,
    (rejected_sample_rate_stops_playback sampleConfig sampleEnv samplePlayState rfl).2
      (fun _ _ => rfl)⟩

/-! ## Properties of `SetPreviewScaling` -/

theorem clampPct_eq (x : Int) : clampPct x = min (max x 1) 100 := by
  unfold clampPct
  simp only []
  split_ifs <;> omega

/-- C26. For all arguments `SetPreviewScaling` stores `min(max(x, 1), 100)` in each of the
three members; the stored values lie in [1, 100], and an argument in [1, 100] is stored
unchanged. -/
theorem setPreviewScaling_clamps (w h f : Int) :
    (SetPreviewScaling w h f).preview_decoded_width_pct_ = min (max w 1) 100 ∧
    (SetPreviewScaling w h f).preview_decoded_height_pct_ = min (max h 1) 100 ∧
    (SetPreviewScaling w h f).preview_fallback_width_pct_ = min (max f 1) 100 ∧
    (1 ≤ (SetPreviewScaling w h f).preview_decoded_width_pct_ ∧
      (SetPreviewScaling w h f).preview_decoded_width_pct_ ≤ 100) ∧
    (1 ≤ (SetPreviewScaling w h f).preview_decoded_height_pct_ ∧
      (SetPreviewScaling w h f).preview_decoded_height_pct_ ≤ 100) ∧
    (1 ≤ (SetPreviewScaling w h f).preview_fallback_width_pct_ ∧
      (SetPreviewScaling w h f).preview_fallback_width_pct_ ≤ 100) ∧
    (1 ≤ w ∧ w ≤ 100 → (SetPreviewScaling w h f).preview_decoded_width_pct_ = w) ∧
    (1 ≤ h ∧ h ≤ 100 → (SetPreviewScaling w h f).preview_decoded_height_pct_ = h) ∧
    (1 ≤ f ∧ f ≤ 100 → (SetPreviewScaling w h f).preview_fallback_width_pct_ = f) := by
  have hw := clampPct_eq w
  have hh := clampPct_eq h
  have hf := clampPct_eq f
  simp only [SetPreviewScaling]
  refine ⟨hw, hh, hf, ?_, ?_, ?_, ?_, ?_, ?_⟩ <;> omega

/-- Witness for C26: (0, 70, 250) is stored as (1, 70, 100). -/
theorem setPreviewScaling_clamps_witness :
    SetPreviewScaling 0 70 250 = ⟨1, 70, 100⟩ ∧
      (SetPreviewScaling 0 70 250).preview_decoded_height_pct_ = 70 :=
  ⟨by decide, (setPreviewScaling_clamps 0 70 250).2.2.2.2.2.2.2.1 (by decide)⟩

/-! ## Properties of `url_encode` -/

theorem hexValue_hexDigitUpper (n : Nat) (h : n < 16) : hexValue (hexDigitUpper n) = n := by
  have h0 : '0'.toNat = 48 := by decide
  have h9 : '9'.toNat = 57 := by decide
  have hA : 'A'.toNat = 65 := by decide
  unfold hexValue hexDigitUpper
  rw [h0, h9, hA]
  split_ifs <;> omega

theorem isUnreserved_bounds (c : Nat) (h : isUnreserved c = true) :
    c ≠ 37 ∧ c ≠ 43 ∧ c ≠ 32 := by
  have hA : 'A'.toNat = 65 := by decide
  have hZ : 'Z'.toNat = 90 := by decide
  have ha : 'a'.toNat = 97 := by decide
  have hz : 'z'.toNat = 122 := by decide
  have h0 : '0'.toNat = 48 := by decide
  have h9 : '9'.toNat = 57 := by decide
  have h1 : '-'.toNat = 45 := by decide
  have h2 : '_'.toNat = 95 := by decide
  have h3 : '.'.toNat = 46 := by decide
  have h4 : '~'.toNat = 126 := by decide
  unfold isUnreserved at h
  rw [hA, hZ, ha, hz, h0, h9, h1, h2, h3, h4] at h
  simp only [Bool.or_eq_true, Bool.and_eq_true, decide_eq_true_eq] at h
  omega

theorem decodeHead_encodeByte (b : Nat) (hb : b < 256) (rest : List Nat) :
    decodeHead (encodeByte b ++ rest) = some (b, rest) := by
  have hp : '%'.toNat = 37 := by decide
  have hplus : '+'.toNat = 43 := by decide
  have hsp : ' '.toNat = 32 := by decide
  have hmod : b % 256 = b := Nat.mod_eq_of_lt hb
  unfold encodeByte
  simp only [hmod]
  by_cases hu : isUnreserved b = true
  · obtain ⟨n1, n2, _⟩ := isUnreserved_bounds b hu
    simp [hu, decodeHead, hp, hplus, n1, n2]
  · by_cases hs : b = 32
    · subst hs
      simp [hu, decodeHead, hp, hplus, hsp]
    · have e1 := hexValue_hexDigitUpper (b / 16) (by omega)
      have e2 := hexValue_hexDigitUpper (b % 16) (by omega)
      simp only [hu, hsp, hs, if_false, Bool.false_eq_true, List.cons_append, List.nil_append,
        decodeHead, hp, if_true, e1, e2]
      congr 2
      omega

theorem url_encode_injective_aux (s1 : List Nat) :
    ∀ s2 : List Nat, IsByteString s1 → IsByteString s2 →
      url_encode s1 = url_encode s2 → s1 = s2 := by
  induction s1 with
  | nil =>
    intro s2 _ h2 h
    cases s2 with
    | nil => rfl
    | cons b rest =>
      have hd := decodeHead_encodeByte b (h2 b (List.mem_cons_self _ _)) (url_encode rest)
      simp only [url_encode] at h
      rw [← h] at hd
      simp [decodeHead] at hd
  | cons a rest1 ih =>
    intro s2 h1 h2 h
    cases s2 with
    | nil =>
      have hd := decodeHead_encodeByte a (h1 a (List.mem_cons_self _ _)) (url_encode rest1)
      simp only [url_encode] at h
      rw [h] at hd
      simp [decodeHead] at hd
    | cons b rest2 =>
      have hda := decodeHead_encodeByte a (h1 a (List.mem_cons_self _ _)) (url_encode rest1)
      have hdb := decodeHead_encodeByte b (h2 b (List.mem_cons_self _ _)) (url_encode rest2)
      simp only [url_encode] at h
      rw [h, hdb] at hda
      simp only [Option.some.injEq, Prod.mk.injEq] at hda
      obtain ⟨hab, hrest⟩ := hda
      have := ih rest2 (fun x hx => h1 x (List.mem_cons_of_mem _ hx))
        (fun x hx => h2 x (List.mem_cons_of_mem _ hx)) hrest.symm
      rw [hab, this]

theorem isUrlSafe_hexDigitUpper (n : Nat) (h : n < 16) : isUrlSafe (hexDigitUpper n) = true := by
  have hA : 'A'.toNat = 65 := by decide
  have hZ : 'Z'.toNat = 90 := by decide
  have h0 : '0'.toNat = 48 := by decide
  have h9 : '9'.toNat = 57 := by decide
  unfold isUrlSafe isUnreserved hexDigitUpper
  rw [hA, hZ, h0, h9]
  simp only [Bool.or_eq_true, Bool.and_eq_true, decide_eq_true_eq]
  split_ifs <;> omega

theorem encodeByte_urlSafe (b : Nat) : ∀ x ∈ encodeByte b, isUrlSafe x = true := by
  intro x hx
  unfold encodeByte at hx
  simp only [] at hx
  split_ifs at hx with hu hs
  · simp only [List.mem_singleton] at hx
    subst hx
    simp [isUrlSafe, hu]
  · simp only [List.mem_singleton] at hx
    subst hx
    simp [isUrlSafe]
  · simp only [List.mem_cons, List.mem_singleton, List.not_mem_nil, or_false] at hx
    rcases hx with hx | hx | hx
    · subst hx
      simp [isUrlSafe]
    · subst hx
      exact isUrlSafe_hexDigitUpper _ (by omega)
    · subst hx
      exact isUrlSafe_hexDigitUpper _ (by omega)

theorem url_encode_urlSafe (str : List Nat) : ∀ x ∈ url_encode str, isUrlSafe x = true := by
  induction str with
  | nil =>
    intro x hx
    simp [url_encode] at hx
  | cons b rest ih =>
    intro x hx
    simp only [url_encode, List.mem_append] at hx
    rcases hx with hx | hx
    · exact encodeByte_urlSafe b x hx
    · exact ih x hx

/-- C30. On byte strings `url_encode` is injective; every character of its result is a
letter, a digit or one of `-`, `_`, `.`, `~`, `+`, `%`; an unreserved byte is copied
unchanged, a space becomes `+`, and every other byte becomes `%` followed by its two
uppercase hexadecimal digits. -/
theorem url_encode_injective_and_safe (s1 s2 : List Nat) (h1 : IsByteString s1)
    (h2 : IsByteString s2) :
    (url_encode s1 = url_encode s2 → s1 = s2) ∧
    (∀ x ∈ url_encode s1, isUrlSafe x = true) ∧
    (∀ b rest, b < 256 → isUnreserved b = true →
      url_encode (b :: rest) = b :: url_encode rest) ∧
    (∀ rest, url_encode (' '.toNat :: rest) = '+'.toNat :: url_encode rest) ∧
    (∀ b rest, b < 256 → isUnreserved b = false → b ≠ ' '.toNat →
      url_encode (b :: rest)
        = '%'.toNat :: hexDigitUpper (b / 16) :: hexDigitUpper (b % 16) :: url_encode rest ∧
      b / 16 < 16 ∧ b % 16 < 16 ∧ 16 * (b / 16) + b % 16 = b) := by
  refine ⟨url_encode_injective_aux s1 s2 h1 h2, url_encode_urlSafe s1, ?_, ?_, ?_⟩
  · intro b rest hb hu
    simp [url_encode, encodeByte, Nat.mod_eq_of_lt hb, hu]
  · intro rest
    have hsp : ' '.toNat = 32 := by decide
    have hun : isUnreserved 32 = false := by decide
    simp [url_encode, encodeByte, hsp, hun]
  · intro b rest hb hu hs
    refine ⟨?_, by omega, by omega, by omega⟩
    have hsp : ' '.toNat = 32 := by decide
    rw [hsp] at hs
    simp [url_encode, encodeByte, Nat.mod_eq_of_lt hb, hu, hs]

/-- Witness for C30: the bytes of `a b/` followed by 0xE4 are encoded as `a+b%2F%E4`, and
two byte strings with that encoding are equal. -/
theorem url_encode_injective_and_safe_witness :
    url_encode [97, 32, 98, 47, 228] = "a+b%2F%E4".toList.map Char.toNat ∧
      [97, 32, 98, 47, 228] = [97, 32, 98, 47, 228] :=
  ⟨by decide,
    (url_encode_injective_and_safe [97, 32, 98, 47, 228] [97, 32, 98, 47, 228]
      (by unfold IsByteString; decide) (by unfold IsByteString; decide)).1 rfl⟩

/-! ## `UpdateLyricDisplay` on a time that goes back -/

theorem newLyricIndex_before_active (lyrics : List (Int × Text)) (k : Nat)
    (cue_k : Int × Text) (t : Int) (hk : lyrics[k]? = some cue_k) (hlate : t < cue_k.1) :
    newLyricIndex ⟨lyrics, (k : Int)⟩ t = -1 := by
  have hlt : k < lyrics.length := by
    by_contra hcon
    rw [List.getElem?_eq_none (by omega)] at hk
    exact Option.noConfusion hk
  have hk0 : (0 : Int) ≤ (k : Int) := by omega
  simp only [newLyricIndex, scanLyrics_eq, ge_iff_le, hk0, if_true, Int.toNat_ofNat]
  rw [List.drop_eq_getElem_cons hlt]
  rw [List.getElem?_eq_getElem hlt] at hk
  simp only [Option.some.injEq] at hk
  rw [hk]
  have hnot : ¬ cue_k.1 ≤ t := by omega
  simp [leadCount, hnot]

theorem update_before_active (display : Bool) (lyrics : List (Int × Text)) (k : Nat)
    (cue_k : Int × Text) (t : Int) (hk : lyrics[k]? = some cue_k) (hlate : t < cue_k.1) :
    UpdateLyricDisplay display ⟨lyrics, (k : Int)⟩ t
      = (⟨lyrics, -1⟩, if display then some [] else none) := by
  have hidx := newLyricIndex_before_active lyrics k cue_k t hk hlate
  have hne : lyrics ≠ [] := by
    intro h
    subst h
    simp at hk
  have hemp : lyrics.isEmpty = false := by
    cases lyrics with
    | nil => exact absurd rfl hne
    | cons c rest => rfl
  have hneq : (-1 : Int) ≠ (k : Int) := by omega
  unfold UpdateLyricDisplay
  simp only [hemp, Bool.false_eq_true, if_false, hidx, ne_eq, hneq, not_false_eq_true, if_true]
  have htext : lyricTextAt lyrics (-1) = [] := by
    unfold lyricTextAt
    simp
  rw [htext]

/-- C28. With the active index at cue `k` and a time `t` before the timestamp of cue `k`,
`UpdateLyricDisplay(t)` sets the index to -1 and, with a display, sends the empty text,
whatever cues stand before `k`. On a sorted cue list a second call with the same `t` sets
the index to the last cue with timestamp `<= t`; when such a cue exists that index is
not negative and lies before `k`, so the second call changes the state again and sends that
cue's text: the function is not idempotent. -/
theorem lyric_update_not_idempotent_on_time_going_back (display : Bool)
    (lyrics : List (Int × Text)) (k : Nat) (cue_k : Int × Text) (t : Int)
    (hk : lyrics[k]? = some cue_k) (hlate : t < cue_k.1) :
    UpdateLyricDisplay display ⟨lyrics, (k : Int)⟩ t
        = (⟨lyrics, -1⟩, if display then some [] else none) ∧
    (SortedByTime lyrics →
      (UpdateLyricDisplay display (UpdateLyricDisplay display ⟨lyrics, (k : Int)⟩ t).1 t).1
          = ⟨lyrics, (leadCount t lyrics : Int) - 1⟩ ∧
        IsLastCueAtOrBefore lyrics t ((leadCount t lyrics : Int) - 1) ∧
        (leadCount t lyrics : Int) - 1 < k ∧
        ∀ (j : Nat) (cue : Int × Text), lyrics[j]? = some cue → cue.1 ≤ t →
          0 ≤ (leadCount t lyrics : Int) - 1 ∧
          (UpdateLyricDisplay display (UpdateLyricDisplay display ⟨lyrics, (k : Int)⟩ t).1 t).1
            ≠ (UpdateLyricDisplay display ⟨lyrics, (k : Int)⟩ t).1 ∧
          (UpdateLyricDisplay true (UpdateLyricDisplay true ⟨lyrics, (k : Int)⟩ t).1 t).2
            = some (lyricTextAt lyrics ((leadCount t lyrics : Int) - 1))) := by
  have hfirst := update_before_active display lyrics k cue_k t hk hlate
  have hfirstT := update_before_active true lyrics k cue_k t hk hlate
  refine ⟨hfirst, ?_⟩
  intro hs
  have hsecond := update_sorted display lyrics (-1) t hs (Or.inl rfl)
  have hlast := leadCount_isLast t lyrics hs
  have hbefore : (leadCount t lyrics : Int) - 1 < k := by
    by_contra hcon
    obtain ⟨cue, hget, hle⟩ := leadCount_get t lyrics k (by omega)
    rw [hk] at hget
    simp only [Option.some.injEq] at hget
    subst hget
    omega
  refine ⟨by rw [hfirst]; exact hsecond, hlast, hbefore, ?_⟩
  intro j cue hget hle
  have hpos := leadCount_complete t lyrics hs j cue hget hle
  have hne : lyrics ≠ [] := by
    intro h
    subst h
    simp at hk
  have hemp : lyrics.isEmpty = false := by
    cases lyrics with
    | nil => exact absurd rfl hne
    | cons c rest => rfl
  refine ⟨by omega, ?_, ?_⟩
  · rw [hfirst]
    simp only
    rw [hsecond]
    intro h
    have h2 := congrArg LyricState.current_lyric_index_ h
    simp only at h2
    omega
  · rw [hfirstT]
    simp only
    have hidx : newLyricIndex ⟨lyrics, -1⟩ t = (leadCount t lyrics : Int) - 1 :=
      newLyricIndex_sorted lyrics (-1) t hs (Or.inl rfl)
    have hneq : (leadCount t lyrics : Int) - 1 ≠ -1 := by omega
    unfold UpdateLyricDisplay
    simp only [hemp, Bool.false_eq_true, if_false, hidx, ne_eq, hneq, not_false_eq_true,
      if_true]

/-- Witness for C28: with cues at 1000, 2000, 2000 ms and the index at cue 2, a call at
1500 ms sets the index to -1 and sends the empty text; the same call again sets it to
cue 0 and sends its text. -/
theorem lyric_update_not_idempotent_on_time_going_back_witness :
    UpdateLyricDisplay true ⟨sampleLyrics, 2⟩ 1500 = (⟨sampleLyrics, -1⟩, some []) ∧
      UpdateLyricDisplay true ⟨sampleLyrics, -1⟩ 1500
        = (⟨sampleLyrics, 0⟩, some "one".toList) :=
  ⟨(lyric_update_not_idempotent_on_time_going_back true sampleLyrics 2 (2000, "three".toList)
      1500 (by decide) (by decide)).1,
    by decide⟩

/-! ## The refill of the decode window -/

theorem appendChunk_live (s : PlayState) (chunk : AudioChunk) (hinv : WindowInv s)
    (hw : WindowWritten s) (hdata : chunk.data.length = chunk.size) :
    liveBytes (appendChunk s chunk)
        = liveBytes s ++ chunk.data.take (min chunk.size (8192 - s.bytes_left).toNat) ∧
      (appendChunk s chunk).bytes_left
        = s.bytes_left + (min chunk.size (8192 - s.bytes_left).toNat : Nat) ∧
      (appendChunk s chunk).read_ptr = some 0 ∧
      WindowWritten (appendChunk s chunk) := by
  obtain ⟨h0, hmax, hptr⟩ := hinv
  have hmod : ((8192 - s.bytes_left) % 4294967296).toNat = (8192 - s.bytes_left).toNat := by
    rw [Int.emod_eq_of_lt (by omega) (by omega)]
  generalize hcopy : min chunk.size (8192 - s.bytes_left).toNat = copy
  have hcopy_le : (copy : Int) ≤ 8192 - s.bytes_left := by
    have : copy ≤ (8192 - s.bytes_left).toNat := by
      rw [← hcopy]
      exact Nat.min_le_right _ _
    omega
  have hcopy_size : copy ≤ chunk.size := by
    rw [← hcopy]
    exact Nat.min_le_left _ _
  have hwrap : wrapInt32 (s.bytes_left + (copy : Int)) = s.bytes_left + (copy : Int) :=
    wrapInt32_of_range _ (by omega) (by omega)
  have hlive_len : (liveBytes s).length = s.bytes_left.toNat := by
    unfold liveBytes
    unfold WindowWritten at hw
    rw [List.length_take, List.length_drop]
    omega
  have htake_len : (chunk.data.take copy).length = copy := by
    rw [List.length_take]
    omega
  have hbase : (if s.bytes_left > 0 ∧ s.read_ptr ≠ some 0 then
        memmoveToFront s.mp3_input_buffer (s.read_ptr.getD 0) s.bytes_left
      else s.mp3_input_buffer).take s.bytes_left.toNat = liveBytes s := by
    split_ifs with hc
    · unfold memmoveToFront
      rw [List.take_append_of_le_length (by
        have := hlive_len
        unfold liveBytes at this
        omega)]
      have := hlive_len
      unfold liveBytes at this
      rw [List.take_of_length_le (by omega)]
      rfl
    · unfold liveBytes
      by_cases hb : s.bytes_left > 0
      · have hp : s.read_ptr = some 0 := by
          by_contra hne
          exact hc ⟨hb, hne⟩
        rw [hp]
        rfl
      · have hz : s.bytes_left.toNat = 0 := by omega
        rw [hz]
        simp
  have hbuf : (appendChunk s chunk).mp3_input_buffer
      = liveBytes s ++ chunk.data.take copy
          ++ (if s.bytes_left > 0 ∧ s.read_ptr ≠ some 0 then
                memmoveToFront s.mp3_input_buffer (s.read_ptr.getD 0) s.bytes_left
              else s.mp3_input_buffer).drop (s.bytes_left.toNat + (chunk.data.take copy).length) := by
    show memcpyAt _ _ _ = _
    rw [hmod, hcopy]
    unfold memcpyAt
    rw [hbase]
  have hbl : (appendChunk s chunk).bytes_left = s.bytes_left + (copy : Int) := by
    show wrapInt32 _ = _
    rw [hmod, hcopy]
    exact hwrap
  have hrp : (appendChunk s chunk).read_ptr = some 0 := rfl
  refine ⟨?_, hbl, hrp, ?_⟩
  · unfold liveBytes
    rw [hrp, hbl, hbuf]
    simp only [Option.getD_some, Int.toNat_zero, List.drop_zero]
    have hlen : (s.bytes_left + (copy : Int)).toNat
        = (liveBytes s ++ chunk.data.take copy).length := by
      rw [List.length_append, hlive_len, htake_len]
      omega
    rw [hlen, List.take_left' rfl]
    rfl
  · unfold WindowWritten
    rw [hrp, hbl, hbuf]
    simp only [Option.getD_some, Int.toNat_zero, List.length_append, hlive_len, htake_len]
    omega

theorem skipId3Once_bytes_left_le (s : PlayState) (h0 : 0 ≤ s.bytes_left)
    (hmax : s.bytes_left ≤ 8192) : (skipId3Once s).bytes_left ≤ s.bytes_left := by
  unfold skipId3Once
  split_ifs
  · have hle := skipId3Tag_le_size
      (some (s.mp3_input_buffer.drop (s.read_ptr.getD 0).toNat)) s.bytes_left.toNat
    show wrapInt32 _ ≤ _
    rw [wrapInt32_of_range _ (by omega) (by omega)]
    omega
  · exact le_refl _
  · exact le_refl _

/-- C27. When the loop refills the window (so `bytes_left < 4096`) with a chunk of at most
4096 bytes, the copy appends every byte of the chunk behind the unconsumed bytes, which
keep their order and now start the window; `bytes_left` grows by the chunk size and is at
most 8191 after the copy, and still after the ID3 skip that may follow. For any chunk the
bytes appended are its first `min(chunk.size, 8192 - bytes_left)`: a chunk larger than the
free space loses what is beyond it and fills the window to 8192. -/
theorem refill_appends_whole_chunk (s : PlayState) (chunk : AudioChunk)
    (hinv : WindowInv s) (hw : WindowWritten s) (hdata : chunk.data.length = chunk.size) :
    (s.bytes_left < 4096 → chunk.size ≤ 4096 →
      liveBytes (appendChunk s chunk) = liveBytes s ++ chunk.data ∧
      (appendChunk s chunk).bytes_left = s.bytes_left + chunk.size ∧
      (appendChunk s chunk).bytes_left ≤ 8191 ∧
      (fillWindow s chunk).bytes_left ≤ 8191) ∧
    (appendChunk s chunk).read_ptr = some 0 ∧
    liveBytes (appendChunk s chunk)
      = liveBytes s ++ chunk.data.take (min chunk.size (8192 - s.bytes_left).toNat) ∧
    ((8192 - s.bytes_left).toNat < chunk.size →
      liveBytes (appendChunk s chunk)
        = liveBytes s ++ chunk.data.take (8192 - s.bytes_left).toNat ∧
      (appendChunk s chunk).bytes_left = 8192) := by
  obtain ⟨hlive, hbl, hrp, hw2⟩ := appendChunk_live s chunk hinv hw hdata
  obtain ⟨h0, hmax, _⟩ := hinv
  refine ⟨?_, hrp, hlive, ?_⟩
  · intro hlt hsize
    have hmin : min chunk.size (8192 - s.bytes_left).toNat = chunk.size :=
      Nat.min_eq_left (by omega)
    rw [hmin] at hlive hbl
    have htake : chunk.data.take chunk.size = chunk.data := by
      rw [← hdata]
      exact List.take_length chunk.data
    rw [htake] at hlive
    refine ⟨hlive, hbl, by omega, ?_⟩
    unfold fillWindow
    split_ifs
    · show (skipId3Once (appendChunk s chunk)).bytes_left ≤ 8191
      have := skipId3Once_bytes_left_le (appendChunk s chunk) (by omega) (by omega)
      omega
    · omega
  · intro hbig
    have hmin : min chunk.size (8192 - s.bytes_left).toNat = (8192 - s.bytes_left).toNat :=
      Nat.min_eq_right (by omega)
    rw [hmin] at hlive hbl
    exact ⟨hlive, by omega⟩

theorem tailState_windowInv : WindowInv tailState :=
  ⟨by decide, by decide, by show (0 : Int) ≤ 100 ∧ (100 : Int) + 4000 ≤ 8192; decide⟩

theorem tailState_windowWritten : WindowWritten tailState := by
  show 100 + 4000 ≤ (List.replicate 100 0 ++ List.replicate 4000 7).length
  rw [List.length_append, List.length_replicate, List.length_replicate]

/-- Witness for C27: a 2-byte chunk arriving when 8 bytes are left is appended whole; of a
5000-byte chunk arriving when 4000 bytes are left only the first 4192 bytes are kept. -/
theorem refill_appends_whole_chunk_witness :
    liveBytes (appendChunk sampleFilledState ⟨[9, 10], 2⟩) = [1, 2, 3, 4, 5, 6, 7, 8, 9, 10] ∧
      (appendChunk tailState ⟨List.replicate 5000 1, 5000⟩).bytes_left = 8192 ∧
      liveBytes (appendChunk tailState ⟨List.replicate 5000 1, 5000⟩)
        = liveBytes tailState ++ (List.replicate 5000 1).take 4192 :=
  ⟨((refill_appends_whole_chunk sampleFilledState ⟨[9, 10], 2⟩
      ⟨by decide, by decide, by show (0 : Int) ≤ 0 ∧ (0 : Int) + 8 ≤ 8192; decide⟩
      (by show 0 + 8 ≤ 8; decide) rfl).1 (by decide) (by decide)).1,
    ((refill_appends_whole_chunk tailState ⟨List.replicate 5000 1, 5000⟩ tailState_windowInv
      tailState_windowWritten (List.length_replicate _ _)).2.2.2 (by decide)).2,
    ((refill_appends_whole_chunk tailState ⟨List.replicate 5000 1, 5000⟩ tailState_windowInv
      tailState_windowWritten (List.length_replicate _ _)).2.2.2 (by decide)).1⟩

/-! ## The end of the stream -/

theorem loopIteration_at_end (cfg : PlayConfig) (env : IterEnv) (s : PlayState)
    (hplay : s.is_playing_ = true) (hidle : env.device_state = DeviceState.idle)
    (hshort : s.bytes_left < 4096) (hempty : s.buf.audio_buffer_ = [])
    (hdone : s.is_downloading_ = false) :
    loopIteration cfg env s = { showSongName cfg s with pc := PlayPc.loopExit } := by
  obtain ⟨_, _, _, n4, n5, _, _, _, _, n10, _⟩ := showSongName_frame cfg s
  unfold loopIteration
  simp only [hplay, Bool.not_true, Bool.false_eq_true, if_false, hidle]
  unfold refillAndDecode
  simp [n4, n5, n10, hshort, hempty, hdone]

/-- C29. At the loop head, playing, with the device idle, fewer than 4096 bytes left in the
window, the queue empty and the download over, the iteration leaves the loop at once: the
state it leaves does not depend on the decoder (neither `MP3FindSyncWord` nor `MP3Decode`
is consulted), the bytes left in the window are still there, no frame is counted and no
packet handed over, and nothing later changes that. From inside the wait for a chunk the
same happens one `continue` later. -/
theorem short_tail_is_never_decoded (cfg : PlayConfig) (env : IterEnv) (s : PlayState)
    (hplay : s.is_playing_ = true) (hidle : env.device_state = DeviceState.idle)
    (hshort : s.bytes_left < 4096) (hempty : s.buf.audio_buffer_ = [])
    (hdone : s.is_downloading_ = false) :
    (s.pc = PlayPc.loopHead →
      playStep cfg env s = { showSongName cfg s with pc := PlayPc.loopExit } ∧
      (playStep cfg env s).pc = PlayPc.loopExit ∧
      (playStep cfg env s).bytes_left = s.bytes_left ∧
      liveBytes (playStep cfg env s) = liveBytes s ∧
      (playStep cfg env s).total_frames_decoded_ = s.total_frames_decoded_ ∧
      packetsOf (playStep cfg env s).events = packetsOf s.events ∧
      ∀ envs, playRun cfg envs (playStep cfg env s) = playStep cfg env s) ∧
    (s.pc = PlayPc.popWait →
      ∀ env2 : IterEnv, env2.device_state = DeviceState.idle →
        playRun cfg [env, env2] s = { showSongName cfg s with pc := PlayPc.loopExit }) := by
  obtain ⟨n1, n2, n3, n4, n5, n6, n7, n8, n9, n10, n11⟩ := showSongName_frame cfg s
  constructor
  · intro hpc
    have hstep : playStep cfg env s = { showSongName cfg s with pc := PlayPc.loopExit } := by
      unfold playStep
      simp only [hpc]
      exact loopIteration_at_end cfg env s hplay hidle hshort hempty hdone
    refine ⟨hstep, ?_, ?_, ?_, ?_, ?_, ?_⟩
    · rw [hstep]
    · rw [hstep]
      exact n10
    · rw [hstep]
      unfold liveBytes
      show (List.drop ((showSongName cfg s).read_ptr.getD 0).toNat
        (showSongName cfg s).mp3_input_buffer).take (showSongName cfg s).bytes_left.toNat = _
      rw [n9, n10, n11]
    · rw [hstep]
      exact n6
    · rw [hstep]
      exact (showSongName_events cfg s).1
    · intro envs
      exact playRun_of_loopExit cfg envs _ (by rw [hstep])
  · intro hpc env2 hidle2
    have hstep1 : playStep cfg env s = { s with pc := PlayPc.loopHead } := by
      unfold playStep
      simp [hpc, popWaitPred, hempty, hdone]
    simp only [playRun]
    rw [hstep1]
    have hstep2 : playStep cfg env2 { s with pc := PlayPc.loopHead }
        = loopIteration cfg env2 { s with pc := PlayPc.loopHead } := rfl
    have h2 := loopIteration_at_end cfg env2 ({ s with pc := PlayPc.loopHead } : PlayState)
      hplay hidle2 hshort hempty hdone
    rw [hstep2, h2]
    unfold showSongName
    split_ifs <;> rfl

/-- Witness for C29: with 8 bytes left, from which the sample decoder would decode a frame
and hand over a packet, an empty queue and the download over, the step leaves the loop
with the 8 bytes still in the window and no packet. -/
theorem short_tail_is_never_decoded_witness :
    packetsOf (syncAndDecode sampleConfig sampleEnv sampleFilledState).events ≠ [] ∧
      (playStep sampleConfig sampleEnv sampleFilledState).pc = PlayPc.loopExit ∧
      liveBytes (playStep sampleConfig sampleEnv sampleFilledState)
        = [1, 2, 3, 4, 5, 6, 7, 8] ∧
      packetsOf (playStep sampleConfig sampleEnv sampleFilledState).events = [] :=
  ⟨by decide,
    ((short_tail_is_never_decoded sampleConfig sampleEnv sampleFilledState rfl rfl
      (by decide) rfl rfl).1 rfl).2.1,
    by decide, by decide⟩

/-! ## Properties of the lyric download -/

theorem opensOf_append (xs ys : List LyricEvent) :
    opensOf (xs ++ ys) = opensOf xs + opensOf ys := by
  induction xs with
  | nil => simp [opensOf]
  | cons e xs ih =>
    cases e <;> simp [opensOf, ih]
    omega

theorem attemptOnce_spec (o : LyricAttempt) (attempt : Nat) (st : FetchState)
    (hst : st.success = false) :
    opensOf (attemptOnce o attempt st).1.events ≤ opensOf st.events + 1 ∧
      ((attemptOnce o attempt st).1.success = true ↔ AttemptSucceeds o) ∧
      ((attemptOnce o attempt st).1.success = true →
        (attemptOnce o attempt st).1.lyric_content = readAll o.reads) := by
  unfold attemptOnce AttemptSucceeds
  split_ifs with h1 h2 h3 h4 h5 h6 h7 h8 h9 <;>
    simp_all [opensOf_append, opensOf] <;> omega

theorem fetchLyrics_of_success (outcomes : Nat → LyricAttempt) (remaining attempt : Nat)
    (st : FetchState) (hst : st.success = true) :
    fetchLyrics outcomes remaining attempt st = st := by
  cases remaining with
  | zero => rfl
  | succ n => simp [fetchLyrics, hst]

theorem fetchLyrics_spec (outcomes : Nat → LyricAttempt) (remaining : Nat) :
    ∀ (attempt : Nat) (st : FetchState), st.success = false →
      opensOf (fetchLyrics outcomes remaining attempt st).events
          ≤ opensOf st.events + remaining ∧
        ((fetchLyrics outcomes remaining attempt st).success = true →
          ∃ k, attempt ≤ k ∧ k < attempt + remaining ∧ AttemptSucceeds (outcomes k) ∧
            (fetchLyrics outcomes remaining attempt st).lyric_content
              = readAll (outcomes k).reads) ∧
        ((∀ k, attempt ≤ k → k < attempt + remaining → ¬ AttemptSucceeds (outcomes k)) →
          (fetchLyrics outcomes remaining attempt st).success = false) := by
  induction remaining with
  | zero =>
    intro attempt st hst
    simp [fetchLyrics, hst]
  | succ n ih =>
    intro attempt st hst
    obtain ⟨a1, a2, a3⟩ := attemptOnce_spec (outcomes attempt) attempt st hst
    simp only [fetchLyrics, hst, Bool.false_eq_true, if_false]
    by_cases hbreak : (attemptOnce (outcomes attempt) attempt st).2 = true
    · simp only [hbreak, if_true]
      refine ⟨by omega, ?_, ?_⟩
      · intro hs
        exact ⟨attempt, le_refl _, by omega, a2.mp hs, a3 hs⟩
      · intro hnone
        have := hnone attempt (le_refl _) (by omega)
        cases hs : (attemptOnce (outcomes attempt) attempt st).1.success with
        | false => rfl
        | true => exact absurd (a2.mp hs) this
    · simp only [hbreak, Bool.false_eq_true, if_false]
      cases hs : (attemptOnce (outcomes attempt) attempt st).1.success with
      | true =>
        rw [fetchLyrics_of_success outcomes n (attempt + 1) _ hs]
        refine ⟨by omega, ?_, ?_⟩
        · intro _
          exact ⟨attempt, le_refl _, by omega, a2.mp hs, a3 hs⟩
        · intro hnone
          exact absurd (a2.mp hs) (hnone attempt (le_refl _) (by omega))
      | false =>
        obtain ⟨i1, i2, i3⟩ := ih (attempt + 1) _ hs
        refine ⟨by omega, ?_, ?_⟩
        · intro hsucc
          obtain ⟨k, hk1, hk2, hk3, hk4⟩ := i2 hsucc
          exact ⟨k, by omega, by omega, hk3, hk4⟩
        · intro hnone
          exact i3 (fun k hk1 hk2 => hnone k (by omega) (by omega))

/-- C25. Whatever the transport answers, a call of `DownloadLyrics` calls `Open` at most 3
times; when the fetch succeeds, an attempt `k < 3` succeeded, the text that is parsed is
exactly what was read during that attempt, and `lyrics_` is its parse; when none of the 3
attempts succeeds, or the URL is empty, the call returns false. -/
theorem download_lyrics_retries (stof : Text → Option F32) (lyric_url : Text)
    (outcomes : Nat → LyricAttempt) (lyrics_ : List (Int × Text)) :
    opensOf (DownloadLyrics stof lyric_url outcomes lyrics_).events ≤ 3 ∧
    ((fetchLyrics outcomes 3 0 ⟨[], false, []⟩).success = true →
      ∃ k, k < 3 ∧ AttemptSucceeds (outcomes k) ∧
        (fetchLyrics outcomes 3 0 ⟨[], false, []⟩).lyric_content = readAll (outcomes k).reads ∧
        (lyric_url ≠ [] →
          (DownloadLyrics stof lyric_url outcomes lyrics_).lyrics_
            = parseLyrics stof (readAll (outcomes k).reads))) ∧
    ((∀ k, k < 3 → ¬ AttemptSucceeds (outcomes k)) →
      (DownloadLyrics stof lyric_url outcomes lyrics_).returned = false) ∧
    (lyric_url = [] → (DownloadLyrics stof lyric_url outcomes lyrics_).returned = false) := by
  obtain ⟨f1, f2, f3⟩ := fetchLyrics_spec outcomes 3 0 ⟨[], false, []⟩ rfl
  refine ⟨?_, ?_, ?_, ?_⟩
  · unfold DownloadLyrics
    split_ifs
    · simp [opensOf]
    · simpa [opensOf] using f1
    · simpa [opensOf] using f1
  · intro hs
    obtain ⟨k, _, hk2, hk3, hk4⟩ := f2 hs
    refine ⟨k, by omega, hk3, hk4, ?_⟩
    intro hurl
    have hemp : lyric_url.isEmpty = false := by
      cases lyric_url with
      | nil => exact absurd rfl hurl
      | cons c rest => rfl
    unfold DownloadLyrics
    simp [hemp, hs, hk4]
  · intro hnone
    have hf := f3 (fun k _ hk => hnone k (by omega))
    unfold DownloadLyrics
    split_ifs
    · rfl
    · rfl
    · simp_all
  · intro hurl
    subst hurl
    rfl

/-- Witness for C25: the first attempt ends in a read error after `[00:01.00]x`, the
second reads two cues to the end; the cue of the first attempt is not in the result, and
`Open` was called twice. -/
theorem download_lyrics_retries_witness :
    DownloadLyrics stof_decimal "http://l".toList sampleOutcomes []
        = { returned := true
            lyrics_ := [(2000, "a".toList), (3000, "b".toList)]
            events := [LyricEvent.createHttp true, LyricEvent.httpOpen true,
              LyricEvent.malloc true, LyricEvent.free, LyricEvent.httpClose,
              LyricEvent.sleep 300, LyricEvent.createHttp true, LyricEvent.httpOpen true,
              LyricEvent.malloc true, LyricEvent.free, LyricEvent.httpClose] } ∧
      (DownloadLyrics stof_decimal "http://l".toList (fun _ => ⟨true, false, 0, true, [], 0⟩)
        []).returned = false :=
  ⟨by decide,
    (download_lyrics_retries stof_decimal "http://l".toList
      (fun _ => ⟨true, false, 0, true, [], 0⟩) []).2.2.1
      (by
        intro k _ h
        exact Bool.noConfusion h.2.1)⟩

/-! ## Properties of the end of playback and of `StopStreaming` -/

theorem rateCallsOf_append (xs ys : List PlayEvent) :
    rateCallsOf (xs ++ ys) = rateCallsOf xs ++ rateCallsOf ys := by
  induction xs with
  | nil => rfl
  | cons e xs ih => cases e <;> simp [rateCallsOf, ih]

theorem finishPlayback_rate (cfg : PlayConfig) (s : PlayState) :
    (finishPlayback cfg s).output_sample_rate = s.output_sample_rate ∧
      rateCallsOf (finishPlayback cfg s).events = rateCallsOf s.events := by
  unfold finishPlayback
  split_ifs <;> simp [rateCallsOf_append, rateCallsOf]

theorem early_exit_rate (cfg : PlayConfig) (s : PlayState) :
    (∀ codec_ok decoder_initialized,
      (PlayAudioStream_begin cfg codec_ok decoder_initialized s).output_sample_rate
          = s.output_sample_rate ∧
        rateCallsOf (PlayAudioStream_begin cfg codec_ok decoder_initialized s).events
          = rateCallsOf s.events) ∧
    (∀ MIN_BUFFER_SIZE malloc_ok,
      (passEntryWait MIN_BUFFER_SIZE cfg malloc_ok s).output_sample_rate
          = s.output_sample_rate ∧
        rateCallsOf (passEntryWait MIN_BUFFER_SIZE cfg malloc_ok s).events
          = rateCallsOf s.events) := by
  constructor
  · intro codec_ok decoder_initialized
    unfold PlayAudioStream_begin
    simp only []
    split_ifs <;> simp [rateCallsOf_append, rateCallsOf]
  · intro MIN_BUFFER_SIZE malloc_ok
    unfold passEntryWait
    split_ifs <;> simp [rateCallsOf_append, rateCallsOf]

/-- C21. The code that ends `PlayAudioStream` (after the loop, and on the early returns)
never calls `SetOutputSampleRate` and leaves the codec's output sample rate as it is. The
sample worker, started with the codec at 24000 Hz, plays its stream at 44100 Hz to the end
and returns with the codec at 44100 Hz, its only call being `SetOutputSampleRate(44100)`:
no reset is made. `ResetSampleRate`, which `StopStreaming` calls first, does reset such a
codec by `SetOutputSampleRate(-1)`. -/
theorem finished_worker_leaves_sample_rate_changed :
    (∀ cfg s, (finishPlayback cfg s).output_sample_rate = s.output_sample_rate ∧
      rateCallsOf (finishPlayback cfg s).events = rateCallsOf s.events) ∧
    samplePlayState.output_sample_rate = 24000 ∧
    (finishPlayback sampleConfig
      (playRun sampleConfig [sampleEnv, sampleEnv] samplePlayState)).pc = PlayPc.returned ∧
    (finishPlayback sampleConfig
      (playRun sampleConfig [sampleEnv, sampleEnv] samplePlayState)).output_sample_rate
        = 44100 ∧
    rateCallsOf (finishPlayback sampleConfig
      (playRun sampleConfig [sampleEnv, sampleEnv] samplePlayState)).events
        = [(44100, true)] ∧
    (ResetSampleRate (some sampleCodec)).2 = [StopEvent.setOutputSampleRate (-1) true] ∧
    (ResetSampleRate (some sampleCodec)).1.map Codec.output_sample_rate = some 24000 ∧
    (StopStreaming true false true (fun _ => true) streamingPlayer).2.events.head?
      = some (StopEvent.setOutputSampleRate (-1) true) := by
  refine ⟨fun cfg s => finishPlayback_rate cfg s, rfl, ?_, ?_, ?_, ?_, ?_, ?_⟩
  · decide
  · decide
  · decide
  · decide
  · decide
  · rfl

theorem pollPlayThread_le (joinable : Nat → Bool) (remaining : Nat) :
    ∀ wait_count, (pollPlayThread joinable remaining wait_count).1 ≤ wait_count + remaining := by
  induction remaining with
  | zero =>
    intro wait_count
    simp [pollPlayThread]
  | succ n ih =>
    intro wait_count
    simp only [pollPlayThread]
    split_ifs
    · simp only
      omega
    · have := ih (wait_count + 1)
      omega

theorem pollPlayThread_stable (remaining : Nat) :
    ∀ wait_count,
      pollPlayThread (fun _ => true) remaining wait_count = (wait_count + remaining, false) := by
  induction remaining with
  | zero =>
    intro wait_count
    simp [pollPlayThread]
  | succ n ih =>
    intro wait_count
    simp only [pollPlayThread, Bool.not_true, Bool.false_eq_true, if_false, ih]
    congr 1
    omega

theorem stopStreaming_flags (display spectrum_mode download_joinable : Bool)
    (play_joinable : Nat → Bool) (p : PlayerState) :
    (StopStreaming display spectrum_mode download_joinable play_joinable p).1 = true ∧
      (StopStreaming display spectrum_mode download_joinable play_joinable p).2.is_downloading_
        = false ∧
      (StopStreaming display spectrum_mode download_joinable play_joinable p).2.is_playing_
        = false := by
  unfold StopStreaming
  cases h1 : p.is_playing_ <;> cases h2 : p.is_downloading_ <;> simp [h1, h2]

/-- C24. `StopStreaming` returns true with both flags false, and its loop polls at most 100
times. While the thread object is neither joined nor detached by someone else,
`play_thread_.joinable()` stays true whether or not the thread function has returned: the
loop then polls the full 100 times and the thread is detached, not joined. `join()` is
reached only when a poll finds the object not joinable and the test after the loop finds
it joinable again; when it stays not joinable, neither call is made. -/
theorem stopStreaming_detaches_joinable_thread :
    (∀ display spectrum_mode download_joinable play_joinable p,
      (StopStreaming display spectrum_mode download_joinable play_joinable p).1 = true ∧
      (StopStreaming display spectrum_mode download_joinable play_joinable p).2.is_downloading_
        = false ∧
      (StopStreaming display spectrum_mode download_joinable play_joinable p).2.is_playing_
        = false) ∧
    (∀ play_joinable, (pollPlayThread play_joinable 100 0).1 ≤ 100) ∧
    pollPlayThread (fun _ => true) 100 0 = (100, false) ∧
    waitForPlayThread (fun _ => true)
      = [StopEvent.notifyAll] ++ List.replicate 100 (StopEvent.delay 10)
          ++ [StopEvent.detachPlay] ∧
    StopEvent.joinPlay ∉
      (StopStreaming true false true (fun _ => true) streamingPlayer).2.events ∧
    StopEvent.detachPlay ∈
      (StopStreaming true false true (fun _ => true) streamingPlayer).2.events ∧
    waitForPlayThread (fun i => decide (i ≠ 3))
      = [StopEvent.notifyAll, StopEvent.delay 10, StopEvent.delay 10, StopEvent.delay 10,
         StopEvent.joinPlay] ∧
    waitForPlayThread (fun i => decide (i < 3))
      = [StopEvent.notifyAll, StopEvent.delay 10, StopEvent.delay 10, StopEvent.delay 10] := by
  have hpoll : pollPlayThread (fun _ => true) 100 0 = (100, false) := by
    have := pollPlayThread_stable 100 0
    simpa using this
  have hwait : waitForPlayThread (fun _ => true)
      = [StopEvent.notifyAll] ++ List.replicate 100 (StopEvent.delay 10)
          ++ [StopEvent.detachPlay] := by
    unfold waitForPlayThread
    simp [hpoll]
  refine ⟨stopStreaming_flags, ?_, hpoll, hwait, ?_, ?_, ?_, ?_⟩
  · intro play_joinable
    have := pollPlayThread_le play_joinable 100 0
    omega
  · have hev : (StopStreaming true false true (fun _ => true) streamingPlayer).2.events
        = (ResetSampleRate (some sampleCodec)).2 ++ [StopEvent.setMusicInfo []]
            ++ [StopEvent.notifyAll] ++ [StopEvent.joinDownload]
            ++ waitForPlayThread (fun _ => true) ++ [StopEvent.resumeAnimations] := by
      simp [StopStreaming, streamingPlayer]
    rw [hev, hwait]
    simp [ResetSampleRate, sampleCodec, List.mem_replicate]
  · have hev : (StopStreaming true false true (fun _ => true) streamingPlayer).2.events
        = (ResetSampleRate (some sampleCodec)).2 ++ [StopEvent.setMusicInfo []]
            ++ [StopEvent.notifyAll] ++ [StopEvent.joinDownload]
            ++ waitForPlayThread (fun _ => true) ++ [StopEvent.resumeAnimations] := by
      simp [StopStreaming, streamingPlayer]
    rw [hev, hwait]
    simp
  · decide
  · decide

/-! ## Properties of the download worker -/

theorem downloadAudioStream_begin_flag (music_url : Text) (open_ok : Bool) (status_code : Int)
    (s : DlState) :
    ((DownloadAudioStream_begin music_url open_ok status_code s).pc = DlPc.returned ∧
        (DownloadAudioStream_begin music_url open_ok status_code s).is_downloading_ = false) ∨
      ((DownloadAudioStream_begin music_url open_ok status_code s).pc = DlPc.loopHead ∧
        (DownloadAudioStream_begin music_url open_ok status_code s).is_downloading_
          = s.is_downloading_) := by
  unfold DownloadAudioStream_begin
  split_ifs <;> simp

theorem downloadIteration_flag (MAX_BUFFER_SIZE : Nat) (it : DlIter) (s : DlState)
    (hpc : s.pc = DlPc.loopHead) :
    (downloadIteration MAX_BUFFER_SIZE it s).pc = DlPc.returned →
      (downloadIteration MAX_BUFFER_SIZE it s).is_downloading_ = false ∧
      ∃ before, (downloadIteration MAX_BUFFER_SIZE it s).events
        = before ++ [DlEvent.httpClose, DlEvent.clearDownloading, DlEvent.notifyAll] := by
  unfold downloadIteration
  split_ifs with h1 h2 h3
  · intro _
    exact ⟨rfl, _, rfl⟩
  · intro _
    exact ⟨rfl, _, rfl⟩
  · intro _
    exact ⟨rfl, _, rfl⟩
  · cases hp : pushChunk MAX_BUFFER_SIZE it.buf_at_wait it.data it.bytes_read.toNat
        it.is_downloading_at_wait with
    | none =>
      intro h
      simp at h
    | some out =>
      simp only
      split_ifs
      · intro _
        exact ⟨rfl, _, rfl⟩
      · intro h
        simp only at h
        rw [hpc] at h
        exact DlPc.noConfusion h

/-- C22. On the three early returns of `DownloadAudioStream` (URL not starting with
`http`, `Open` returning false, a status code other than 200 and 206) the flag is cleared
and an opened transport is closed, but `buffer_cv_.notify_all()` is not called. The exits
through the loop (here: end of the stream after one chunk) close the transport, clear the
flag and then notify. -/
theorem early_download_exits_do_not_notify :
    (∀ music_url open_ok status_code,
      DlEvent.notifyAll ∉
        (DownloadAudioStream_begin music_url open_ok status_code DlState.init).events) ∧
    DownloadAudioStream 262144 "ftp://a".toList true 200 [sampleRead, sampleEof]
      = { DlState.init with
            is_downloading_ := false, events := [DlEvent.clearDownloading]
            pc := DlPc.returned } ∧
    DownloadAudioStream 262144 "http://a".toList false 200 [sampleRead, sampleEof]
      = { DlState.init with
            is_downloading_ := false
            events := [DlEvent.createHttp, DlEvent.httpOpen false, DlEvent.clearDownloading]
            pc := DlPc.returned } ∧
    DownloadAudioStream 262144 "http://a".toList true 404 [sampleRead, sampleEof]
      = { DlState.init with
            is_downloading_ := false
            events := [DlEvent.createHttp, DlEvent.httpOpen true, DlEvent.httpClose,
                       DlEvent.clearDownloading]
            pc := DlPc.returned } ∧
    DownloadAudioStream 262144 "http://a".toList true 200 [sampleRead, sampleEof]
      = { buf := ⟨[⟨[1, 2, 3], 3⟩], 3⟩
          is_downloading_ := false
          total_downloaded := 3
          events := [DlEvent.createHttp, DlEvent.httpOpen true, DlEvent.read 3,
                     DlEvent.malloc true, DlEvent.push ⟨[1, 2, 3], 3⟩, DlEvent.notifyOne,
                     DlEvent.read 0, DlEvent.httpClose, DlEvent.clearDownloading,
                     DlEvent.notifyAll]
          pc := DlPc.returned } := by
  refine ⟨?_, by decide, by decide, by decide, by decide⟩
  intro music_url open_ok status_code
  unfold DownloadAudioStream_begin
  split_ifs <;> simp [DlState.init]

theorem downloadRun_returned_flag (MAX_BUFFER_SIZE : Nat) (its : List DlIter) :
    ∀ s : DlState, (s.pc = DlPc.returned → s.is_downloading_ = false) →
      (downloadRun MAX_BUFFER_SIZE its s).pc = DlPc.returned →
      (downloadRun MAX_BUFFER_SIZE its s).is_downloading_ = false := by
  induction its with
  | nil =>
    intro s hs h
    exact hs h
  | cons it its ih =>
    intro s hs
    simp only [downloadRun]
    split_ifs with hpc
    · exact ih _ (fun h => (downloadIteration_flag MAX_BUFFER_SIZE it s hpc h).1)
    · exact hs

/-! ## The exits of the playback worker -/

/-- C23 fails as stated: the early return for an unavailable codec only resumes the
animations (it neither clears the music-info text nor the preview image), and the worker
that plays its stream to the end clears the preview image but leaves the music-info text
it has set. -/
theorem worker_exits_differ_in_cleanup :
    (PlayAudioStream_begin sampleConfig false true samplePlayState).pc = PlayPc.returned ∧
    (PlayAudioStream_begin sampleConfig false true samplePlayState).events
      = [PlayEvent.resumeAnimations] ∧
    (finishPlayback sampleConfig
      (playRun sampleConfig [sampleEnv, sampleEnv] samplePlayState)).pc = PlayPc.returned ∧
    PlayEvent.setMusicInfo ("《s》播放中...".toList) ∈
      (finishPlayback sampleConfig
        (playRun sampleConfig [sampleEnv, sampleEnv] samplePlayState)).events ∧
    PlayEvent.setMusicInfo [] ∉
      (finishPlayback sampleConfig
        (playRun sampleConfig [sampleEnv, sampleEnv] samplePlayState)).events ∧
    PlayEvent.clearPreviewImage ∈
      (finishPlayback sampleConfig
        (playRun sampleConfig [sampleEnv, sampleEnv] samplePlayState)).events := by
  decide

/-- C23, amended. With a display present every exit path of the worker calls
`ResumeAnimations` and leaves `is_playing_` false: the early returns (codec unavailable,
decoder not initialised, window allocation failure) make that call only; cancellation,
the exhausted stream and a rejected sample rate leave the loop, and the code after the loop
resumes the animations and then clears the preview image. -/
theorem worker_exits_resume_animations (cfg : PlayConfig) (s : PlayState)
    (hdisplay : cfg.display = true) :
    (∀ codec_ok decoder_initialized, (!codec_ok || !decoder_initialized) = true →
      (PlayAudioStream_begin cfg codec_ok decoder_initialized s).pc = PlayPc.returned ∧
      (PlayAudioStream_begin cfg codec_ok decoder_initialized s).is_playing_ = false ∧
      (PlayAudioStream_begin cfg codec_ok decoder_initialized s).events
        = s.events ++ [PlayEvent.resumeAnimations]) ∧
    (∀ MIN_BUFFER_SIZE, s.pc = PlayPc.entryWait → entryWaitPred MIN_BUFFER_SIZE s = true →
      (passEntryWait MIN_BUFFER_SIZE cfg false s).pc = PlayPc.returned ∧
      (passEntryWait MIN_BUFFER_SIZE cfg false s).is_playing_ = false ∧
      (passEntryWait MIN_BUFFER_SIZE cfg false s).events
        = s.events ++ [PlayEvent.resumeAnimations]) ∧
    (s.pc = PlayPc.loopExit →
      (finishPlayback cfg s).pc = PlayPc.returned ∧
      (finishPlayback cfg s).is_playing_ = false ∧
      (finishPlayback cfg s).events
        = s.events ++ [PlayEvent.free s.mp3_input_buffer]
            ++ (if cfg.spectrum_mode then [PlayEvent.stopFft] else [])
            ++ [PlayEvent.resumeAnimations, PlayEvent.clearPreviewImage]) ∧
    (∀ env, s.pc = PlayPc.loopHead → s.is_playing_ = false →
      (playStep cfg env s).pc = PlayPc.loopExit) ∧
    (∀ env, s.pc = PlayPc.loopHead → s.is_playing_ = true →
      env.device_state = DeviceState.idle → s.bytes_left < 4096 →
      s.buf.audio_buffer_ = [] → s.is_downloading_ = false →
      (playStep cfg env s).pc = PlayPc.loopExit) ∧
    (∀ env, env.codec_present = true → 0 ≤ syncOffset env s →
      (decodeAfterSync env s).decode_result = 0 →
      (decodeAfterSync env s).frame.samprate ≠ 0 →
      (decodeAfterSync env s).frame.nChans ≠ 0 →
      frameDurationMs (decodeAfterSync env s).frame ≠ none →
      (decodeAfterSync env s).frame.outputSamps > 0 →
      pcmSizeBytes (decodeAfterSync env s).frame ≠ 0 →
      s.output_sample_rate ≠ (decodeAfterSync env s).frame.samprate →
      env.set_rate_ok (decodeAfterSync env s).frame.samprate = false →
      (syncAndDecode cfg env s).pc = PlayPc.loopExit) := by
  refine ⟨?_, ?_, ?_, ?_, ?_, ?_⟩
  · intro codec_ok decoder_initialized hbad
    unfold PlayAudioStream_begin
    simp [hbad, hdisplay]
  · intro MIN_BUFFER_SIZE hpc hpred
    unfold passEntryWait
    simp [hpc, hpred, hdisplay]
  · intro hpc
    unfold finishPlayback
    simp [hpc, hdisplay]
  · intro env hpc hplay
    unfold playStep
    simp only [hpc]
    unfold loopIteration
    simp [hplay]
  · intro env hpc hplay hidle hshort hempty hdone
    have h : playStep cfg env s = loopIteration cfg env s := by
      unfold playStep
      simp only [hpc]
    rw [h, loopIteration_at_end cfg env s hplay hidle hshort hempty hdone]
  · intro env hcodec hsync hdecoded hr hn hdur hsamps hsize hdiff hrej
    exact (syncAndDecode_rejected cfg env s hcodec hsync hdecoded hr hn hdur hsamps hsize
      hdiff hrej).2.2

/-- Witness for the amended C23: the early return of the sample worker for an unavailable
codec, and its return after the loop. -/
theorem worker_exits_resume_animations_witness :
    (PlayAudioStream_begin sampleConfig false true samplePlayState).events
        = [PlayEvent.resumeAnimations] ∧
      (finishPlayback sampleConfig { samplePlayState with pc := PlayPc.loopExit }).events
        = [PlayEvent.free [], PlayEvent.resumeAnimations, PlayEvent.clearPreviewImage] :=
  ⟨((worker_exits_resume_animations sampleConfig samplePlayState rfl).1 false true rfl).2.2,
    ((worker_exits_resume_animations sampleConfig
      { samplePlayState with pc := PlayPc.loopExit } rfl).2.2.1 rfl).2.2⟩

/-! ## The packet of a stereo frame -/

theorem framePacket_stereo_payload (info : MP3FrameInfo) (pcm_buffer : List Int) (n : Nat)
    (hstereo : info.nChans = 2) (hsamps : info.outputSamps = n) :
    (framePacket info pcm_buffer).payload = downmixStereo pcm_buffer n := by
  have hlen := downmixStereo_length pcm_buffer n
  have htd : (Int.tdiv (n : Int) 2).toNat = n / 2 := by
    rw [(tdiv_two_eq (n : Int)).1 (by omega)]
    omega
  unfold framePacket finalSampleCount
  simp only [hstereo, if_true, hsamps]
  rw [htd]
  exact List.take_of_length_le (by omega)

theorem pcmSizeBytes_stereo (info : MP3FrameInfo) (n : Nat) (hstereo : info.nChans = 2)
    (hsamps : info.outputSamps = n) (hn2 : 2 ≤ n) (hmax : n ≤ 2304) :
    pcmSizeBytes info ≠ 0 := by
  unfold pcmSizeBytes finalSampleCount
  simp only [hstereo, if_true, hsamps]
  rw [(tdiv_two_eq (n : Int)).1 (by omega)]
  omega

theorem emitFrame_emits (cfg : PlayConfig) (env : IterEnv) (s : PlayState)
    (info : MP3FrameInfo) (pcm_buffer : List Int) (hsamps : info.outputSamps > 0)
    (hsize : pcmSizeBytes info ≠ 0)
    (haccept : env.codec_present = true → s.output_sample_rate ≠ info.samprate →
      env.set_rate_ok info.samprate = true) :
    packetsOf (emitFrame cfg env s info pcm_buffer).events
      = packetsOf s.events ++ [framePacket info pcm_buffer] := by
  have heven := pcmSizeBytes_even info
  unfold emitFrame
  simp only [hsamps, if_true, hsize, heven, ne_eq, not_true_eq_false, or_self, if_false]
  by_cases hc : (env.codec_present && decide (s.output_sample_rate ≠ info.samprate)) = true
  · have hc' := hc
    simp only [Bool.and_eq_true, decide_eq_true_eq] at hc'
    have hok := haccept hc'.1 hc'.2
    simp only [hc, if_true, hok]
    simp [packetsOf_append, packetsOf]
  · simp only [hc, Bool.false_eq_true, if_false]
    simp [packetsOf_append, packetsOf]

theorem syncAndDecode_emits (cfg : PlayConfig) (env : IterEnv) (s : PlayState)
    (hsync : 0 ≤ syncOffset env s)
    (hdecoded : (decodeAfterSync env s).decode_result = 0)
    (hr : (decodeAfterSync env s).frame.samprate ≠ 0)
    (hn : (decodeAfterSync env s).frame.nChans ≠ 0)
    (hdur : frameDurationMs (decodeAfterSync env s).frame ≠ none)
    (hsamps : (decodeAfterSync env s).frame.outputSamps > 0)
    (hsize : pcmSizeBytes (decodeAfterSync env s).frame ≠ 0)
    (haccept : env.codec_present = true →
      s.output_sample_rate ≠ (decodeAfterSync env s).frame.samprate →
      env.set_rate_ok (decodeAfterSync env s).frame.samprate = true) :
    packetsOf (syncAndDecode cfg env s).events
      = packetsOf s.events
          ++ [framePacket (decodeAfterSync env s).frame (decodeAfterSync env s).pcm_buffer] := by
  have hns : ¬ syncOffset env s < 0 := by omega
  have hzero : ¬ ((decodeAfterSync env s).frame.samprate = 0 ∨
      (decodeAfterSync env s).frame.nChans = 0) := by
    intro h
    rcases h with h | h
    · exact hr h
    · exact hn h
  unfold syncAndDecode
  simp only [hns, if_false, hdecoded, if_true]
  generalize hout : decodeAfterSync env s = out at hzero hdur hsamps hsize haccept ⊢
  generalize ht0 : ({ skipToSync s (syncOffset env s) with
      read_ptr := out.read_ptr, bytes_left := out.bytes_left } : PlayState) = t0
  have hev0 : t0.events = s.events := by
    rw [← ht0]
    exact (skipToSync_frame s _).2.2.2.2.2.2.2.2.1
  have hrate0 : t0.output_sample_rate = s.output_sample_rate := by
    rw [← ht0]
    exact (skipToSync_frame s _).2.2.2.2.2.2.1
  cases hd : frameDurationMs out.frame with
  | none => exact absurd hd hdur
  | some d =>
    unfold onFrameDecoded
    simp only [hzero, if_false, hd]
    generalize ht : ({ { t0 with total_frames_decoded_ := wrapInt32 (t0.total_frames_decoded_ + 1) } with
        current_play_time_ms_ := t0.current_play_time_ms_ + d
        lyric := (UpdateLyricDisplay cfg.display t0.lyric (t0.current_play_time_ms_ + d + 600)).1
        events := t0.events ++ [PlayEvent.lyricUpdate (t0.current_play_time_ms_ + d + 600)]
          ++ (match (UpdateLyricDisplay cfg.display t0.lyric
                (t0.current_play_time_ms_ + d + 600)).2 with
              | some text => [PlayEvent.setChatMessage text]
              | none => []) } : PlayState) = t
    have hev : packetsOf t.events = packetsOf s.events := by
      rw [← ht, ← hev0]
      cases (UpdateLyricDisplay cfg.display t0.lyric (t0.current_play_time_ms_ + d + 600)).2 <;>
        simp [packetsOf_append, packetsOf]
    have hrt : t.output_sample_rate = s.output_sample_rate := by
      rw [← ht, ← hrate0]
    have h := emitFrame_emits cfg env t out.frame out.pcm_buffer hsamps hsize
      (by rw [hrt]; exact haccept)
    rw [hev] at h
    exact h

/-- C12. For a stereo frame (`nChans = 2`) of `n` samples (all values of `int16_t`, `n`
within the PCM buffer) the payload of the packet built for it is the downmix: it has
`n / 2` samples, and sample `i` is `(pcm[2i] + pcm[2i+1]) / 2` with the division
truncating toward zero: the sum stays within `int`, the quotient within [-32768, 32767],
so the cast to `int16_t` changes nothing. When such a frame of 2 to 2304 samples is decoded
in the loop and the codec does not reject its sample rate, that packet is the one handed
to `AddAudioData`. -/
theorem downmix_is_truncated_mean (info : MP3FrameInfo) (pcm_buffer : List Int) (n : Nat)
    (hstereo : info.nChans = 2) (hsamps : info.outputSamps = n)
    (hn : n ≤ pcm_buffer.length) (h16 : IsInt16Buffer pcm_buffer) :
    (framePacket info pcm_buffer).payload = downmixStereo pcm_buffer n ∧
    (framePacket info pcm_buffer).payload.length = n / 2 ∧
    (framePacket info pcm_buffer).sample_rate = info.samprate ∧
    (∀ i, i < n / 2 →
      ∃ left right, pcm_buffer[2 * i]? = some left ∧ pcm_buffer[2 * i + 1]? = some right ∧
        -2147483648 ≤ left + right ∧ left + right ≤ 2147483647 ∧
        -32768 ≤ Int.tdiv (left + right) 2 ∧ Int.tdiv (left + right) 2 ≤ 32767 ∧
        (framePacket info pcm_buffer).payload[i]? = some (Int.tdiv (left + right) 2)) ∧
    (∀ (cfg : PlayConfig) (env : IterEnv) (s : PlayState),
      0 ≤ syncOffset env s → (decodeAfterSync env s).decode_result = 0 →
      (decodeAfterSync env s).frame = info →
      (decodeAfterSync env s).pcm_buffer = pcm_buffer →
      info.samprate ≠ 0 → frameDurationMs info ≠ none → 2 ≤ n → n ≤ 2304 →
      (env.codec_present = true → s.output_sample_rate ≠ info.samprate →
        env.set_rate_ok info.samprate = true) →
      packetsOf (syncAndDecode cfg env s).events
        = packetsOf s.events ++ [framePacket info pcm_buffer]) := by
  have hpay := framePacket_stereo_payload info pcm_buffer n hstereo hsamps
  refine ⟨hpay, ?_, rfl, ?_, ?_⟩
  · rw [hpay]
    exact downmixStereo_length pcm_buffer n
  · intro i hi
    have h0 : 2 * i < pcm_buffer.length := by omega
    have h1 : 2 * i + 1 < pcm_buffer.length := by omega
    have hl := h16 _ (List.getElem_mem h0)
    have hr := h16 _ (List.getElem_mem h1)
    have hb := tdiv_two_bounds (pcm_buffer[2 * i] + pcm_buffer[2 * i + 1]) (by omega)
      (by omega)
    refine ⟨pcm_buffer[2 * i], pcm_buffer[2 * i + 1], List.getElem?_eq_getElem h0,
      List.getElem?_eq_getElem h1, by omega, by omega, hb.1, hb.2, ?_⟩
    rw [hpay, downmixStereo_get pcm_buffer n i hi]
    have e0 : pcm_buffer.getD (i * 2) 0 = pcm_buffer[2 * i] := by
      rw [List.getD_eq_getElem?_getD, Nat.mul_comm, List.getElem?_eq_getElem h0]
      rfl
    have e1 : pcm_buffer.getD (i * 2 + 1) 0 = pcm_buffer[2 * i + 1] := by
      rw [List.getD_eq_getElem?_getD, Nat.mul_comm, List.getElem?_eq_getElem h1]
      rfl
    rw [e0, e1]
    have hw : wrapInt32 (pcm_buffer[2 * i] + pcm_buffer[2 * i + 1])
        = pcm_buffer[2 * i] + pcm_buffer[2 * i + 1] := by
      unfold wrapInt32
      omega
    rw [hw]
    congr 1
    unfold toInt16
    omega
  · intro cfg env s hsync hdecoded hframe hpcm hrate hdur hn2 hmax haccept
    have hpos : info.outputSamps > 0 := by
      rw [hsamps]
      omega
    have hsize := pcmSizeBytes_stereo info n hstereo hsamps hn2 hmax
    have hnz : info.nChans ≠ 0 := by
      rw [hstereo]
      decide
    have h := syncAndDecode_emits cfg env s hsync hdecoded (by rw [hframe]; exact hrate)
      (by rw [hframe]; exact hnz) (by rw [hframe]; exact hdur) (by rw [hframe]; exact hpos)
      (by rw [hframe]; exact hsize) (by rw [hframe]; exact haccept)
    rw [hframe, hpcm] at h
    exact h

/-- Witness for C12: the stereo frame [32767, 32767, -1, 0, -32768, -32768, 100, -50] gives
the payload [32767, 0, -32768, 25]; the sample decoder's stereo frame [1, 3, 5, 8], decoded
from the filled window, is handed over as the packet with payload [2, 6]. -/
theorem downmix_is_truncated_mean_witness :
    (framePacket ⟨44100, 2, 8⟩ [32767, 32767, -1, 0, -32768, -32768, 100, -50]).payload
        = [32767, 0, -32768, 25] ∧
      (framePacket ⟨44100, 2, 8⟩
        [32767, 32767, -1, 0, -32768, -32768, 100, -50]).payload.length = 8 / 2 ∧
      packetsOf (syncAndDecode sampleConfig sampleEnv sampleFilledState).events
        = packetsOf sampleFilledState.events ++ [framePacket ⟨44100, 2, 4⟩ [1, 3, 5, 8]] ∧
      (framePacket ⟨44100, 2, 4⟩ [1, 3, 5, 8]).payload = [2, 6] :=
  ⟨by decide,
    (downmix_is_truncated_mean ⟨44100, 2, 8⟩ [32767, 32767, -1, 0, -32768, -32768, 100, -50] 8
      rfl rfl (by decide) (by unfold IsInt16Buffer; decide)).2.1,
    (downmix_is_truncated_mean ⟨44100, 2, 4⟩ [1, 3, 5, 8] 4 rfl rfl (by decide)
      (by unfold IsInt16Buffer; decide)).2.2.2.2 sampleConfig sampleEnv sampleFilledState
      (by decide) (by decide) (by decide) (by decide) (by decide) (by decide) (by decide)
      (by decide) (fun _ _ => rfl),
    by decide⟩

end Esp32Music
